import Mathlib

/-! # Frame synchronisation of `VulkanSampleApp`

A shallow embedding of the frame loop of `src/app.cpp` (`createSyncObjects`, `drawFrame`)
together with a small deterministic model of the GPU objects the loop talks to
(fences and the graphics queue), and the properties of the loop that follow from the code.

Conventions of the embedding

* A handle is `Option Nat`: `none` is `VK_NULL_HANDLE`, `some k` is the `k`-th object of its
  kind created on the device.
* `MAX_FRAMES_IN_FLIGHT`, declared in `constants.h`, is the parameter `N` everywhere; `n` is
  the number of images of the swap chain.
* `drawFrame` is straight-line code that may block inside `vkWaitForFences`; it is embedded as
  one function per statement, selected by a program counter, so that completions on the GPU can
  be interleaved between any two statements.
-/

namespace VulkanSampleApp

/-! ## Handles, result codes and records of the GPU API -/

/-- A dispatchable or non-dispatchable API handle; `none` is `VK_NULL_HANDLE`. -/
abbrev Handle := Option Nat

abbrev VkFence := Handle
abbrev VkSemaphore := Handle
abbrev VkCommandBuffer := Handle
abbrev VkSwapchainKHR := Handle
abbrev VkImage := Handle
abbrev VkImageView := Handle
abbrev VkFramebuffer := Handle

/-- The null handle. -/
def VK_NULL_HANDLE : Handle := none

/-- Result codes a call of the frame loop can return. -/
inductive VkResult
  | VK_SUCCESS
  | VK_NOT_READY
  | VK_TIMEOUT
  | VK_SUBOPTIMAL_KHR
  | VK_ERROR_OUT_OF_HOST_MEMORY
  | VK_ERROR_OUT_OF_DEVICE_MEMORY
  | VK_ERROR_DEVICE_LOST
  | VK_ERROR_SURFACE_LOST_KHR
  | VK_ERROR_OUT_OF_DATE_KHR
  deriving DecidableEq, Repr

open VkResult

/-- The value of `VK_PIPELINE_STAGE_COLOR_ATTACHMENT_OUTPUT_BIT`. -/
def VK_PIPELINE_STAGE_COLOR_ATTACHMENT_OUTPUT_BIT : Nat := 0x400

/-- The fields of `VkSubmitInfo` that `drawFrame` fills in; the three counts are the lengths
of the lists. -/
structure VkSubmitInfo where
  pWaitSemaphores : List VkSemaphore
  pWaitDstStageMask : List Nat
  pCommandBuffers : List VkCommandBuffer
  pSignalSemaphores : List VkSemaphore
  deriving DecidableEq, Repr

/-- The fields of `VkPresentInfoKHR` that `drawFrame` fills in. -/
structure VkPresentInfoKHR where
  pWaitSemaphores : List VkSemaphore
  pSwapchains : List VkSwapchainKHR
  pImageIndices : List Nat
  deriving DecidableEq, Repr

/-! ## The GPU side -/

/-- A batch accepted by `vkQueueSubmit`, the fence passed with it, and whether the GPU has
finished executing it. -/
structure Submission where
  info : VkSubmitInfo
  fence : VkFence
  completed : Bool
  deriving DecidableEq, Repr

/-- Device state the frame loop depends on. `fences[k]` is the signaled bit of the fence
with handle `some k`; `semaphores` counts the semaphores created so far; `graphicsQueue` lists
every accepted submission, oldest first. -/
structure Gpu where
  fences : List Bool
  semaphores : Nat
  graphicsQueue : List Submission
  deriving DecidableEq, Repr

/-- Signaled bit of a fence handle (`false` for a handle that names no fence). -/
def Gpu.signaled (g : Gpu) (f : VkFence) : Bool :=
  match f with
  | some k => g.fences.getD k false
  | none => false

/-- Submissions of the graphics queue the GPU has not finished yet. -/
def Gpu.outstanding (g : Gpu) : List Submission :=
  g.graphicsQueue.filter (fun sub => !sub.completed)

/-- The call `vkCreateSemaphore`: a new semaphore and its handle. -/
def vkCreateSemaphore (g : Gpu) : Gpu × VkSemaphore :=
  ({ g with semaphores := g.semaphores + 1 }, some g.semaphores)

/-- The call `vkCreateFence`; `signaled` is the flag `VK_FENCE_CREATE_SIGNALED_BIT`. -/
def vkCreateFence (g : Gpu) (signaled : Bool) : Gpu × VkFence :=
  ({ g with fences := g.fences ++ [signaled] }, some g.fences.length)

/-- The call `vkResetFences` on one fence: the fence becomes unsignaled. -/
def vkResetFences (g : Gpu) (f : VkFence) : Gpu :=
  match f with
  | some k => { g with fences := g.fences.set k false }
  | none => g

/-- The call `vkQueueSubmit` with one batch, when it succeeds: the batch is queued. -/
def vkQueueSubmit (g : Gpu) (info : VkSubmitInfo) (fence : VkFence) : Gpu :=
  { g with graphicsQueue := g.graphicsQueue ++ [⟨info, fence, false⟩] }

/-- The GPU finishes the `j`-th submission of the graphics queue: it is marked completed and
its fence becomes signaled. Not possible when there is no such submission or it has finished
already. -/
def Gpu.complete (g : Gpu) (j : Nat) : Option Gpu :=
  match g.graphicsQueue[j]? with
  | none => none
  | some sub =>
    if sub.completed then none
    else
      some { g with
        graphicsQueue := g.graphicsQueue.set j { sub with completed := true }
        fences := match sub.fence with
          | some k => g.fences.set k true
          | none => g.fences }

/-! ## The application object -/

/-- The members of `VulkanSampleApp` the frame loop uses. -/
structure App where
  swapchain : VkSwapchainKHR
  swapchainImages : List VkImage
  swapchainImageViews : List VkImageView
  swapchainFramebuffers : List VkFramebuffer
  commandBuffers : List VkCommandBuffer
  imageAvailableSemaphores : List VkSemaphore
  renderCompleteSemaphores : List VkSemaphore
  inFlightFences : List VkFence
  imagesInFlight : List VkFence
  currentFrame : Nat
  deriving DecidableEq, Repr

/-- The method `std::vector::resize(n, v)`. -/
def resize {α : Type} (xs : List α) (n : Nat) (v : α) : List α :=
  xs.take n ++ List.replicate (n - xs.length) v

/-- The function `handleVkResult` of `helpers.h`: throws `message` unless the result is
`VK_SUCCESS`. -/
def handleVkResult (result : VkResult) (message : String) : Except String Unit :=
  if result ≠ VK_SUCCESS then .error message else .ok ()

/-- One turn of the loop of `createSyncObjects` (all three creations succeeding). -/
def createSyncObjects.body (st : App × Gpu) (i : Nat) : App × Gpu :=
  let (app, g) := st
  let (g, imageAvailable) := vkCreateSemaphore g
  let app := { app with imageAvailableSemaphores := app.imageAvailableSemaphores.set i imageAvailable }
  let (g, renderComplete) := vkCreateSemaphore g
  let app := { app with renderCompleteSemaphores := app.renderCompleteSemaphores.set i renderComplete }
  let (g, fence) := vkCreateFence g true
  let app := { app with inFlightFences := app.inFlightFences.set i fence }
  (app, g)

/-- The method `VulkanSampleApp::createSyncObjects`, every creation succeeding. -/
def createSyncObjects (N : Nat) (app : App) (g : Gpu) : App × Gpu :=
  let app := { app with imageAvailableSemaphores := resize app.imageAvailableSemaphores N VK_NULL_HANDLE }
  let app := { app with renderCompleteSemaphores := resize app.renderCompleteSemaphores N VK_NULL_HANDLE }
  let app := { app with inFlightFences := resize app.inFlightFences N VK_NULL_HANDLE }
  let app := { app with imagesInFlight := resize app.imagesInFlight app.swapchainImages.length VK_NULL_HANDLE }
  (List.range N).foldl createSyncObjects.body (app, g)

/-- The method `VulkanSampleApp::createImageViews`, every creation succeeding: one view per
swap-chain image. -/
def createImageViews (app : App) : App :=
  let app := { app with swapchainImageViews := resize app.swapchainImageViews app.swapchainImages.length VK_NULL_HANDLE }
  (List.range app.swapchainImages.length).foldl
    (fun app i => { app with swapchainImageViews := app.swapchainImageViews.set i (some i) }) app

/-- The method `VulkanSampleApp::createFramebuffers`, every creation succeeding: one framebuffer
per image view. -/
def createFramebuffers (app : App) : App :=
  let app := { app with swapchainFramebuffers := resize app.swapchainFramebuffers app.swapchainImageViews.length VK_NULL_HANDLE }
  (List.range app.swapchainImageViews.length).foldl
    (fun app i => { app with swapchainFramebuffers := app.swapchainFramebuffers.set i (some i) }) app

/-- The method `VulkanSampleApp::createCommandBuffers`, the allocation and every recording
succeeding: `vkAllocateCommandBuffers` fills the resized vector with one new command buffer per
framebuffer; the buffer at index `i` records a render pass into `swapchainFramebuffers[i]`. -/
def createCommandBuffers (app : App) : App :=
  let app := { app with commandBuffers := resize app.commandBuffers app.swapchainFramebuffers.length VK_NULL_HANDLE }
  { app with commandBuffers := (List.range app.commandBuffers.length).map some }

/-- The members before the constructor body runs: empty vectors, `currentFrame = 0`. -/
def App.empty : App :=
  { swapchain := VK_NULL_HANDLE, swapchainImages := [], swapchainImageViews := [],
    swapchainFramebuffers := [], commandBuffers := [], imageAvailableSemaphores := [],
    renderCompleteSemaphores := [], inFlightFences := [], imagesInFlight := [],
    currentFrame := 0 }

/-- A device on which no fence, semaphore or submission exists yet. -/
def Gpu.empty : Gpu := { fences := [], semaphores := 0, graphicsQueue := [] }

/-- The part of `VulkanSampleApp::createSwapchain` the frame loop depends on: the swap chain
is created and `vkGetSwapchainImagesKHR` reports its `n` images. -/
def createSwapchain (n : Nat) (app : App) : App :=
  { app with swapchain := some 0, swapchainImages := (List.range n).map some }

/-- The constructor `VulkanSampleApp::VulkanSampleApp()` restricted to the members of `App`,
for a swap chain of `n` images and every creation succeeding. -/
def construct (N n : Nat) : App × Gpu :=
  let app := createSwapchain n App.empty
  let app := createImageViews app
  let app := createFramebuffers app
  let app := createCommandBuffers app
  createSyncObjects N app Gpu.empty

/-! ## `drawFrame` -/

/-- The statements of `drawFrame`, in source order. -/
inductive Pc
  /-- Statement `vkWaitForFences(device, 1, &inFlightFences[currentFrame], VK_TRUE, UINT64_MAX)`. -/
  | waitSlotFence
  /-- Statement `vkResetFences(device, 1, &inFlightFences[currentFrame])`. -/
  | resetSlotFence
  /-- Statement `vkAcquireNextImageKHR(.., imageAvailableSemaphores[currentFrame], .., &imageIndex)`. -/
  | acquireImage
  /-- Statement `if (imagesInFlight[imageIndex] != VK_NULL_HANDLE) vkWaitForFences(..)`. -/
  | waitImageFence
  /-- Statement `imagesInFlight[imageIndex] = inFlightFences[currentFrame]`. -/
  | claimImage
  /-- Statement `handleVkResult(vkQueueSubmit(graphicsQueue, 1, &submitInfo, inFlightFences[currentFrame]), ..)`. -/
  | submit
  /-- Statement `vkQueuePresentKHR(presentQueue, &presentInfo)`. -/
  | present
  /-- Statement `currentFrame = (currentFrame+1) % MAX_FRAMES_IN_FLIGHT`. -/
  | advance
  deriving DecidableEq, Repr

/-- What an observer of the control thread sees `drawFrame` do: the API calls that returned,
with their arguments, and the two stores to the members `imagesInFlight` and `currentFrame`. -/
inductive Action
  | waitForFences (fence : VkFence)
  | resetFences (fence : VkFence)
  | acquireNextImage (semaphore : VkSemaphore) (imageIndex : Nat)
  | claim (imageIndex : Nat) (fence : VkFence)
  | queueSubmit (info : VkSubmitInfo) (fence : VkFence)
  | queuePresent (info : VkPresentInfoKHR)
  | advance (currentFrame : Nat)
  deriving DecidableEq, Repr

/-- The control thread inside the frame loop: the object, the device, the next statement of
`drawFrame`, its locals `imageIndex` and `signalSemaphores`, the exception that left
`drawFrame` (if any) and the actions performed so far. -/
structure State where
  app : App
  gpu : Gpu
  pc : Pc
  imageIndex : Nat
  signalSemaphores : List VkSemaphore
  thrown : Option String
  trace : List Action
  deriving DecidableEq, Repr

/-- What the API answers to the next call of the control thread: the result code and, for
`vkAcquireNextImageKHR`, the value found in `imageIndex` after the call. -/
structure Answer where
  result : VkResult
  imageIndex : Nat
  deriving DecidableEq, Repr

/-- The call `vkWaitForFences` on one fence with timeout `UINT64_MAX`, returning `answer`: it
does not return `VK_SUCCESS` while the fence is unsignaled (`none`: the caller stays
blocked). -/
def vkWaitForFences (g : Gpu) (fence : VkFence) (answer : VkResult) : Option VkResult :=
  if answer = VK_SUCCESS ∧ g.signaled fence = false then none else some answer

/-- One statement of `VulkanSampleApp::drawFrame`, the API answering `a` to its call.
`none`: the statement does not finish, because the thread is blocked in a wait, an exception
has left `drawFrame` already, or the statement indexes a vector out of bounds (or divides by
zero) and has no defined behaviour. -/
def drawFrame.step (N : Nat) (a : Answer) (s : State) : Option State :=
  if s.thrown.isSome then none else
  match s.pc with
  | .waitSlotFence =>
    match s.app.inFlightFences[s.app.currentFrame]? with
    | none => none
    | some fence =>
      match vkWaitForFences s.gpu fence a.result with
      | none => none
      | some _ =>
        some { s with pc := .resetSlotFence, trace := s.trace ++ [.waitForFences fence] }
  | .resetSlotFence =>
    match s.app.inFlightFences[s.app.currentFrame]? with
    | none => none
    | some fence =>
      some { s with
        gpu := if a.result = VK_SUCCESS then vkResetFences s.gpu fence else s.gpu
        pc := .acquireImage
        trace := s.trace ++ [.resetFences fence] }
  | .acquireImage =>
    match s.app.imageAvailableSemaphores[s.app.currentFrame]? with
    | none => none
    | some semaphore =>
      some { s with
        imageIndex := a.imageIndex
        pc := .waitImageFence
        trace := s.trace ++ [.acquireNextImage semaphore a.imageIndex] }
  | .waitImageFence =>
    match s.app.imagesInFlight[s.imageIndex]? with
    | none => none
    | some entry =>
      if entry ≠ VK_NULL_HANDLE then
        match vkWaitForFences s.gpu entry a.result with
        | none => none
        | some _ => some { s with pc := .claimImage, trace := s.trace ++ [.waitForFences entry] }
      else some { s with pc := .claimImage }
  | .claimImage =>
    match s.app.inFlightFences[s.app.currentFrame]? with
    | none => none
    | some fence =>
      if s.imageIndex < s.app.imagesInFlight.length then
        some { s with
          app := { s.app with imagesInFlight := s.app.imagesInFlight.set s.imageIndex fence }
          pc := .submit
          trace := s.trace ++ [.claim s.imageIndex fence] }
      else none
  | .submit =>
    match s.app.imageAvailableSemaphores[s.app.currentFrame]?,
          s.app.commandBuffers[s.imageIndex]?,
          s.app.renderCompleteSemaphores[s.app.currentFrame]?,
          s.app.inFlightFences[s.app.currentFrame]? with
    | some imageAvailable, some commandBuffer, some renderComplete, some fence =>
      let waitSemaphores := [imageAvailable]
      let waitStages := [VK_PIPELINE_STAGE_COLOR_ATTACHMENT_OUTPUT_BIT]
      let signalSemaphores := [renderComplete]
      let submitInfo : VkSubmitInfo :=
        { pWaitSemaphores := waitSemaphores
          pWaitDstStageMask := waitStages
          pCommandBuffers := [commandBuffer]
          pSignalSemaphores := signalSemaphores }
      match handleVkResult a.result "Failed to submit draw command buffer!" with
      | .error message =>
        some { s with
          signalSemaphores := signalSemaphores
          thrown := some message
          trace := s.trace ++ [.queueSubmit submitInfo fence] }
      | .ok () =>
        some { s with
          gpu := vkQueueSubmit s.gpu submitInfo fence
          signalSemaphores := signalSemaphores
          pc := .present
          trace := s.trace ++ [.queueSubmit submitInfo fence] }
    | _, _, _, _ => none
  | .present =>
    let presentInfo : VkPresentInfoKHR :=
      { pWaitSemaphores := s.signalSemaphores
        pSwapchains := [s.app.swapchain]
        pImageIndices := [s.imageIndex] }
    some { s with pc := .advance, trace := s.trace ++ [.queuePresent presentInfo] }
  | .advance =>
    if N = 0 then none
    else
      some { s with
        app := { s.app with currentFrame := (s.app.currentFrame + 1) % N }
        pc := .waitSlotFence
        trace := s.trace ++ [.advance ((s.app.currentFrame + 1) % N)] }

/-- What can happen next: the control thread finishes its next statement, the API answering
`a`, or the GPU finishes submission `j` of the graphics queue. -/
inductive Event
  | cpu (a : Answer)
  | gpu (j : Nat)
  deriving DecidableEq, Repr

/-- One event. -/
def step (N : Nat) (ev : Event) (s : State) : Option State :=
  match ev with
  | .cpu a => drawFrame.step N a s
  | .gpu j => (s.gpu.complete j).map (fun g => { s with gpu := g })

/-- A sequence of events, `none` as soon as one of them is not possible. -/
def run (N : Nat) : List Event → State → Option State
  | [], s => some s
  | ev :: evs, s => (step N ev s).bind (run N evs)

/-- The state in which `run()` calls `drawFrame` for the first time. -/
def fresh (N n : Nat) : State :=
  { app := (construct N n).1, gpu := (construct N n).2, pc := .waitSlotFence, imageIndex := 0,
    signalSemaphores := [], thrown := none, trace := [] }

/-- The answer `VK_SUCCESS`, with `imageIndex` for an acquisition. -/
def ok (imageIndex : Nat) : Event := .cpu ⟨VK_SUCCESS, imageIndex⟩

/-- The eight statements of one `drawFrame` call acquiring image `i`, all answered
`VK_SUCCESS`, with no completion on the GPU in between. -/
def frame (i : Nat) : List Event := List.replicate 8 (ok i)

/-- Number of unfinished submissions that will signal fence `f`. -/
def Gpu.pending (g : Gpu) (f : VkFence) : Nat :=
  g.outstanding.countP (fun sub => sub.fence = f)

/-- Number of `drawFrame` calls that ran to their last statement. -/
def State.frames (s : State) : Nat :=
  s.trace.countP (fun act => match act with | .advance _ => true | _ => false)

/-- The vector `l` after its first `k` entries have been assigned `f 0, .., f (k-1)`. -/
def overwritten {α : Type} (f : Nat → α) (l : List α) (k : Nat) : List α :=
  (List.range k).map f ++ l.drop k

/-- The statements of `drawFrame` that call a fence function. -/
def Pc.isFenceCall : Pc → Bool
  | .waitSlotFence | .resetSlotFence | .waitImageFence => true
  | _ => false

/-- The statements after the reset of the slot fence up to and including the submission. -/
def Pc.afterReset : Pc → Bool
  | .acquireImage | .waitImageFence | .claimImage | .submit => true
  | _ => false

/-- The statements after the store to `imagesInFlight`. -/
def Pc.afterClaim : Pc → Bool
  | .submit | .present | .advance => true
  | _ => false

/-- The states the frame loop can be in: starting from the freshly constructed object, the
control thread executes statements of `drawFrame` (called again and again by `run()`) and the
GPU finishes submissions, in any interleaving. The fence calls behave as on a working
device: they return `VK_SUCCESS`, a wait only once its fence is signaled. The
other calls may return any result and the acquisition any image index. -/
inductive Reachable (N n : Nat) : State → Prop
  | fresh : Reachable N n (fresh N n)
  | cpu {s s' : State} (a : Answer) :
      Reachable N n s → (s.pc.isFenceCall = true → a.result = VK_SUCCESS) →
      drawFrame.step N a s = some s' → Reachable N n s'
  | gpu {s s' : State} (j : Nat) :
      Reachable N n s → step N (.gpu j) s = some s' → Reachable N n s'

/-- The event is a completion on the GPU or a call that returns `VK_SUCCESS`. -/
def Event.succeeds : Event → Bool
  | .cpu a => decide (a.result = VK_SUCCESS)
  | .gpu _ => true

/-- The submission renders into presentable image `i`: its batch holds the command buffer
`commandBuffers[i]`, which `createCommandBuffers` records against `swapchainFramebuffers[i]`. -/
def Submission.targets (app : App) (sub : Submission) (i : Nat) : Bool :=
  sub.info.pCommandBuffers.any (fun cb => app.commandBuffers[i]? == some cb)

/-- The invariant of the frame loop for `N` slots and `n` presentable images. With
`c = currentFrame`: the handles are the ones the constructor created; every queued submission
carries a slot fence and one command buffer; a signaled fence has no unfinished submission, an
unsignaled one has exactly one unless it is the fence of slot `c` between its reset and the
submission; an unfinished submission for image `i` is the one `imagesInFlight[i]` names;
`currentFrame` counts the completed calls modulo `N`. -/
structure Inv (N n : Nat) (s : State) : Prop where
  fencesOf : s.app.inFlightFences = (List.range N).map some
  buffersOf : s.app.commandBuffers = (List.range n).map some
  fencesLen : s.gpu.fences.length = N
  tableLen : s.app.imagesInFlight.length = n
  slot : s.app.currentFrame < N ∨ (N = 0 ∧ s.pc = .waitSlotFence)
  queued : ∀ sub ∈ s.gpu.graphicsQueue,
    ∃ k i, k < N ∧ i < n ∧ sub.fence = some k ∧ sub.info.pCommandBuffers = [some i]
  idle : ∀ k, s.gpu.signaled (some k) = true → s.gpu.pending (some k) = 0
  busy : ∀ k, k < N → s.gpu.signaled (some k) = false →
    s.gpu.pending (some k) = 1 ∨ (k = s.app.currentFrame ∧ s.pc.afterReset = true)
  tracked : ∀ sub ∈ s.gpu.outstanding, ∀ i, sub.info.pCommandBuffers = [some i] →
    s.app.imagesInFlight[i]? = some sub.fence
  atReset : s.pc = .resetSlotFence → s.gpu.signaled (some s.app.currentFrame) = true
  reset : s.pc.afterReset = true →
    s.gpu.signaled (some s.app.currentFrame) = false ∧ s.gpu.pending (some s.app.currentFrame) = 0
  atClaim : s.pc = .claimImage →
    ∀ sub ∈ s.gpu.outstanding, sub.info.pCommandBuffers ≠ [some s.imageIndex]
  atSubmit : s.pc = .submit → s.app.imagesInFlight[s.imageIndex]? = some (some s.app.currentFrame)
  counter : 0 < N → s.app.currentFrame = s.frames % N
  early : s.frames < N → ∀ k, some k ∈ s.app.imagesInFlight →
    k < s.app.currentFrame ∨ (k = s.app.currentFrame ∧ s.pc.afterClaim = true)
  entries : ∀ k, some k ∈ s.app.imagesInFlight → k < N

/-- Position of a statement in the body of `drawFrame`. -/
def Pc.index : Pc → Nat
  | .waitSlotFence => 0
  | .resetSlotFence => 1
  | .acquireImage => 2
  | .waitImageFence => 3
  | .claimImage => 4
  | .submit => 5
  | .present => 6
  | .advance => 7

/-- What the conditional wait of the claim step does in a call that starts in state `s0` and
acquires image `i`. -/
def drawFrame.claimWait (s0 : State) (i : Nat) : List Action :=
  match s0.app.imagesInFlight[i]? with
  | some entry => if entry ≠ VK_NULL_HANDLE then [.waitForFences entry] else []
  | none => []

/-- The actions of the statements before `pc` in a call of `drawFrame` that starts in state
`s0` and acquires image `i`. -/
def drawFrame.performed (s0 : State) (i : Nat) (pc : Pc) : List Action :=
  let fence := s0.app.inFlightFences.getD s0.app.currentFrame VK_NULL_HANDLE
  let imageAvailable := s0.app.imageAvailableSemaphores.getD s0.app.currentFrame VK_NULL_HANDLE
  let renderComplete := s0.app.renderCompleteSemaphores.getD s0.app.currentFrame VK_NULL_HANDLE
  let commandBuffer := s0.app.commandBuffers.getD i VK_NULL_HANDLE
  ([[.waitForFences fence], [.resetFences fence], [.acquireNextImage imageAvailable i],
    drawFrame.claimWait s0 i, [.claim i fence],
    [.queueSubmit ⟨[imageAvailable], [VK_PIPELINE_STAGE_COLOR_ATTACHMENT_OUTPUT_BIT],
      [commandBuffer], [renderComplete]⟩ fence],
    [.queuePresent ⟨[renderComplete], [s0.app.swapchain], [i]⟩]].take pc.index).flatten

/-- How a state `s` of an execution relates to the state `s0` in which a call of `drawFrame`
started: the vectors of handles are the same; while the call is running the trace has grown by
the actions of the statements before the current one; when the call has just returned it has
grown by the actions of all eight statements. -/
structure Within (N : Nat) (s0 s : State) : Prop where
  thrownAt : s.thrown ≠ none → s.pc = .submit
  later : s0.frames ≤ s.frames
  fences : s.app.inFlightFences = s0.app.inFlightFences
  acquireSems : s.app.imageAvailableSemaphores = s0.app.imageAvailableSemaphores
  completeSems : s.app.renderCompleteSemaphores = s0.app.renderCompleteSemaphores
  buffers : s.app.commandBuffers = s0.app.commandBuffers
  chain : s.app.swapchain = s0.app.swapchain
  current : s.thrown = none → s.frames = s0.frames →
    s.app.currentFrame = s0.app.currentFrame ∧
    s.trace = s0.trace ++ drawFrame.performed s0 s.imageIndex s.pc ∧
    (s.pc.index ≤ 4 → s.app.imagesInFlight = s0.app.imagesInFlight) ∧
    (1 ≤ s.pc.index → s0.app.currentFrame < s0.app.inFlightFences.length) ∧
    (3 ≤ s.pc.index → s0.app.currentFrame < s0.app.imageAvailableSemaphores.length) ∧
    (6 ≤ s.pc.index →
      s0.app.currentFrame < s0.app.renderCompleteSemaphores.length ∧
      s.imageIndex < s0.app.commandBuffers.length ∧
      s.signalSemaphores =
        [s0.app.renderCompleteSemaphores.getD s0.app.currentFrame VK_NULL_HANDLE])
  next : s.thrown = none → s.frames = s0.frames + 1 → s.pc = .waitSlotFence →
    s.trace = s0.trace ++ drawFrame.performed s0 s.imageIndex .advance ++
      [.advance ((s0.app.currentFrame + 1) % N)] ∧
    s0.app.currentFrame < s0.app.inFlightFences.length ∧
    s0.app.currentFrame < s0.app.imageAvailableSemaphores.length ∧
    s0.app.currentFrame < s0.app.renderCompleteSemaphores.length ∧
    s.imageIndex < s0.app.commandBuffers.length

/-- The image indices the acquisitions have returned so far, oldest first. -/
def State.acquired (s : State) : List Nat :=
  s.trace.filterMap (fun act => match act with | .acquireNextImage _ i => some i | _ => none)

/-- Facts about the executions with two slots and two images in which the acquisitions return
0, 1, 0, 1, 0: the current call has acquired image `frames mod 2`, entry 0 of `imagesInFlight`
names the fence of slot 0 from the first claim on, and the third call does not get past its
claim wait. -/
structure Alternating (s : State) : Prop where
  count : s.acquired.length = s.frames + (if 3 ≤ s.pc.index then 1 else 0)
  bound : List.IsPrefix s.acquired [0, 1, 0, 1, 0] → s.frames ≤ 2
  halt : List.IsPrefix s.acquired [0, 1, 0, 1, 0] → s.frames = 2 → s.pc.index ≤ 3
  image : List.IsPrefix s.acquired [0, 1, 0, 1, 0] → 3 ≤ s.pc.index →
    s.imageIndex = s.frames % 2
  first : List.IsPrefix s.acquired [0, 1, 0, 1, 0] → (1 ≤ s.frames ∨ 5 ≤ s.pc.index) →
    s.app.imagesInFlight[0]? = some (some 0)

/-! ## Swap-chain parameters -/

/-- The value of `UINT32_MAX`. -/
def UINT32_MAX : Nat := 2 ^ 32 - 1

/-- The record `VkExtent2D`; both fields are `uint32_t`. -/
structure VkExtent2D where
  width : Nat
  height : Nat
  deriving DecidableEq, Repr

/-- The fields of `VkSurfaceCapabilitiesKHR` that `chooseSwapExtent` and `createSwapchain`
read; all of them are `uint32_t`. -/
structure VkSurfaceCapabilitiesKHR where
  minImageCount : Nat
  maxImageCount : Nat
  currentExtent : VkExtent2D
  minImageExtent : VkExtent2D
  maxImageExtent : VkExtent2D
  deriving DecidableEq, Repr

/-- The conversion `static_cast<uint32_t>` applied to an `int`. -/
def toUint32 (x : Int) : Nat := (x % 2 ^ 32).toNat

/-- The loop `while (width == 0 || height == 0) window->getFramebufferSize(&width, &height)`
of `chooseSwapExtent`, the window answering the successive calls with `reports`. `none`: the
loop is still running when the answers are used up. -/
def chooseSwapExtent.waitForSize : List (Int × Int) → Option (Int × Int)
  | [] => none
  | (width, height) :: rest =>
    if width = 0 ∨ height = 0 then chooseSwapExtent.waitForSize rest else some (width, height)

/-- The function `chooseSwapExtent` of `helpers.h`; `reports` stands for the window: the
framebuffer sizes it reports, call after call. -/
def chooseSwapExtent (reports : List (Int × Int)) (capabilities : VkSurfaceCapabilitiesKHR) :
    Option VkExtent2D :=
  if capabilities.currentExtent.width ≠ UINT32_MAX then some capabilities.currentExtent
  else
    match chooseSwapExtent.waitForSize reports with
    | none => none
    | some (width, height) =>
      let actualExtent : VkExtent2D := { width := toUint32 width, height := toUint32 height }
      let actualExtent := { actualExtent with
        width := max capabilities.minImageExtent.width
          (min capabilities.maxImageExtent.width actualExtent.width) }
      let actualExtent := { actualExtent with
        height := max capabilities.minImageExtent.height
          (min capabilities.maxImageExtent.height actualExtent.height) }
      some actualExtent

/-- The local `imageCount` of `createSwapchain` when it is stored into
`createInfo.minImageCount`. -/
def createSwapchain.imageCount (capabilities : VkSurfaceCapabilitiesKHR) : Nat :=
  let imageCount := (capabilities.minImageCount + 1) % 2 ^ 32
  if capabilities.maxImageCount > 0 ∧ imageCount > capabilities.maxImageCount then
    capabilities.maxImageCount
  else imageCount

/-! ## Creation and release of the GPU resources -/

/-- The GPU resources the object creates, named after the members that hold them; the shader
modules are locals of `createGraphicsPipeline` (0 the vertex shader, 1 the fragment shader). -/
inductive Resource
  | vkInstance
  | debugMessenger
  | surface
  | device
  | swapchain
  | swapchainImageView (i : Nat)
  | renderPass
  | shaderModule (i : Nat)
  | pipelineLayout
  | graphicsPipeline
  | swapchainFramebuffer (i : Nat)
  | vertexBuffer
  | vertexBufferMemory
  | commandPool
  | commandBuffer (i : Nat)
  | imageAvailableSemaphore (i : Nat)
  | renderCompleteSemaphore (i : Nat)
  | inFlightFence (i : Nat)
  deriving DecidableEq, Repr

/-- A call that creates (or allocates) a resource, or destroys (or frees) one. -/
inductive Call
  | create (r : Resource)
  | destroy (r : Resource)
  deriving DecidableEq, Repr

/-- The creating and destroying calls of the constructor `VulkanSampleApp::VulkanSampleApp()`,
in order, every call succeeding, for `N = MAX_FRAMES_IN_FLIGHT` and a swap chain of `n`
images. -/
def constructorCalls (enableValidationLayers : Bool) (N n : Nat) : List Call :=
  -- createInstance
  [.create .vkInstance] ++
  -- setupDebugMessenger
  (if !enableValidationLayers then [] else [.create .debugMessenger]) ++
  -- createSurface, selectPhysicalDevice, createLogicalDevice, createSwapchain
  [.create .surface, .create .device, .create .swapchain] ++
  -- createImageViews
  (List.range n).map (fun i => .create (.swapchainImageView i)) ++
  -- createRenderPass
  [.create .renderPass] ++
  -- createGraphicsPipeline
  [.create (.shaderModule 0), .create (.shaderModule 1), .create .pipelineLayout,
   .create .graphicsPipeline, .destroy (.shaderModule 1), .destroy (.shaderModule 0)] ++
  -- createFramebuffers
  (List.range n).map (fun i => .create (.swapchainFramebuffer i)) ++
  -- createVertexBuffer
  [.create .vertexBuffer, .create .vertexBufferMemory] ++
  -- createCommandPool
  [.create .commandPool] ++
  -- createCommandBuffers
  (List.range n).map (fun i => .create (.commandBuffer i)) ++
  -- createSyncObjects
  (List.range N).flatMap (fun i =>
    [.create (.imageAvailableSemaphore i), .create (.renderCompleteSemaphore i),
     .create (.inFlightFence i)])

/-- The destroying calls of the destructor `VulkanSampleApp::~VulkanSampleApp()`, in order. -/
def destructorCalls (enableValidationLayers : Bool) (N n : Nat) : List Call :=
  (List.range N).flatMap (fun i =>
    [.destroy (.imageAvailableSemaphore i), .destroy (.renderCompleteSemaphore i),
     .destroy (.inFlightFence i)]) ++
  [.destroy .commandPool, .destroy .vertexBuffer, .destroy .vertexBufferMemory] ++
  (List.range n).map (fun i => .destroy (.swapchainFramebuffer i)) ++
  [.destroy .graphicsPipeline, .destroy .pipelineLayout, .destroy .renderPass] ++
  (List.range n).map (fun i => .destroy (.swapchainImageView i)) ++
  [.destroy .swapchain, .destroy .device, .destroy .surface] ++
  (if enableValidationLayers then [.destroy .debugMessenger] else []) ++
  [.destroy .vkInstance]

/-- The resources a sequence of calls creates, in order. -/
def created (calls : List Call) : List Resource :=
  calls.filterMap (fun c => match c with | .create r => some r | .destroy _ => none)

/-- The resources a sequence of calls destroys, in order. -/
def destroyed (calls : List Call) : List Resource :=
  calls.filterMap (fun c => match c with | .destroy r => some r | .create _ => none)

/-- The resources a sequence of calls creates and does not destroy, in order of creation. -/
def owned (calls : List Call) : List Resource :=
  (created calls).filter (fun r => decide (r ∉ destroyed calls))

/-- The resources that `vkDestroyCommandPool` releases together with the pool. -/
def Resource.isCommandBuffer : Resource → Bool
  | .commandBuffer _ => true
  | _ => false

/-- The owned resources in order of creation, cut into the stages the destructor goes
through: resources of one stage are released together, in order of creation. -/
def releaseStages (enableValidationLayers : Bool) (N n : Nat) : List (List Resource) :=
  [[.vkInstance],
   if enableValidationLayers then [.debugMessenger] else [],
   [.surface], [.device], [.swapchain],
   (List.range n).map .swapchainImageView,
   [.renderPass], [.pipelineLayout], [.graphicsPipeline],
   (List.range n).map .swapchainFramebuffer,
   [.vertexBuffer, .vertexBufferMemory],
   [.commandPool],
   (List.range N).flatMap (fun i =>
     [.imageAvailableSemaphore i, .renderCompleteSemaphore i, .inFlightFence i])]

/-! ## The image-in-flight table and the trace -/

/-- The fences stored into `imagesInFlight[j]` so far, oldest first. -/
def claimsOf (trace : List Action) (j : Nat) : List VkFence :=
  trace.filterMap (fun act => match act with
    | .claim i fence => if i = j then some fence else none
    | _ => none)

/-- State `s` holds the same swap chain, images, views, framebuffers, command buffers,
semaphores and fences as state `s0`, and its image-in-flight table has the same size. -/
structure SameObjects (s0 s : State) : Prop where
  swapchain : s.app.swapchain = s0.app.swapchain
  swapchainImages : s.app.swapchainImages = s0.app.swapchainImages
  swapchainImageViews : s.app.swapchainImageViews = s0.app.swapchainImageViews
  swapchainFramebuffers : s.app.swapchainFramebuffers = s0.app.swapchainFramebuffers
  commandBuffers : s.app.commandBuffers = s0.app.commandBuffers
  imageAvailableSemaphores : s.app.imageAvailableSemaphores = s0.app.imageAvailableSemaphores
  renderCompleteSemaphores : s.app.renderCompleteSemaphores = s0.app.renderCompleteSemaphores
  inFlightFences : s.app.inFlightFences = s0.app.inFlightFences
  tableLength : s.app.imagesInFlight.length = s0.app.imagesInFlight.length

/-- The image-in-flight table against the trace, for `N` slots and `n` images: entry `j` is
the fence of the most recent store into it, or still `VK_NULL_HANDLE`, and every fence ever
stored is the fence of a slot. -/
structure Claimed (N n : Nat) (s : State) : Prop where
  fencesOf : s.app.inFlightFences = (List.range N).map some
  tableLen : s.app.imagesInFlight.length = n
  table : ∀ j, j < n →
    s.app.imagesInFlight[j]? = some ((claimsOf s.trace j).getLast?.getD VK_NULL_HANDLE)
  slots : ∀ j fence, fence ∈ claimsOf s.trace j → ∃ k, k < N ∧ fence = some k

/-! ## Facts about the device model -/

theorem filter_set_completed (l : List Submission) (j : Nat) (sub : Submission)
    (h : l[j]? = some sub) (hc : sub.completed = false) :
    ∃ A B, l.filter (fun x => !x.completed) = A ++ sub :: B ∧
      (l.set j { sub with completed := true }).filter (fun x => !x.completed) = A ++ B := by
  induction l generalizing j with
  | nil => simp at h
  | cons x xs ih =>
    cases j with
    | zero =>
      simp only [List.getElem?_cons_zero, Option.some.injEq] at h
      subst h
      exact ⟨[], xs.filter (fun x => !x.completed), by simp [List.filter_cons, hc], by simp [List.filter_cons]⟩
    | succ j =>
      simp only [List.getElem?_cons_succ] at h
      obtain ⟨A, B, h1, h2⟩ := ih j h
      by_cases hx : x.completed = true
      · exact ⟨A, B, by simp [List.filter_cons, hx, h1], by simp [List.filter_cons, hx, h2]⟩
      · exact ⟨x :: A, B, by simp [List.filter_cons, hx, h1], by simp [List.filter_cons, hx, h2]⟩

theorem Gpu.complete_spec {g g' : Gpu} {j : Nat} (h : g.complete j = some g') :
    ∃ sub A B, g.graphicsQueue[j]? = some sub ∧ sub.completed = false ∧
      g'.graphicsQueue = g.graphicsQueue.set j { sub with completed := true } ∧
      g.outstanding = A ++ sub :: B ∧ g'.outstanding = A ++ B ∧
      g'.fences = (match sub.fence with
        | some k => g.fences.set k true
        | none => g.fences) ∧
      g'.semaphores = g.semaphores := by
  unfold Gpu.complete at h
  cases hj : g.graphicsQueue[j]? with
  | none => simp [hj] at h
  | some sub =>
    simp only [hj] at h
    by_cases hc : sub.completed = true
    · simp [hc] at h
    · simp only [hc, Bool.false_eq_true, if_false, Option.some.injEq] at h
      have hc' : sub.completed = false := by simpa using hc
      obtain ⟨A, B, h1, h2⟩ := filter_set_completed g.graphicsQueue j sub hj hc'
      subst h
      exact ⟨sub, A, B, rfl, hc', rfl, h1, h2, rfl, rfl⟩

/-! ## The freshly constructed object -/

theorem overwritten_zero {α : Type} (f : Nat → α) (l : List α) : overwritten f l 0 = l := by
  simp [overwritten]

theorem overwritten_full {α : Type} (f : Nat → α) (l : List α) :
    overwritten f l l.length = (List.range l.length).map f := by
  simp [overwritten]

theorem overwritten_set {α : Type} (f : Nat → α) (l : List α) (k : Nat) (hk : k < l.length) :
    (overwritten f l k).set k (f k) = overwritten f l (k + 1) := by
  unfold overwritten
  rw [List.set_append_right _ _ (by simp), List.range_succ, List.drop_eq_getElem_cons hk]
  simp only [List.length_map, List.length_range, Nat.sub_self, List.set_cons_zero,
    List.map_append, List.map_cons, List.map_nil, List.append_assoc, List.singleton_append]

theorem length_resize {α : Type} (xs : List α) (n : Nat) (v : α) : (resize xs n v).length = n := by
  simp only [resize, List.length_append, List.length_take, List.length_replicate]
  omega

theorem resize_nil {α : Type} (n : Nat) (v : α) : resize ([] : List α) n v = List.replicate n v := by
  simp [resize]

theorem createImageViews_eq (app : App) :
    createImageViews app =
      { app with swapchainImageViews := (List.range app.swapchainImages.length).map some } := by
  unfold createImageViews
  have key : ∀ (l : List VkImageView) (k : Nat), k ≤ l.length →
      (List.range k).foldl
        (fun (a : App) i => { a with swapchainImageViews := a.swapchainImageViews.set i (some i) })
        { app with swapchainImageViews := l } =
      { app with swapchainImageViews := overwritten some l k } := by
    intro l k hk
    induction k with
    | zero => simp [overwritten_zero]
    | succ k ih =>
      rw [List.range_succ, List.foldl_append, ih (by omega)]
      simp only [List.foldl_cons, List.foldl_nil]
      rw [overwritten_set some l k (by omega)]
  have h := key (resize app.swapchainImageViews app.swapchainImages.length VK_NULL_HANDLE)
    app.swapchainImages.length (by rw [length_resize])
  have h2 := overwritten_full some
    (resize app.swapchainImageViews app.swapchainImages.length VK_NULL_HANDLE)
  rw [length_resize] at h2
  rw [h2] at h
  exact h

theorem createFramebuffers_eq (app : App) :
    createFramebuffers app =
      { app with swapchainFramebuffers := (List.range app.swapchainImageViews.length).map some } := by
  unfold createFramebuffers
  have key : ∀ (l : List VkFramebuffer) (k : Nat), k ≤ l.length →
      (List.range k).foldl
        (fun (a : App) i => { a with swapchainFramebuffers := a.swapchainFramebuffers.set i (some i) })
        { app with swapchainFramebuffers := l } =
      { app with swapchainFramebuffers := overwritten some l k } := by
    intro l k hk
    induction k with
    | zero => simp [overwritten_zero]
    | succ k ih =>
      rw [List.range_succ, List.foldl_append, ih (by omega)]
      simp only [List.foldl_cons, List.foldl_nil]
      rw [overwritten_set some l k (by omega)]
  have h := key (resize app.swapchainFramebuffers app.swapchainImageViews.length VK_NULL_HANDLE)
    app.swapchainImageViews.length (by rw [length_resize])
  have h2 := overwritten_full some
    (resize app.swapchainFramebuffers app.swapchainImageViews.length VK_NULL_HANDLE)
  rw [length_resize] at h2
  rw [h2] at h
  exact h

theorem createSyncObjects_fold (app : App) (g : Gpu) (l1 l2 l3 : List Handle) (k : Nat)
    (h1 : k ≤ l1.length) (h2 : k ≤ l2.length) (h3 : k ≤ l3.length) :
    (List.range k).foldl createSyncObjects.body
      ({ app with
          imageAvailableSemaphores := l1
          renderCompleteSemaphores := l2
          inFlightFences := l3 }, g) =
      ({ app with
          imageAvailableSemaphores := overwritten (fun i => some (g.semaphores + 2 * i)) l1 k
          renderCompleteSemaphores := overwritten (fun i => some (g.semaphores + 2 * i + 1)) l2 k
          inFlightFences := overwritten (fun i => some (g.fences.length + i)) l3 k },
       { g with
          fences := g.fences ++ List.replicate k true
          semaphores := g.semaphores + 2 * k }) := by
  induction k with
  | zero => simp [overwritten_zero]
  | succ k ih =>
    rw [List.range_succ, List.foldl_append, ih (by omega) (by omega) (by omega)]
    simp only [List.foldl_cons, List.foldl_nil, createSyncObjects.body, vkCreateSemaphore,
      vkCreateFence, List.length_append, List.length_replicate]
    rw [overwritten_set (fun i => some (g.semaphores + 2 * i)) l1 k (by omega),
      overwritten_set (fun i => some (g.fences.length + i)) l3 k (by omega)]
    have h2' : (overwritten (fun i => some (g.semaphores + 2 * i + 1)) l2 k).set k
        (some (g.semaphores + 2 * k + 1)) =
        overwritten (fun i => some (g.semaphores + 2 * i + 1)) l2 (k + 1) :=
      overwritten_set (fun i => some (g.semaphores + 2 * i + 1)) l2 k (by omega)
    rw [h2']
    simp [List.replicate_succ', Nat.mul_succ, Nat.add_assoc]

/-- What `createSyncObjects` leaves behind, for any object and device it is called on. -/
theorem createSyncObjects_eq (N : Nat) (app : App) (g : Gpu) :
    createSyncObjects N app g =
      ({ app with
          imageAvailableSemaphores := (List.range N).map (fun i => some (g.semaphores + 2 * i))
          renderCompleteSemaphores := (List.range N).map (fun i => some (g.semaphores + 2 * i + 1))
          inFlightFences := (List.range N).map (fun i => some (g.fences.length + i))
          imagesInFlight := resize app.imagesInFlight app.swapchainImages.length VK_NULL_HANDLE },
       { g with
          fences := g.fences ++ List.replicate N true
          semaphores := g.semaphores + 2 * N }) := by
  unfold createSyncObjects
  have h := createSyncObjects_fold
    { app with imagesInFlight := resize app.imagesInFlight app.swapchainImages.length VK_NULL_HANDLE }
    g (resize app.imageAvailableSemaphores N VK_NULL_HANDLE)
    (resize app.renderCompleteSemaphores N VK_NULL_HANDLE)
    (resize app.inFlightFences N VK_NULL_HANDLE) N
    (by rw [length_resize]) (by rw [length_resize]) (by rw [length_resize])
  have e1 := overwritten_full (fun i => some (g.semaphores + 2 * i))
    (resize app.imageAvailableSemaphores N VK_NULL_HANDLE)
  have e2 := overwritten_full (fun i => some (g.semaphores + 2 * i + 1))
    (resize app.renderCompleteSemaphores N VK_NULL_HANDLE)
  have e3 := overwritten_full (fun i => some (g.fences.length + i))
    (resize app.inFlightFences N VK_NULL_HANDLE)
  rw [length_resize] at e1 e2 e3
  rw [e1, e2, e3] at h
  exact h

/-- The members and the device right after the constructor. -/
theorem construct_eq (N n : Nat) :
    construct N n =
      ({ swapchain := some 0
         swapchainImages := (List.range n).map some
         swapchainImageViews := (List.range n).map some
         swapchainFramebuffers := (List.range n).map some
         commandBuffers := (List.range n).map some
         imageAvailableSemaphores := (List.range N).map (fun i => some (2 * i))
         renderCompleteSemaphores := (List.range N).map (fun i => some (2 * i + 1))
         inFlightFences := (List.range N).map some
         imagesInFlight := List.replicate n VK_NULL_HANDLE
         currentFrame := 0 },
       { fences := List.replicate N true, semaphores := 2 * N, graphicsQueue := [] }) := by
  unfold construct
  rw [createSyncObjects_eq, createImageViews_eq, createFramebuffers_eq]
  simp [createCommandBuffers, createSwapchain, App.empty, Gpu.empty, resize_nil, length_resize]

/-! ## The statements of `drawFrame`, one by one -/

theorem step_thrown {N : Nat} {a : Answer} {s s' : State} (h : drawFrame.step N a s = some s') :
    s.thrown = none := by
  unfold drawFrame.step at h
  cases ht : s.thrown with
  | none => rfl
  | some m => simp [ht] at h

theorem vkWaitForFences_some {g : Gpu} {fence : VkFence} {r r' : VkResult}
    (h : vkWaitForFences g fence r = some r') : r = VK_SUCCESS → g.signaled fence = true := by
  intro hr
  unfold vkWaitForFences at h
  by_cases hs : g.signaled fence = true
  · exact hs
  · simp [hr, hs] at h

theorem step_waitSlotFence {N : Nat} {a : Answer} {s s' : State} (hpc : s.pc = .waitSlotFence)
    (h : drawFrame.step N a s = some s') :
    ∃ fence, s.app.inFlightFences[s.app.currentFrame]? = some fence ∧
      (a.result = VK_SUCCESS → s.gpu.signaled fence = true) ∧
      s' = { s with pc := .resetSlotFence, trace := s.trace ++ [.waitForFences fence] } := by
  have ht : s.thrown.isSome = false := by simp [step_thrown h]
  unfold drawFrame.step at h
  simp only [ht, hpc, Bool.false_eq_true, if_false] at h
  cases hf : s.app.inFlightFences[s.app.currentFrame]? with
  | none => simp [hf] at h
  | some fence =>
    simp only [hf] at h
    cases hw : vkWaitForFences s.gpu fence a.result with
    | none => simp [hw] at h
    | some r =>
      simp only [hw, Option.some.injEq] at h
      exact ⟨fence, rfl, vkWaitForFences_some hw, h.symm⟩

theorem step_resetSlotFence {N : Nat} {a : Answer} {s s' : State} (hpc : s.pc = .resetSlotFence)
    (h : drawFrame.step N a s = some s') :
    ∃ fence, s.app.inFlightFences[s.app.currentFrame]? = some fence ∧
      s' = { s with
        gpu := if a.result = VK_SUCCESS then vkResetFences s.gpu fence else s.gpu
        pc := .acquireImage
        trace := s.trace ++ [.resetFences fence] } := by
  have ht : s.thrown.isSome = false := by simp [step_thrown h]
  unfold drawFrame.step at h
  simp only [ht, hpc, Bool.false_eq_true, if_false] at h
  cases hf : s.app.inFlightFences[s.app.currentFrame]? with
  | none => simp [hf] at h
  | some fence =>
    simp only [hf, Option.some.injEq] at h
    exact ⟨fence, rfl, h.symm⟩

theorem step_acquireImage {N : Nat} {a : Answer} {s s' : State} (hpc : s.pc = .acquireImage)
    (h : drawFrame.step N a s = some s') :
    ∃ semaphore, s.app.imageAvailableSemaphores[s.app.currentFrame]? = some semaphore ∧
      s' = { s with
        imageIndex := a.imageIndex
        pc := .waitImageFence
        trace := s.trace ++ [.acquireNextImage semaphore a.imageIndex] } := by
  have ht : s.thrown.isSome = false := by simp [step_thrown h]
  unfold drawFrame.step at h
  simp only [ht, hpc, Bool.false_eq_true, if_false] at h
  cases hf : s.app.imageAvailableSemaphores[s.app.currentFrame]? with
  | none => simp [hf] at h
  | some semaphore =>
    simp only [hf, Option.some.injEq] at h
    exact ⟨semaphore, rfl, h.symm⟩

theorem step_waitImageFence {N : Nat} {a : Answer} {s s' : State} (hpc : s.pc = .waitImageFence)
    (h : drawFrame.step N a s = some s') :
    ∃ entry, s.app.imagesInFlight[s.imageIndex]? = some entry ∧
      ((entry = VK_NULL_HANDLE ∧ s' = { s with pc := .claimImage }) ∨
       (entry ≠ VK_NULL_HANDLE ∧ (a.result = VK_SUCCESS → s.gpu.signaled entry = true) ∧
        s' = { s with pc := .claimImage, trace := s.trace ++ [.waitForFences entry] })) := by
  have ht : s.thrown.isSome = false := by simp [step_thrown h]
  unfold drawFrame.step at h
  simp only [ht, hpc, Bool.false_eq_true, if_false] at h
  cases hf : s.app.imagesInFlight[s.imageIndex]? with
  | none => simp [hf] at h
  | some entry =>
    simp only [hf] at h
    by_cases he : entry = VK_NULL_HANDLE
    · simp only [he, ne_eq, not_true_eq_false, if_false, Option.some.injEq] at h
      exact ⟨entry, rfl, Or.inl ⟨he, h.symm⟩⟩
    · simp only [ne_eq, he, not_false_eq_true, if_true] at h
      cases hw : vkWaitForFences s.gpu entry a.result with
      | none => simp [hw] at h
      | some r =>
        simp only [hw, Option.some.injEq] at h
        exact ⟨entry, rfl, Or.inr ⟨he, vkWaitForFences_some hw, h.symm⟩⟩

theorem step_claimImage {N : Nat} {a : Answer} {s s' : State} (hpc : s.pc = .claimImage)
    (h : drawFrame.step N a s = some s') :
    ∃ fence, s.app.inFlightFences[s.app.currentFrame]? = some fence ∧
      s.imageIndex < s.app.imagesInFlight.length ∧
      s' = { s with
        app := { s.app with imagesInFlight := s.app.imagesInFlight.set s.imageIndex fence }
        pc := .submit
        trace := s.trace ++ [.claim s.imageIndex fence] } := by
  have ht : s.thrown.isSome = false := by simp [step_thrown h]
  unfold drawFrame.step at h
  simp only [ht, hpc, Bool.false_eq_true, if_false] at h
  cases hf : s.app.inFlightFences[s.app.currentFrame]? with
  | none => simp [hf] at h
  | some fence =>
    simp only [hf] at h
    by_cases hi : s.imageIndex < s.app.imagesInFlight.length
    · simp only [hi, if_true, Option.some.injEq] at h
      exact ⟨fence, rfl, hi, h.symm⟩
    · simp [hi] at h

/-- The batch `drawFrame` builds for slot `currentFrame` and image `imageIndex`. -/
theorem step_submit {N : Nat} {a : Answer} {s s' : State} (hpc : s.pc = .submit)
    (h : drawFrame.step N a s = some s') :
    ∃ imageAvailable commandBuffer renderComplete fence,
      s.app.imageAvailableSemaphores[s.app.currentFrame]? = some imageAvailable ∧
      s.app.commandBuffers[s.imageIndex]? = some commandBuffer ∧
      s.app.renderCompleteSemaphores[s.app.currentFrame]? = some renderComplete ∧
      s.app.inFlightFences[s.app.currentFrame]? = some fence ∧
      ((a.result ≠ VK_SUCCESS ∧
        s' = { s with
          pc := .submit
          signalSemaphores := [renderComplete]
          thrown := some "Failed to submit draw command buffer!"
          trace := s.trace ++ [.queueSubmit
            ⟨[imageAvailable], [VK_PIPELINE_STAGE_COLOR_ATTACHMENT_OUTPUT_BIT], [commandBuffer],
              [renderComplete]⟩ fence] }) ∨
       (a.result = VK_SUCCESS ∧
        s' = { s with
          gpu := vkQueueSubmit s.gpu
            ⟨[imageAvailable], [VK_PIPELINE_STAGE_COLOR_ATTACHMENT_OUTPUT_BIT], [commandBuffer],
              [renderComplete]⟩ fence
          signalSemaphores := [renderComplete]
          pc := .present
          trace := s.trace ++ [.queueSubmit
            ⟨[imageAvailable], [VK_PIPELINE_STAGE_COLOR_ATTACHMENT_OUTPUT_BIT], [commandBuffer],
              [renderComplete]⟩ fence] })) := by
  have ht : s.thrown.isSome = false := by simp [step_thrown h]
  unfold drawFrame.step at h
  simp only [ht, hpc, Bool.false_eq_true, if_false] at h
  cases h1 : s.app.imageAvailableSemaphores[s.app.currentFrame]? with
  | none => simp [h1] at h
  | some imageAvailable =>
    cases h2 : s.app.commandBuffers[s.imageIndex]? with
    | none => simp [h1, h2] at h
    | some commandBuffer =>
      cases h3 : s.app.renderCompleteSemaphores[s.app.currentFrame]? with
      | none => simp [h1, h2, h3] at h
      | some renderComplete =>
        cases h4 : s.app.inFlightFences[s.app.currentFrame]? with
        | none => simp [h1, h2, h3, h4] at h
        | some fence =>
          simp only [h1, h2, h3, h4] at h
          refine ⟨imageAvailable, commandBuffer, renderComplete, fence, rfl, rfl, rfl, rfl, ?_⟩
          by_cases hr : a.result = VK_SUCCESS
          · simp only [handleVkResult, hr, ne_eq, not_true_eq_false, if_false,
              Option.some.injEq] at h
            exact Or.inr ⟨hr, h.symm⟩
          · simp only [handleVkResult, ne_eq, hr, not_false_eq_true, if_true,
              Option.some.injEq] at h
            exact Or.inl ⟨hr, h.symm⟩

theorem step_present {N : Nat} {a : Answer} {s s' : State} (hpc : s.pc = .present)
    (h : drawFrame.step N a s = some s') :
    s' = { s with
      pc := .advance
      trace := s.trace ++ [.queuePresent ⟨s.signalSemaphores, [s.app.swapchain], [s.imageIndex]⟩] } := by
  have ht : s.thrown.isSome = false := by simp [step_thrown h]
  unfold drawFrame.step at h
  simp only [ht, hpc, Bool.false_eq_true, if_false, Option.some.injEq] at h
  exact h.symm

theorem step_advance {N : Nat} {a : Answer} {s s' : State} (hpc : s.pc = .advance)
    (h : drawFrame.step N a s = some s') :
    0 < N ∧
    s' = { s with
      app := { s.app with currentFrame := (s.app.currentFrame + 1) % N }
      pc := .waitSlotFence
      trace := s.trace ++ [.advance ((s.app.currentFrame + 1) % N)] } := by
  have ht : s.thrown.isSome = false := by simp [step_thrown h]
  unfold drawFrame.step at h
  simp only [ht, hpc, Bool.false_eq_true, if_false] at h
  by_cases hN : N = 0
  · simp [hN] at h
  · simp only [hN, if_false, Option.some.injEq] at h
    exact ⟨Nat.pos_of_ne_zero hN, h.symm⟩

theorem step_gpu {N j : Nat} {s s' : State} (h : step N (.gpu j) s = some s') :
    ∃ g, s.gpu.complete j = some g ∧ s' = { s with gpu := g } := by
  simp only [step, Option.map_eq_some'] at h
  obtain ⟨g, hg, hs⟩ := h
  exact ⟨g, hg, hs.symm⟩

/-! ## Fences and unfinished submissions -/

theorem Gpu.outstanding_subset (g : Gpu) : ∀ sub ∈ g.outstanding, sub ∈ g.graphicsQueue := by
  intro sub h
  exact (List.mem_filter.1 h).1

theorem Gpu.pending_pos {g : Gpu} {sub : Submission} {f : VkFence} (h : sub ∈ g.outstanding)
    (hf : sub.fence = f) : 0 < g.pending f := by
  unfold Gpu.pending
  exact List.countP_pos_iff.2 ⟨sub, h, by simpa using hf⟩

theorem signaled_reset (g : Gpu) (c k : Nat) :
    (vkResetFences g (some c)).signaled (some k) = if k = c then false else g.signaled (some k) := by
  simp only [vkResetFences, Gpu.signaled, List.getD_eq_getElem?_getD]
  by_cases h : k = c
  · subst h
    by_cases hk : k < g.fences.length
    · simp [hk]
    · have hlen : (g.fences.set k false).length ≤ k := by simpa using Nat.le_of_not_lt hk
      simp [List.getElem?_eq_none hlen]
  · simp [h, List.getElem?_set_ne (Ne.symm h)]

theorem pending_reset (g : Gpu) (f f' : VkFence) : (vkResetFences g f).pending f' = g.pending f' := by
  cases f <;> rfl

theorem signaled_submit (g : Gpu) (info : VkSubmitInfo) (f f' : VkFence) :
    (vkQueueSubmit g info f).signaled f' = g.signaled f' := by
  cases f' <;> rfl

theorem outstanding_submit (g : Gpu) (info : VkSubmitInfo) (f : VkFence) :
    (vkQueueSubmit g info f).outstanding = g.outstanding ++ [⟨info, f, false⟩] := by
  simp [vkQueueSubmit, Gpu.outstanding, List.filter_append]

theorem pending_submit (g : Gpu) (info : VkSubmitInfo) (f f' : VkFence) :
    (vkQueueSubmit g info f).pending f' = g.pending f' + if f = f' then 1 else 0 := by
  unfold Gpu.pending
  rw [outstanding_submit, List.countP_append]
  by_cases h : f = f' <;> simp [List.countP_cons, h]

/-- What a completion on the GPU changes. -/
theorem Gpu.complete_effect {g g' : Gpu} {j : Nat} (h : g.complete j = some g') :
    ∃ sub, sub ∈ g.outstanding ∧
      (∀ x ∈ g'.outstanding, x ∈ g.outstanding) ∧
      (∀ f, g.pending f = g'.pending f + if sub.fence = f then 1 else 0) ∧
      g'.fences = (match sub.fence with
        | some k => g.fences.set k true
        | none => g.fences) ∧
      (∀ x ∈ g'.graphicsQueue, ∃ y ∈ g.graphicsQueue, y.fence = x.fence ∧ y.info = x.info ∧
        (x.completed = false → y = x)) := by
  obtain ⟨sub, A, B, hj, hc, hq, ho, ho', hf, -⟩ := Gpu.complete_spec h
  refine ⟨sub, by simp [ho], ?_, ?_, hf, ?_⟩
  · intro x hx
    rw [ho'] at hx
    rw [ho]
    rcases List.mem_append.1 hx with hx | hx
    · exact List.mem_append_left _ hx
    · exact List.mem_append_right _ (List.mem_cons_of_mem _ hx)
  · intro f
    unfold Gpu.pending
    rw [ho, ho', List.countP_append, List.countP_append, List.countP_cons]
    by_cases hsf : sub.fence = f
    · simp [hsf]; omega
    · simp [hsf]
  · intro x hx
    rw [hq] at hx
    rcases List.mem_or_eq_of_mem_set hx with hx | hx
    · exact ⟨x, hx, rfl, rfl, fun _ => rfl⟩
    · subst hx
      exact ⟨sub, List.getElem?_mem hj, rfl, rfl, by simp⟩

theorem signaled_complete {g : Gpu} {sub : Submission} {fences : List Bool} (k : Nat)
    (hf : fences = (match sub.fence with
        | some k => g.fences.set k true
        | none => g.fences)) :
    fences.getD k false =
      if sub.fence = some k ∧ k < g.fences.length then true else g.fences.getD k false := by
  subst hf
  cases hs : sub.fence with
  | none => simp
  | some k0 =>
    simp only [List.getD_eq_getElem?_getD, Option.some.injEq]
    by_cases h : k0 = k
    · subst h
      by_cases hk : k0 < g.fences.length
      · simp [hk]
      · have hlen : (g.fences.set k0 true).length ≤ k0 := by simpa using Nat.le_of_not_lt hk
        have hlen' : g.fences.length ≤ k0 := Nat.le_of_not_lt hk
        simp [hk, List.getElem?_eq_none hlen, List.getElem?_eq_none hlen']
    · simp [h, List.getElem?_set_ne h]

/-! ## The invariant holds in every reachable state -/

theorem frames_append (s : State) (act : Action) :
    (s.trace ++ [act]).countP (fun act => match act with | .advance _ => true | _ => false) =
      s.frames + (match act with | .advance _ => 1 | _ => 0) := by
  unfold State.frames
  rw [List.countP_append]
  cases act <;> simp

theorem range_map_some_get {N c : Nat} {fence : VkFence}
    (hf : ((List.range N).map some)[c]? = some fence) : c < N ∧ fence = some c := by
  rw [List.getElem?_map] at hf
  by_cases hc : c < N
  · rw [List.getElem?_range hc] at hf
    simp only [Option.map_some', Option.some.injEq] at hf
    exact ⟨hc, hf.symm⟩
  · rw [List.getElem?_eq_none (by simpa using Nat.le_of_not_lt hc)] at hf
    simp at hf

theorem Inv.slotFence {N n : Nat} {s : State} {fence : VkFence} (h : Inv N n s)
    (hf : s.app.inFlightFences[s.app.currentFrame]? = some fence) :
    s.app.currentFrame < N ∧ fence = some s.app.currentFrame := by
  rw [h.fencesOf] at hf
  exact range_map_some_get hf

theorem inv_fresh (N n : Nat) : Inv N n (fresh N n) := by
  have hc := construct_eq N n
  have happ : (fresh N n).app = (construct N n).1 := rfl
  have hgpu : (fresh N n).gpu = (construct N n).2 := rfl
  rw [hc] at happ hgpu
  have hout : (fresh N n).gpu.outstanding = [] := by rw [hgpu]; rfl
  have hpc : (fresh N n).pc = .waitSlotFence := rfl
  have hfr : (fresh N n).frames = 0 := rfl
  have htab : (fresh N n).app.imagesInFlight = List.replicate n VK_NULL_HANDLE := by rw [happ]
  have hnone : ∀ k, some k ∈ (fresh N n).app.imagesInFlight → False := by
    intro k hk
    rw [htab] at hk
    have := (List.mem_replicate.1 hk).2
    simp [VK_NULL_HANDLE] at this
  refine
    { fencesOf := by rw [happ], buffersOf := by rw [happ], fencesLen := by rw [hgpu]; simp,
      tableLen := by rw [htab]; simp, slot := ?_, queued := ?_, idle := ?_, busy := ?_,
      tracked := ?_, atReset := ?_, reset := ?_, atClaim := ?_, atSubmit := ?_, counter := ?_,
      early := ?_, entries := ?_ }
  · by_cases hN : N = 0
    · exact Or.inr ⟨hN, rfl⟩
    · left; rw [happ]; exact Nat.pos_of_ne_zero hN
  · intro sub hsub; rw [hgpu] at hsub; simp at hsub
  · intro k _; unfold Gpu.pending; rw [hout]; rfl
  · intro k hk hs
    rw [hgpu] at hs
    simp [Gpu.signaled, List.getElem?_replicate, hk] at hs
  · intro sub hsub; rw [hout] at hsub; simp at hsub
  · intro h; rw [hpc] at h; cases h
  · intro h; rw [hpc] at h; cases h
  · intro h; rw [hpc] at h; cases h
  · intro h; rw [hpc] at h; cases h
  · intro _; rw [hfr, happ]; simp
  · intro _ k hk; exact (hnone k hk).elim
  · intro k hk; exact (hnone k hk).elim

theorem inv_waitSlotFence {N n : Nat} {a : Answer} {s s' : State} (h : Inv N n s)
    (hpc : s.pc = .waitSlotFence) (ha : a.result = VK_SUCCESS)
    (hs : drawFrame.step N a s = some s') : Inv N n s' := by
  obtain ⟨fence, hf, hsig, rfl⟩ := step_waitSlotFence hpc hs
  obtain ⟨hc, rfl⟩ := h.slotFence hf
  refine
    { fencesOf := h.fencesOf, buffersOf := h.buffersOf, fencesLen := h.fencesLen,
      tableLen := h.tableLen, slot := Or.inl hc, queued := h.queued, idle := h.idle,
      busy := ?_, tracked := h.tracked, atReset := fun _ => hsig ha, reset := ?_,
      atClaim := ?_, atSubmit := ?_, counter := ?_, early := ?_, entries := h.entries }
  · intro k hk hsk
    rcases h.busy k hk hsk with h1 | ⟨_, h2⟩
    · exact Or.inl h1
    · rw [hpc] at h2; cases h2
  · intro h2; cases h2
  · intro h2; cases h2
  · intro h2; cases h2
  · intro hN
    have := h.counter hN
    simpa [State.frames, frames_append] using this
  · intro hfr k hk
    have hfr' : s.frames < N := by simpa [State.frames, frames_append] using hfr
    rcases h.early hfr' k hk with h1 | ⟨_, h2⟩
    · exact Or.inl h1
    · rw [hpc] at h2; cases h2

theorem inv_resetSlotFence {N n : Nat} {a : Answer} {s s' : State} (h : Inv N n s)
    (hpc : s.pc = .resetSlotFence) (ha : a.result = VK_SUCCESS)
    (hs : drawFrame.step N a s = some s') : Inv N n s' := by
  obtain ⟨fence, hf, rfl⟩ := step_resetSlotFence hpc hs
  obtain ⟨hc, rfl⟩ := h.slotFence hf
  simp only [ha, if_true]
  have hidle : s.gpu.pending (some s.app.currentFrame) = 0 := h.idle _ (h.atReset hpc)
  refine
    { fencesOf := h.fencesOf, buffersOf := h.buffersOf, fencesLen := ?_,
      tableLen := h.tableLen, slot := Or.inl hc, queued := h.queued, idle := ?_,
      busy := ?_, tracked := h.tracked, atReset := ?_, reset := ?_,
      atClaim := ?_, atSubmit := ?_, counter := ?_, early := ?_, entries := h.entries }
  · simpa [vkResetFences] using h.fencesLen
  · intro k hk
    simp only [signaled_reset, pending_reset] at hk ⊢
    by_cases hkc : k = s.app.currentFrame
    · simp [hkc] at hk
    · simp only [hkc, if_false] at hk
      exact h.idle k hk
  · intro k hk hsk
    simp only [signaled_reset, pending_reset] at hsk ⊢
    by_cases hkc : k = s.app.currentFrame
    · exact Or.inr ⟨hkc, rfl⟩
    · simp only [hkc, if_false] at hsk
      rcases h.busy k hk hsk with h1 | ⟨h2, _⟩
      · exact Or.inl h1
      · exact (hkc h2).elim
  · intro h2; cases h2
  · intro _
    simp only [signaled_reset, pending_reset]
    exact ⟨by simp, hidle⟩
  · intro h2; cases h2
  · intro h2; cases h2
  · intro hN
    have := h.counter hN
    simpa [State.frames, frames_append] using this
  · intro hfr k hk
    have hfr' : s.frames < N := by simpa [State.frames, frames_append] using hfr
    rcases h.early hfr' k hk with h1 | ⟨_, h2⟩
    · exact Or.inl h1
    · rw [hpc] at h2; cases h2

theorem inv_acquireImage {N n : Nat} {a : Answer} {s s' : State} (h : Inv N n s)
    (hpc : s.pc = .acquireImage) (hs : drawFrame.step N a s = some s') : Inv N n s' := by
  obtain ⟨semaphore, _, rfl⟩ := step_acquireImage hpc hs
  have hslot : s.app.currentFrame < N := by
    rcases h.slot with h1 | ⟨_, h2⟩
    · exact h1
    · rw [hpc] at h2; cases h2
  refine
    { fencesOf := h.fencesOf, buffersOf := h.buffersOf, fencesLen := h.fencesLen,
      tableLen := h.tableLen, slot := Or.inl hslot, queued := h.queued, idle := h.idle,
      busy := ?_, tracked := h.tracked, atReset := ?_, reset := ?_,
      atClaim := ?_, atSubmit := ?_, counter := ?_, early := ?_, entries := h.entries }
  · intro k hk hsk
    rcases h.busy k hk hsk with h1 | ⟨h2, _⟩
    · exact Or.inl h1
    · exact Or.inr ⟨h2, rfl⟩
  · intro h2; cases h2
  · intro _
    exact h.reset (by rw [hpc]; rfl)
  · intro h2; cases h2
  · intro h2; cases h2
  · intro hN
    have := h.counter hN
    simpa [State.frames, frames_append] using this
  · intro hfr k hk
    have hfr' : s.frames < N := by simpa [State.frames, frames_append] using hfr
    rcases h.early hfr' k hk with h1 | ⟨_, h2⟩
    · exact Or.inl h1
    · rw [hpc] at h2; cases h2

theorem inv_waitImageFence {N n : Nat} {a : Answer} {s s' : State} (h : Inv N n s)
    (hpc : s.pc = .waitImageFence) (ha : a.result = VK_SUCCESS)
    (hs : drawFrame.step N a s = some s') : Inv N n s' := by
  obtain ⟨entry, he, hcase⟩ := step_waitImageFence hpc hs
  have hslot : s.app.currentFrame < N := by
    rcases h.slot with h1 | ⟨_, h2⟩
    · exact h1
    · rw [hpc] at h2; cases h2
  have hfree : ∀ sub ∈ s.gpu.outstanding, sub.info.pCommandBuffers ≠ [some s.imageIndex] := by
    intro sub hsub hcb
    have ht := h.tracked sub hsub _ hcb
    rw [he] at ht
    obtain ⟨k, i, _, _, hk, _⟩ := h.queued sub (s.gpu.outstanding_subset sub hsub)
    have hentry : entry = some k := by
      simp only [Option.some.injEq] at ht
      rw [ht, hk]
    have hpos := Gpu.pending_pos hsub hk
    rcases hcase with ⟨hnull, _⟩ | ⟨_, hsig, _⟩
    · rw [hentry] at hnull; simp [VK_NULL_HANDLE] at hnull
    · rw [hentry] at hsig
      have := h.idle k (hsig ha)
      omega
  have key : ∀ tr : List Action, tr.countP (fun act => match act with | .advance _ => true | _ => false)
      = s.frames → Inv N n { s with pc := .claimImage, trace := tr } := by
    intro tr htr
    refine
      { fencesOf := h.fencesOf, buffersOf := h.buffersOf, fencesLen := h.fencesLen,
        tableLen := h.tableLen, slot := Or.inl hslot, queued := h.queued, idle := h.idle,
        busy := ?_, tracked := h.tracked, atReset := ?_, reset := ?_,
        atClaim := fun _ => hfree, atSubmit := ?_, counter := ?_, early := ?_,
        entries := h.entries }
    · intro k hk hsk
      rcases h.busy k hk hsk with h1 | ⟨h2, _⟩
      · exact Or.inl h1
      · exact Or.inr ⟨h2, rfl⟩
    · intro h2; cases h2
    · intro _
      exact h.reset (by rw [hpc]; rfl)
    · intro h2; cases h2
    · intro hN
      have := h.counter hN
      simpa [State.frames, htr] using this
    · intro hfr k hk
      have hfr' : s.frames < N := by simpa [State.frames, htr] using hfr
      rcases h.early hfr' k hk with h1 | ⟨_, h2⟩
      · exact Or.inl h1
      · rw [hpc] at h2; cases h2
  rcases hcase with ⟨_, rfl⟩ | ⟨_, _, rfl⟩
  · exact key s.trace rfl
  · exact key _ (by simpa using frames_append s (.waitForFences entry))

theorem inv_claimImage {N n : Nat} {a : Answer} {s s' : State} (h : Inv N n s)
    (hpc : s.pc = .claimImage) (hs : drawFrame.step N a s = some s') : Inv N n s' := by
  obtain ⟨fence, hf, hi, rfl⟩ := step_claimImage hpc hs
  obtain ⟨hc, rfl⟩ := h.slotFence hf
  refine
    { fencesOf := h.fencesOf, buffersOf := h.buffersOf, fencesLen := h.fencesLen,
      tableLen := ?_, slot := Or.inl hc, queued := h.queued, idle := h.idle,
      busy := ?_, tracked := ?_, atReset := ?_, reset := ?_,
      atClaim := ?_, atSubmit := ?_, counter := ?_, early := ?_, entries := ?_ }
  · simpa using h.tableLen
  · intro k hk hsk
    rcases h.busy k hk hsk with h1 | ⟨h2, _⟩
    · exact Or.inl h1
    · exact Or.inr ⟨h2, rfl⟩
  · intro sub hsub i hcb
    have hne : s.imageIndex ≠ i := by
      intro hii
      subst hii
      exact h.atClaim hpc sub hsub hcb
    show (s.app.imagesInFlight.set s.imageIndex (some s.app.currentFrame))[i]? = some sub.fence
    rw [List.getElem?_set_ne hne]
    exact h.tracked sub hsub i hcb
  · intro h2; cases h2
  · intro _
    exact h.reset (by rw [hpc]; rfl)
  · intro h2; cases h2
  · intro _
    show (s.app.imagesInFlight.set s.imageIndex (some s.app.currentFrame))[s.imageIndex]? = _
    rw [List.getElem?_set_self hi]
  · intro hN
    have := h.counter hN
    simpa [State.frames, frames_append] using this
  · intro hfr k hk
    have hfr' : s.frames < N := by simpa [State.frames, frames_append] using hfr
    rcases List.mem_or_eq_of_mem_set hk with hk | hk
    · rcases h.early hfr' k hk with h1 | ⟨_, h2⟩
      · exact Or.inl h1
      · rw [hpc] at h2; cases h2
    · simp only [Option.some.injEq] at hk
      exact Or.inr ⟨hk, rfl⟩
  · intro k hk
    rcases List.mem_or_eq_of_mem_set hk with hk | hk
    · exact h.entries k hk
    · simp only [Option.some.injEq] at hk
      omega

theorem inv_submit {N n : Nat} {a : Answer} {s s' : State} (h : Inv N n s)
    (hpc : s.pc = .submit) (hs : drawFrame.step N a s = some s') : Inv N n s' := by
  obtain ⟨imageAvailable, commandBuffer, renderComplete, fence, _, hcb, _, hf, hcase⟩ :=
    step_submit hpc hs
  obtain ⟨hc, rfl⟩ := h.slotFence hf
  rw [h.buffersOf] at hcb
  obtain ⟨hi, rfl⟩ := range_map_some_get hcb
  obtain ⟨hunsig, hzero⟩ := h.reset (by rw [hpc]; rfl)
  rcases hcase with ⟨_, rfl⟩ | ⟨_, rfl⟩
  · refine
      { fencesOf := h.fencesOf, buffersOf := h.buffersOf, fencesLen := h.fencesLen,
        tableLen := h.tableLen, slot := Or.inl hc, queued := h.queued, idle := h.idle,
        busy := ?_, tracked := h.tracked, atReset := ?_, reset := fun _ => ⟨hunsig, hzero⟩,
        atClaim := ?_, atSubmit := fun _ => h.atSubmit hpc, counter := ?_, early := ?_,
        entries := h.entries }
    · intro k hk hsk
      rcases h.busy k hk hsk with h1 | ⟨h2, _⟩
      · exact Or.inl h1
      · exact Or.inr ⟨h2, rfl⟩
    · intro h2; cases h2
    · intro h2; cases h2
    · intro hN
      have := h.counter hN
      simpa [State.frames, frames_append] using this
    · intro hfr k hk
      have hfr' : s.frames < N := by simpa [State.frames, frames_append] using hfr
      rcases h.early hfr' k hk with h1 | ⟨h2, _⟩
      · exact Or.inl h1
      · exact Or.inr ⟨h2, rfl⟩
  · refine
      { fencesOf := h.fencesOf, buffersOf := h.buffersOf, fencesLen := h.fencesLen,
        tableLen := h.tableLen, slot := Or.inl hc, queued := ?_, idle := ?_,
        busy := ?_, tracked := ?_, atReset := ?_, reset := ?_,
        atClaim := ?_, atSubmit := ?_, counter := ?_, early := ?_, entries := h.entries }
    · intro sub hsub
      simp only [vkQueueSubmit, List.mem_append, List.mem_singleton] at hsub
      rcases hsub with hsub | rfl
      · exact h.queued sub hsub
      · exact ⟨s.app.currentFrame, s.imageIndex, hc, hi, rfl, rfl⟩
    · intro k hk
      simp only [signaled_submit, pending_submit] at hk ⊢
      have hne : s.app.currentFrame ≠ k := by
        intro hkc
        rw [← hkc, hunsig] at hk
        cases hk
      simp [hne, h.idle k hk]
    · intro k hk hsk
      simp only [signaled_submit, pending_submit] at hsk ⊢
      by_cases hkc : s.app.currentFrame = k
      · left
        rw [← hkc, hzero]
        simp
      · rcases h.busy k hk hsk with h1 | ⟨h2, _⟩
        · left
          simp [hkc, h1]
        · exact (hkc h2.symm).elim
    · intro sub hsub i hcbi
      rw [outstanding_submit] at hsub
      rcases List.mem_append.1 hsub with hsub | hsub
      · exact h.tracked sub hsub i hcbi
      · simp only [List.mem_singleton] at hsub
        subst hsub
        simp only [List.cons.injEq, Option.some.injEq, and_true] at hcbi
        subst hcbi
        exact h.atSubmit hpc
    · intro h2; cases h2
    · intro h2; cases h2
    · intro h2; cases h2
    · intro h2; cases h2
    · intro hN
      have := h.counter hN
      simpa [State.frames, frames_append] using this
    · intro hfr k hk
      have hfr' : s.frames < N := by simpa [State.frames, frames_append] using hfr
      rcases h.early hfr' k hk with h1 | ⟨h2, _⟩
      · exact Or.inl h1
      · exact Or.inr ⟨h2, rfl⟩

theorem inv_present {N n : Nat} {a : Answer} {s s' : State} (h : Inv N n s)
    (hpc : s.pc = .present) (hs : drawFrame.step N a s = some s') : Inv N n s' := by
  have hs' := step_present hpc hs
  subst hs'
  have hslot : s.app.currentFrame < N := by
    rcases h.slot with h1 | ⟨_, h2⟩
    · exact h1
    · rw [hpc] at h2; cases h2
  refine
    { fencesOf := h.fencesOf, buffersOf := h.buffersOf, fencesLen := h.fencesLen,
      tableLen := h.tableLen, slot := Or.inl hslot, queued := h.queued, idle := h.idle,
      busy := ?_, tracked := h.tracked, atReset := ?_, reset := ?_,
      atClaim := ?_, atSubmit := ?_, counter := ?_, early := ?_, entries := h.entries }
  · intro k hk hsk
    rcases h.busy k hk hsk with h1 | ⟨_, h2⟩
    · exact Or.inl h1
    · rw [hpc] at h2; cases h2
  · intro h2; cases h2
  · intro h2; cases h2
  · intro h2; cases h2
  · intro h2; cases h2
  · intro hN
    have := h.counter hN
    simpa [State.frames, frames_append] using this
  · intro hfr k hk
    have hfr' : s.frames < N := by simpa [State.frames, frames_append] using hfr
    rcases h.early hfr' k hk with h1 | ⟨h2, _⟩
    · exact Or.inl h1
    · exact Or.inr ⟨h2, rfl⟩

theorem inv_advance {N n : Nat} {a : Answer} {s s' : State} (h : Inv N n s)
    (hpc : s.pc = .advance) (hs : drawFrame.step N a s = some s') : Inv N n s' := by
  obtain ⟨hN, rfl⟩ := step_advance hpc hs
  have hfr : ({ s with
      app := { s.app with currentFrame := (s.app.currentFrame + 1) % N }
      pc := Pc.waitSlotFence
      trace := s.trace ++ [.advance ((s.app.currentFrame + 1) % N)] } : State).frames =
      s.frames + 1 := by
    simp [State.frames]
  refine
    { fencesOf := h.fencesOf, buffersOf := h.buffersOf, fencesLen := h.fencesLen,
      tableLen := h.tableLen, slot := Or.inl (Nat.mod_lt _ hN), queued := h.queued,
      idle := h.idle, busy := ?_, tracked := h.tracked, atReset := ?_, reset := ?_,
      atClaim := ?_, atSubmit := ?_, counter := ?_, early := ?_, entries := h.entries }
  · intro k hk hsk
    rcases h.busy k hk hsk with h1 | ⟨_, h2⟩
    · exact Or.inl h1
    · rw [hpc] at h2; cases h2
  · intro h2; cases h2
  · intro h2; cases h2
  · intro h2; cases h2
  · intro h2; cases h2
  · intro _
    rw [hfr]
    show (s.app.currentFrame + 1) % N = (s.frames + 1) % N
    rw [h.counter hN, Nat.mod_add_mod]
  · intro hlt k hk
    rw [hfr] at hlt
    have hc : s.app.currentFrame = s.frames := by
      rw [h.counter hN, Nat.mod_eq_of_lt (by omega)]
    have hc' : (s.app.currentFrame + 1) % N = s.frames + 1 := by
      rw [hc, Nat.mod_eq_of_lt hlt]
    left
    show k < (s.app.currentFrame + 1) % N
    rw [hc']
    rcases h.early (by omega) k hk with h1 | ⟨h2, _⟩ <;> omega

theorem inv_gpu {N n j : Nat} {s s' : State} (h : Inv N n s)
    (hs : step N (.gpu j) s = some s') : Inv N n s' := by
  obtain ⟨g, hg, rfl⟩ := step_gpu hs
  obtain ⟨sub, hsub, hmono, hpend, hfences, hqueue⟩ := Gpu.complete_effect hg
  obtain ⟨k0, i0, hk0, _, hfence0, _⟩ := h.queued sub (s.gpu.outstanding_subset sub hsub)
  have hlen : g.fences.length = N := by
    rw [hfences, hfence0]
    simpa using h.fencesLen
  have hsig : ∀ k, g.signaled (some k) = if k0 = k then true else s.gpu.signaled (some k) := by
    intro k
    have := signaled_complete k hfences
    simp only [Gpu.signaled]
    rw [this, hfence0]
    by_cases hkk : k0 = k
    · subst hkk
      simp [h.fencesLen, hk0]
    · simp [hkk]
  have hp0 : s.gpu.pending (some k0) = 1 := by
    have hpos := Gpu.pending_pos hsub hfence0
    by_cases hs0 : s.gpu.signaled (some k0) = true
    · have := h.idle k0 hs0
      omega
    · rcases h.busy k0 hk0 (by simpa using hs0) with h1 | ⟨h2, h3⟩
      · exact h1
      · have := (h.reset h3).2
        rw [← h2] at this
        omega
  have hpend' : ∀ k, g.pending (some k) = if k0 = k then 0 else s.gpu.pending (some k) := by
    intro k
    have := hpend (some k)
    rw [hfence0] at this
    by_cases hkk : k0 = k
    · subst hkk
      simp only [if_true] at this ⊢
      omega
    · simp only [Option.some.injEq, hkk, if_false] at this ⊢
      omega
  refine
    { fencesOf := h.fencesOf, buffersOf := h.buffersOf, fencesLen := hlen,
      tableLen := h.tableLen, slot := h.slot, queued := ?_, idle := ?_,
      busy := ?_, tracked := ?_, atReset := ?_, reset := ?_,
      atClaim := ?_, atSubmit := h.atSubmit, counter := h.counter, early := h.early,
      entries := h.entries }
  · intro x hx
    obtain ⟨y, hy, hyf, hyi, _⟩ := hqueue x hx
    rw [← hyf, ← hyi]
    exact h.queued y hy
  · intro k hk
    show g.pending (some k) = 0
    rw [hpend']
    by_cases hkk : k0 = k
    · simp [hkk]
    · simp only [hkk, if_false]
      have hk' : g.signaled (some k) = true := hk
      rw [hsig, if_neg hkk] at hk'
      exact h.idle k hk'
  · intro k hk hsk
    have hsk' : g.signaled (some k) = false := hsk
    show g.pending (some k) = 1 ∨ _
    rw [hsig] at hsk'
    by_cases hkk : k0 = k
    · simp [hkk] at hsk'
    · simp only [hkk, if_false] at hsk'
      rw [hpend', if_neg hkk]
      exact h.busy k hk hsk'
  · intro x hx i hcb
    exact h.tracked x (hmono x hx) i hcb
  · intro hpc
    show g.signaled (some s.app.currentFrame) = true
    rw [hsig]
    by_cases hkk : k0 = s.app.currentFrame
    · simp [hkk]
    · simp only [hkk, if_false]
      exact h.atReset hpc
  · intro hpc
    obtain ⟨h1, h2⟩ := h.reset hpc
    have hkk : k0 ≠ s.app.currentFrame := by
      intro hkk
      rw [hkk] at hp0
      omega
    show g.signaled (some s.app.currentFrame) = false ∧ g.pending (some s.app.currentFrame) = 0
    rw [hsig, hpend', if_neg hkk, if_neg hkk]
    exact ⟨h1, h2⟩
  · intro hpc x hx
    exact h.atClaim hpc x (hmono x hx)

/-- Every reachable state satisfies the invariant. -/
theorem Reachable.inv {N n : Nat} {s : State} (h : Reachable N n s) : Inv N n s := by
  induction h with
  | fresh => exact inv_fresh N n
  | @cpu s s' a _ hok hs ih =>
    cases hpc : s.pc with
    | waitSlotFence => exact inv_waitSlotFence ih hpc (hok (by rw [hpc]; rfl)) hs
    | resetSlotFence => exact inv_resetSlotFence ih hpc (hok (by rw [hpc]; rfl)) hs
    | acquireImage => exact inv_acquireImage ih hpc hs
    | waitImageFence => exact inv_waitImageFence ih hpc (hok (by rw [hpc]; rfl)) hs
    | claimImage => exact inv_claimImage ih hpc hs
    | submit => exact inv_submit ih hpc hs
    | present => exact inv_present ih hpc hs
    | advance => exact inv_advance ih hpc hs
  | gpu j _ hs ih => exact inv_gpu ih hs

/-! ## Executions -/

/-- A run whose calls all return `VK_SUCCESS` stays within the reachable states. -/
theorem Reachable.run_ok (N n : Nat) (evs : List Event) :
    ∀ {s s' : State}, Reachable N n s → evs.all Event.succeeds = true →
      run N evs s = some s' → Reachable N n s' := by
  induction evs with
  | nil =>
    intro s s' h _ hrun
    simp only [run, Option.some.injEq] at hrun
    exact hrun ▸ h
  | cons ev evs ih =>
    intro s s' h hok hrun
    simp only [run] at hrun
    cases hstep : step N ev s with
    | none => simp [hstep] at hrun
    | some s1 =>
      simp only [hstep, Option.some_bind] at hrun
      simp only [List.all_cons, Bool.and_eq_true] at hok
      have h1 : Reachable N n s1 := by
        cases ev with
        | cpu a =>
          exact Reachable.cpu a h (fun _ => by simpa [Event.succeeds] using hok.1) hstep
        | gpu j => exact Reachable.gpu j h hstep
      exact ih h1 hok.2 hrun

theorem targets_iff {n : Nat} {app : App} {sub : Submission} {i i' : Nat}
    (hb : app.commandBuffers = (List.range n).map some)
    (hsub : sub.info.pCommandBuffers = [some i']) :
    sub.targets app i = true ↔ i < n ∧ i' = i := by
  simp only [Submission.targets, hsub, hb, List.any_cons, List.any_nil, Bool.or_false,
    List.getElem?_map, beq_iff_eq]
  by_cases hi : i < n
  · rw [List.getElem?_range hi]
    simp only [Option.map_some', Option.some.injEq, hi, true_and]
    exact eq_comm
  · rw [List.getElem?_eq_none (by simpa using Nat.le_of_not_lt hi)]
    simp [hi]

/-- No image aliasing while the fence calls succeed. In every execution of the frame loop
interleaved with GPU completions in which the fence calls return `VK_SUCCESS`, when a statement
of `drawFrame` puts a new submission for presentable image `i` on the graphics queue, every
submission for image `i` already on the queue has been completed by the GPU. -/
theorem no_image_aliasing (N n : Nat) (s s' : State) (a : Answer) (new : Submission)
    (hr : Reachable N n s) (hs : drawFrame.step N a s = some s')
    (hnew : s'.gpu.graphicsQueue = s.gpu.graphicsQueue ++ [new]) (i : Nat)
    (hi : new.targets s.app i = true) :
    ∀ earlier ∈ s.gpu.graphicsQueue, earlier.targets s.app i = true → earlier.completed = true := by
  have h := hr.inv
  have hno : ∀ {l : List Submission}, l = l ++ [new] → False := by
    intro l hl
    have := congrArg List.length hl
    simp at this
  cases hpc : s.pc with
  | waitSlotFence =>
    obtain ⟨_, _, _, rfl⟩ := step_waitSlotFence hpc hs
    exact (hno hnew).elim
  | resetSlotFence =>
    obtain ⟨fence, _, rfl⟩ := step_resetSlotFence hpc hs
    have : (if a.result = VK_SUCCESS then vkResetFences s.gpu fence else s.gpu).graphicsQueue =
        s.gpu.graphicsQueue := by
      split
      · cases fence <;> rfl
      · rfl
    rw [this] at hnew
    exact (hno hnew).elim
  | acquireImage =>
    obtain ⟨_, _, rfl⟩ := step_acquireImage hpc hs
    exact (hno hnew).elim
  | waitImageFence =>
    obtain ⟨_, _, hcase⟩ := step_waitImageFence hpc hs
    rcases hcase with ⟨_, rfl⟩ | ⟨_, _, rfl⟩ <;> exact (hno hnew).elim
  | claimImage =>
    obtain ⟨_, _, _, rfl⟩ := step_claimImage hpc hs
    exact (hno hnew).elim
  | present =>
    have := step_present hpc hs
    subst this
    exact (hno hnew).elim
  | advance =>
    obtain ⟨_, rfl⟩ := step_advance hpc hs
    exact (hno hnew).elim
  | submit =>
    obtain ⟨imageAvailable, commandBuffer, renderComplete, fence, _, hcb, _, hf, hcase⟩ :=
      step_submit hpc hs
    rcases hcase with ⟨_, rfl⟩ | ⟨_, rfl⟩
    · exact (hno hnew).elim
    · simp only [vkQueueSubmit, List.append_cancel_left_eq, List.cons.injEq, and_true] at hnew
      subst hnew
      rw [h.buffersOf] at hcb
      obtain ⟨_, rfl⟩ := range_map_some_get hcb
      have hii := ((targets_iff h.buffersOf rfl).1 hi).2
      intro earlier hmem ht
      by_contra hc
      have hout : earlier ∈ s.gpu.outstanding := by
        simp only [Gpu.outstanding, List.mem_filter]
        exact ⟨hmem, by simpa using hc⟩
      obtain ⟨k, i', _, _, hk, hcb'⟩ := h.queued earlier hmem
      have hi' := ((targets_iff h.buffersOf hcb').1 ht).2
      have htr := h.tracked earlier hout i' hcb'
      rw [hi', ← hii, h.atSubmit hpc, hk] at htr
      simp only [Option.some.injEq] at htr
      have hpos := Gpu.pending_pos hout hk
      have hzero := (h.reset (by rw [hpc]; rfl)).2
      rw [htr] at hzero
      omega

/-- An instance of `no_image_aliasing`: two slots, one image, the second call submitting after
the first submission has completed. -/
theorem no_image_aliasing_witness :
    ∃ s s' new,
      run 2 (frame 0 ++ [Event.gpu 0] ++ List.replicate 5 (ok 0)) (fresh 2 1) = some s ∧
      Reachable 2 1 s ∧ drawFrame.step 2 ⟨VK_SUCCESS, 0⟩ s = some s' ∧
      s'.gpu.graphicsQueue = s.gpu.graphicsQueue ++ [new] ∧ new.targets s.app 0 = true ∧
      s.gpu.graphicsQueue.length = 1 ∧
      ∀ earlier ∈ s.gpu.graphicsQueue, earlier.targets s.app 0 = true →
        earlier.completed = true :=
  ⟨_, _, _, rfl,
    Reachable.run_ok 2 1 (frame 0 ++ [Event.gpu 0] ++ List.replicate 5 (ok 0)) Reachable.fresh
      (by decide) rfl,
    rfl, rfl, rfl, rfl,
    no_image_aliasing 2 1 _ _ ⟨VK_SUCCESS, 0⟩ _
      (Reachable.run_ok 2 1 (frame 0 ++ [Event.gpu 0] ++ List.replicate 5 (ok 0)) Reachable.fresh
        (by decide) rfl)
      rfl rfl 0 rfl⟩

theorem length_le_of_one_per_fence (N : Nat) :
    ∀ l : List Submission, (∀ sub ∈ l, ∃ k, k < N ∧ sub.fence = some k) →
      (∀ k, k < N → l.countP (fun sub => sub.fence = some k) ≤ 1) → l.length ≤ N := by
  induction N with
  | zero =>
    intro l hl _
    cases l with
    | nil => simp
    | cons x xs =>
      obtain ⟨k, hk, _⟩ := hl x (List.mem_cons_self _ _)
      omega
  | succ N ih =>
    intro l hl hone
    have hrest := ih (l.filter (fun sub => !decide (sub.fence = some N))) (by
      intro sub hsub
      obtain ⟨hmem, hne⟩ := List.mem_filter.1 hsub
      obtain ⟨k, hk, hfk⟩ := hl sub hmem
      refine ⟨k, ?_, hfk⟩
      have : k ≠ N := by
        intro hkN
        rw [hfk, hkN] at hne
        simp at hne
      omega) (by
      intro k hk
      exact Nat.le_trans ((List.filter_sublist l).countP_le _) (hone k (by omega)))
    have hsplit := List.length_eq_countP_add_countP (fun sub => decide (sub.fence = some N)) l
    have hlast := hone N (by omega)
    have heq : List.countP (fun a => decide ¬decide (a.fence = some N) = true) l =
        (l.filter (fun sub => !decide (sub.fence = some N))).length := by
      rw [List.countP_eq_length_filter]
      congr 1
      apply List.filter_congr
      intro x _
      by_cases hx : x.fence = some N <;> simp [hx]
    omega

/-- Bounded lag while the fence calls succeed. In every state reached with the fence calls
returning `VK_SUCCESS`, each frame slot has at most one submission the GPU has not finished, and
the number of unfinished submissions is at most `N = MAX_FRAMES_IN_FLIGHT`. -/
theorem bounded_lag (N n : Nat) (s : State) (hr : Reachable N n s) :
    (∀ (slot : Nat) (fence : VkFence),
      s.app.inFlightFences[slot]? = some fence → s.gpu.pending fence ≤ 1) ∧
    s.gpu.outstanding.length ≤ N := by
  have h := hr.inv
  have hone : ∀ k, k < N → s.gpu.pending (some k) ≤ 1 := by
    intro k hk
    by_cases hsig : s.gpu.signaled (some k) = true
    · rw [h.idle k hsig]
      exact Nat.zero_le _
    · rcases h.busy k hk (by simpa using hsig) with h1 | ⟨h2, h3⟩
      · exact Nat.le_of_eq h1
      · rw [h2, (h.reset h3).2]
        exact Nat.zero_le _
  refine ⟨?_, ?_⟩
  · intro slot fence hf
    rw [h.fencesOf] at hf
    obtain ⟨hslot, rfl⟩ := range_map_some_get hf
    exact hone slot hslot
  · apply length_le_of_one_per_fence
    · intro sub hsub
      obtain ⟨k, _, hk, _, hfk, _⟩ := h.queued sub (s.gpu.outstanding_subset sub hsub)
      exact ⟨k, hk, hfk⟩
    · exact hone

/-- A thread that waits in the claim step for the fence of its own slot stays there: the fence
was reset by this very call of `drawFrame` and no submission will signal it, whatever the GPU
completes afterwards. -/
theorem blocked_on_own_fence (N n : Nat) (evs : List Event) :
    ∀ {s s' : State}, Reachable N n s → s.pc = .waitImageFence →
      s.app.imagesInFlight[s.imageIndex]? = some (some s.app.currentFrame) →
      evs.all Event.succeeds = true → run N evs s = some s' →
      s'.pc = .waitImageFence ∧ s'.app = s.app ∧ s'.imageIndex = s.imageIndex ∧
        s'.trace = s.trace := by
  induction evs with
  | nil =>
    intro s s' _ hpc _ _ hrun
    simp only [run, Option.some.injEq] at hrun
    subst hrun
    exact ⟨hpc, rfl, rfl, rfl⟩
  | cons ev evs ih =>
    intro s s' hr hpc hentry hok hrun
    simp only [List.all_cons, Bool.and_eq_true] at hok
    simp only [run] at hrun
    cases hstep : step N ev s with
    | none => simp [hstep] at hrun
    | some s1 =>
      simp only [hstep, Option.some_bind] at hrun
      cases ev with
      | cpu a =>
        have ha : a.result = VK_SUCCESS := by simpa [Event.succeeds] using hok.1
        obtain ⟨entry, he, hcase⟩ := step_waitImageFence hpc hstep
        rw [hentry] at he
        simp only [Option.some.injEq] at he
        subst he
        have hunsig := (hr.inv.reset (by rw [hpc]; rfl)).1
        rcases hcase with ⟨hnull, _⟩ | ⟨_, hsig, _⟩
        · simp [VK_NULL_HANDLE] at hnull
        · rw [hsig ha] at hunsig
          cases hunsig
      | gpu j =>
        obtain ⟨g, _, hs1⟩ := step_gpu hstep
        have hr1 : Reachable N n s1 := Reachable.gpu j hr hstep
        subst hs1
        have key := ih hr1 hpc hentry hok.2 hrun
        exact key

theorem acquired_append (s : State) (act : Action) :
    (s.trace ++ [act]).filterMap
        (fun act => match act with | .acquireNextImage _ i => some i | _ => none) =
      s.acquired ++ (match act with | .acquireNextImage _ i => [i] | _ => []) := by
  unfold State.acquired
  rw [List.filterMap_append]
  cases act <;> simp

theorem alternating_fresh : Alternating (fresh 2 2) :=
  { count := by decide, bound := fun _ => by decide, halt := fun _ _ => by decide,
    image := fun _ h => by simp [fresh, Pc.index] at h,
    first := fun _ h => by
      rcases h with h | h
      · simp [fresh, State.frames] at h
      · simp [fresh, Pc.index] at h }

theorem alternating_cpu {a : Answer} {s s' : State} (hr : Reachable 2 2 s)
    (h : Alternating s) (hok : s.pc.isFenceCall = true → a.result = VK_SUCCESS)
    (hs : drawFrame.step 2 a s = some s') : Alternating s' := by
  have hinv := hr.inv
  have hcount := h.count
  cases hpc : s.pc with
  | waitSlotFence =>
    obtain ⟨fence, _, _, rfl⟩ := step_waitSlotFence hpc hs
    have hacq : ({ s with pc := Pc.resetSlotFence, trace := s.trace ++ [.waitForFences fence] } :
        State).acquired = s.acquired := by
      simp [State.acquired]
    have hfr : ({ s with pc := Pc.resetSlotFence, trace := s.trace ++ [.waitForFences fence] } :
        State).frames = s.frames := by
      simp [State.frames]
    rw [hpc] at hcount
    refine { count := ?_, bound := ?_, halt := ?_, image := ?_, first := ?_ }
    · rw [hacq, hfr]; simpa [Pc.index] using hcount
    · rw [hacq, hfr]; exact h.bound
    · intro _ _; simp [Pc.index]
    · intro _ h3; simp [Pc.index] at h3
    · rw [hacq, hfr]
      intro hp h1
      rcases h1 with h1 | h1
      · exact h.first hp (Or.inl h1)
      · simp [Pc.index] at h1
  | resetSlotFence =>
    obtain ⟨fence, _, rfl⟩ := step_resetSlotFence hpc hs
    have hacq : ({ s with
        gpu := if a.result = VK_SUCCESS then vkResetFences s.gpu fence else s.gpu
        pc := Pc.acquireImage
        trace := s.trace ++ [.resetFences fence] } : State).acquired = s.acquired := by
      simp [State.acquired]
    have hfr : ({ s with
        gpu := if a.result = VK_SUCCESS then vkResetFences s.gpu fence else s.gpu
        pc := Pc.acquireImage
        trace := s.trace ++ [.resetFences fence] } : State).frames = s.frames := by
      simp [State.frames]
    rw [hpc] at hcount
    refine { count := ?_, bound := ?_, halt := ?_, image := ?_, first := ?_ }
    · rw [hacq, hfr]; simpa [Pc.index] using hcount
    · rw [hacq, hfr]; exact h.bound
    · intro _ _; simp [Pc.index]
    · intro _ h3; simp [Pc.index] at h3
    · rw [hacq, hfr]
      intro hp h1
      rcases h1 with h1 | h1
      · exact h.first hp (Or.inl h1)
      · simp [Pc.index] at h1
  | acquireImage =>
    obtain ⟨semaphore, _, rfl⟩ := step_acquireImage hpc hs
    have hacq : ({ s with
        imageIndex := a.imageIndex
        pc := Pc.waitImageFence
        trace := s.trace ++ [.acquireNextImage semaphore a.imageIndex] } : State).acquired =
        s.acquired ++ [a.imageIndex] := by
      simp [State.acquired]
    have hfr : ({ s with
        imageIndex := a.imageIndex
        pc := Pc.waitImageFence
        trace := s.trace ++ [.acquireNextImage semaphore a.imageIndex] } : State).frames =
        s.frames := by
      simp [State.frames]
    rw [hpc] at hcount
    simp only [Pc.index, Nat.reduceLeDiff, if_false, Nat.add_zero] at hcount
    have hpre : List.IsPrefix (s.acquired ++ [a.imageIndex]) [0, 1, 0, 1, 0] →
        List.IsPrefix s.acquired [0, 1, 0, 1, 0] :=
      fun hp => (List.prefix_append _ _).trans hp
    refine { count := ?_, bound := ?_, halt := ?_, image := ?_, first := ?_ }
    · rw [hacq, hfr]; simp [Pc.index, hcount]
    · rw [hacq, hfr]; exact fun hp => h.bound (hpre hp)
    · intro _ _; simp [Pc.index]
    · rw [hacq, hfr]
      intro hp _
      have hb := h.bound (hpre hp)
      have htake := List.prefix_iff_eq_take.1 hp
      simp only [List.length_append, List.length_singleton, hcount] at htake
      have hlast := congrArg List.getLast? htake
      rw [List.getLast?_concat] at hlast
      show a.imageIndex = s.frames % 2
      have hcases : s.frames = 0 ∨ s.frames = 1 ∨ s.frames = 2 := by omega
      rcases hcases with h0 | h0 | h0 <;> rw [h0] at hlast ⊢ <;>
        simp at hlast <;> omega
    · rw [hacq, hfr]
      intro hp h1
      rcases h1 with h1 | h1
      · exact h.first (hpre hp) (Or.inl h1)
      · simp [Pc.index] at h1
  | waitImageFence =>
    obtain ⟨entry, he, hcase⟩ := step_waitImageFence hpc hs
    have ha := hok (by rw [hpc]; rfl)
    rw [hpc] at hcount
    simp only [Pc.index, Nat.le_refl, if_true] at hcount
    have hnot2 : List.IsPrefix s.acquired [0, 1, 0, 1, 0] → s.frames ≠ 2 := by
      intro hp h2
      have himg := h.image hp (by rw [hpc]; decide)
      have hfirst := h.first hp (Or.inl (by omega))
      have hc := hinv.counter (by decide)
      rw [h2] at himg hc
      simp only [Nat.mod_self] at himg hc
      rw [himg, hfirst] at he
      simp only [Option.some.injEq] at he
      subst he
      have hunsig := (hinv.reset (by rw [hpc]; rfl)).1
      rw [hc] at hunsig
      rcases hcase with ⟨hnull, _⟩ | ⟨_, hsig, _⟩
      · simp [VK_NULL_HANDLE] at hnull
      · rw [hsig ha] at hunsig
        cases hunsig
    have key : ∀ tr : List Action,
        tr.filterMap (fun act => match act with | .acquireNextImage _ i => some i | _ => none) =
          s.acquired →
        tr.countP (fun act => match act with | .advance _ => true | _ => false) = s.frames →
        Alternating { s with pc := .claimImage, trace := tr } := by
      intro tr hacq hfr
      have hacq' : ({ s with pc := Pc.claimImage, trace := tr } : State).acquired = s.acquired :=
        hacq
      have hfr' : ({ s with pc := Pc.claimImage, trace := tr } : State).frames = s.frames := hfr
      refine { count := ?_, bound := ?_, halt := ?_, image := ?_, first := ?_ }
      · rw [hacq', hfr']; simp [Pc.index, hcount]
      · rw [hacq', hfr']; exact h.bound
      · rw [hacq', hfr']
        intro hp h2
        exact (hnot2 hp h2).elim
      · rw [hacq', hfr']
        intro hp _
        exact h.image hp (by rw [hpc]; decide)
      · rw [hacq', hfr']
        intro hp h1
        rcases h1 with h1 | h1
        · exact h.first hp (Or.inl h1)
        · simp [Pc.index] at h1
    rcases hcase with ⟨_, rfl⟩ | ⟨_, _, rfl⟩
    · exact key _ rfl rfl
    · exact key _ (by simpa using acquired_append s (.waitForFences entry))
        (by simpa using frames_append s (.waitForFences entry))
  | claimImage =>
    obtain ⟨fence, hf, hi, rfl⟩ := step_claimImage hpc hs
    obtain ⟨_, rfl⟩ := hinv.slotFence hf
    have hacq : ({ s with
        app := { s.app with
          imagesInFlight := s.app.imagesInFlight.set s.imageIndex (some s.app.currentFrame) }
        pc := Pc.submit
        trace := s.trace ++ [.claim s.imageIndex (some s.app.currentFrame)] } : State).acquired =
        s.acquired := by
      simp [State.acquired]
    have hfr : ({ s with
        app := { s.app with
          imagesInFlight := s.app.imagesInFlight.set s.imageIndex (some s.app.currentFrame) }
        pc := Pc.submit
        trace := s.trace ++ [.claim s.imageIndex (some s.app.currentFrame)] } : State).frames =
        s.frames := by
      simp [State.frames]
    rw [hpc] at hcount
    simp only [Pc.index, Nat.reduceLeDiff, if_true] at hcount
    have hnot2 : List.IsPrefix s.acquired [0, 1, 0, 1, 0] → s.frames ≠ 2 := by
      intro hp h2
      have := h.halt hp h2
      rw [hpc] at this
      simp [Pc.index] at this
    refine { count := ?_, bound := ?_, halt := ?_, image := ?_, first := ?_ }
    · rw [hacq, hfr]; simp [Pc.index, hcount]
    · rw [hacq, hfr]; exact h.bound
    · rw [hacq, hfr]
      intro hp h2
      exact (hnot2 hp h2).elim
    · rw [hacq, hfr]
      intro hp _
      exact h.image hp (by rw [hpc]; decide)
    · rw [hacq, hfr]
      intro hp _
      have hb := h.bound hp
      have himg := h.image hp (by rw [hpc]; decide)
      have hc := hinv.counter (by decide)
      have hn2 := hnot2 hp
      show (s.app.imagesInFlight.set s.imageIndex (some s.app.currentFrame))[0]? = _
      have hcases : s.frames = 0 ∨ s.frames = 1 := by omega
      rcases hcases with h0 | h0
      · rw [h0] at himg hc
        simp only [Nat.zero_mod] at himg hc
        rw [himg] at hi ⊢
        rw [hc, List.getElem?_set_self hi]
      · rw [h0] at himg
        simp only [Nat.mod_succ] at himg
        rw [himg, List.getElem?_set_ne (by decide)]
        exact h.first hp (Or.inl (by omega))
  | submit =>
    obtain ⟨imageAvailable, commandBuffer, renderComplete, fence, _, _, _, _, hcase⟩ :=
      step_submit hpc hs
    rw [hpc] at hcount
    simp only [Pc.index, Nat.reduceLeDiff, if_true] at hcount
    have hnot2 : List.IsPrefix s.acquired [0, 1, 0, 1, 0] → s.frames ≠ 2 := by
      intro hp h2
      have := h.halt hp h2
      rw [hpc] at this
      simp [Pc.index] at this
    have key : ∀ (g : Gpu) (pc : Pc) (sems : List VkSemaphore) (thr : Option String)
        (act : Action), 5 ≤ pc.index →
        (match act with | .acquireNextImage _ i => [i] | _ => ([] : List Nat)) = [] →
        (match act with | .advance _ => 1 | _ => 0) = 0 →
        Alternating { s with
          gpu := g, pc := pc, signalSemaphores := sems, thrown := thr,
          trace := s.trace ++ [act] } := by
      intro g pc sems thr act hidx hact hadv
      have hacq : ({ s with
          gpu := g, pc := pc, signalSemaphores := sems, thrown := thr,
          trace := s.trace ++ [act] } : State).acquired = s.acquired := by
        have h1 := acquired_append s act
        rw [hact, List.append_nil] at h1
        exact h1
      have hfr : ({ s with
          gpu := g, pc := pc, signalSemaphores := sems, thrown := thr,
          trace := s.trace ++ [act] } : State).frames = s.frames := by
        have h1 := frames_append s act
        rw [hadv, Nat.add_zero] at h1
        exact h1
      refine { count := ?_, bound := ?_, halt := ?_, image := ?_, first := ?_ }
      · rw [hacq, hfr]
        show s.acquired.length = s.frames + (if 3 ≤ pc.index then 1 else 0)
        rw [if_pos (by omega)]
        exact hcount
      · rw [hacq, hfr]; exact h.bound
      · rw [hacq, hfr]
        intro hp h2
        exact (hnot2 hp h2).elim
      · rw [hacq, hfr]
        intro hp _
        exact h.image hp (by rw [hpc]; decide)
      · rw [hacq, hfr]
        intro hp _
        exact h.first hp (Or.inr (by rw [hpc]; decide))
    rcases hcase with ⟨_, rfl⟩ | ⟨_, rfl⟩
    · exact key _ _ _ _ _ (by decide) rfl rfl
    · exact key _ _ _ _ _ (by decide) rfl rfl
  | present =>
    have hs' := step_present hpc hs
    subst hs'
    have hacq : ({ s with
        pc := Pc.advance
        trace := s.trace ++
          [.queuePresent ⟨s.signalSemaphores, [s.app.swapchain], [s.imageIndex]⟩] } :
        State).acquired = s.acquired := by
      simp [State.acquired]
    have hfr : ({ s with
        pc := Pc.advance
        trace := s.trace ++
          [.queuePresent ⟨s.signalSemaphores, [s.app.swapchain], [s.imageIndex]⟩] } :
        State).frames = s.frames := by
      simp [State.frames]
    rw [hpc] at hcount
    simp only [Pc.index, Nat.reduceLeDiff, if_true] at hcount
    have hnot2 : List.IsPrefix s.acquired [0, 1, 0, 1, 0] → s.frames ≠ 2 := by
      intro hp h2
      have := h.halt hp h2
      rw [hpc] at this
      simp [Pc.index] at this
    refine { count := ?_, bound := ?_, halt := ?_, image := ?_, first := ?_ }
    · rw [hacq, hfr]; simp [Pc.index, hcount]
    · rw [hacq, hfr]; exact h.bound
    · rw [hacq, hfr]
      intro hp h2
      exact (hnot2 hp h2).elim
    · rw [hacq, hfr]
      intro hp _
      exact h.image hp (by rw [hpc]; decide)
    · rw [hacq, hfr]
      intro hp _
      exact h.first hp (Or.inr (by rw [hpc]; decide))
  | advance =>
    obtain ⟨_, rfl⟩ := step_advance hpc hs
    have hacq : ({ s with
        app := { s.app with currentFrame := (s.app.currentFrame + 1) % 2 }
        pc := Pc.waitSlotFence
        trace := s.trace ++ [.advance ((s.app.currentFrame + 1) % 2)] } : State).acquired =
        s.acquired := by
      simp [State.acquired]
    have hfr : ({ s with
        app := { s.app with currentFrame := (s.app.currentFrame + 1) % 2 }
        pc := Pc.waitSlotFence
        trace := s.trace ++ [.advance ((s.app.currentFrame + 1) % 2)] } : State).frames =
        s.frames + 1 := by
      simp [State.frames]
    rw [hpc] at hcount
    simp only [Pc.index, Nat.reduceLeDiff, if_true] at hcount
    have hnot2 : List.IsPrefix s.acquired [0, 1, 0, 1, 0] → s.frames ≠ 2 := by
      intro hp h2
      have := h.halt hp h2
      rw [hpc] at this
      simp [Pc.index] at this
    refine { count := ?_, bound := ?_, halt := ?_, image := ?_, first := ?_ }
    · rw [hacq, hfr]; simp [Pc.index, hcount]
    · rw [hacq, hfr]
      intro hp
      have := h.bound hp
      have := hnot2 hp
      omega
    · intro _ _; simp [Pc.index]
    · intro _ h3; simp [Pc.index] at h3
    · rw [hacq, hfr]
      intro hp _
      exact h.first hp (Or.inr (by rw [hpc]; decide))

theorem alternating_gpu {j : Nat} {s s' : State} (h : Alternating s)
    (hs : step 2 (.gpu j) s = some s') : Alternating s' := by
  obtain ⟨g, _, rfl⟩ := step_gpu hs
  exact { count := h.count, bound := h.bound, halt := h.halt, image := h.image,
          first := h.first }

/-- With two slots and two images acquired in the order 0, 1, 0, 1, 0, no execution completes
more than two calls of `drawFrame`. -/
theorem alternating_two_frames {s : State} (hr : Reachable 2 2 s) : Alternating s := by
  induction hr with
  | fresh => exact alternating_fresh
  | cpu a hr hok hs ih => exact alternating_cpu hr ih hok hs
  | gpu j _ hs ih => exact alternating_gpu ih hs

/-- C3 (scenario `N = 2`, two images handed out 0, 1, 0, ..). The first two calls of
`drawFrame` complete, on slots 0 and 1, each with one wait and reset of the slot fence and
one claim before the submission, and leave both entries of `imagesInFlight` non-empty. In the
third call, after both submissions have completed, the thread reaches the claim step for image
0 with `imagesInFlight[0]` naming the fence of slot 0, which the call has just reset: no call
returning `VK_SUCCESS` and no completion on the GPU ever moves the thread past this wait. More
generally, whatever the interleaving of completions, no execution in which the acquisitions
return 0, 1, 0, 1, 0 completes more than two calls: the third, fourth and fifth iteration never
complete. -/
theorem third_frame_blocks :
    ∃ s2 s, run 2 (frame 0 ++ [Event.gpu 0] ++ frame 1 ++ [Event.gpu 1]) (fresh 2 2) = some s2 ∧
      s2.frames = 2 ∧ s2.gpu.outstanding = [] ∧
      s2.app.imagesInFlight = [some 0, some 1] ∧
      s2.trace =
        [.waitForFences (some 0), .resetFences (some 0), .acquireNextImage (some 0) 0,
         .claim 0 (some 0),
         .queueSubmit ⟨[some 0], [VK_PIPELINE_STAGE_COLOR_ATTACHMENT_OUTPUT_BIT], [some 0], [some 1]⟩
           (some 0),
         .queuePresent ⟨[some 1], [some 0], [0]⟩, .advance 1,
         .waitForFences (some 1), .resetFences (some 1), .acquireNextImage (some 2) 1,
         .claim 1 (some 1),
         .queueSubmit ⟨[some 2], [VK_PIPELINE_STAGE_COLOR_ATTACHMENT_OUTPUT_BIT], [some 1], [some 3]⟩
           (some 1),
         .queuePresent ⟨[some 3], [some 0], [1]⟩, .advance 0] ∧
      run 2 [ok 0, ok 0, ok 0] s2 = some s ∧
      s.pc = .waitImageFence ∧ s.app.currentFrame = 0 ∧ s.imageIndex = 0 ∧
      s.app.imagesInFlight[s.imageIndex]? = some (some 0) ∧ s.gpu.signaled (some 0) = false ∧
      s.gpu.outstanding = [] ∧
      (∀ evs s', evs.all Event.succeeds = true → run 2 evs s = some s' →
        s'.pc = .waitImageFence ∧ s'.frames = 2) ∧
      ∀ sr, Reachable 2 2 sr → List.IsPrefix sr.acquired [0, 1, 0, 1, 0] → sr.frames ≤ 2 :=
  ⟨_, _, rfl, rfl, rfl, rfl, rfl, rfl, rfl, rfl, rfl, rfl, rfl, rfl, fun evs s' hok hrun => by
    have hr : Reachable 2 2
        ((run 2 (frame 0 ++ [Event.gpu 0] ++ frame 1 ++ [Event.gpu 1] ++ [ok 0, ok 0, ok 0])
          (fresh 2 2)).getD (fresh 2 2)) :=
      Reachable.run_ok 2 2 (frame 0 ++ [Event.gpu 0] ++ frame 1 ++ [Event.gpu 1] ++ [ok 0, ok 0, ok 0])
        Reachable.fresh (by decide) rfl
    obtain ⟨h1, _, _, h4⟩ := blocked_on_own_fence 2 2 evs hr rfl rfl hok hrun
    refine ⟨h1, ?_⟩
    unfold State.frames
    rw [h4]
    rfl, fun _ hr hp => (alternating_two_frames hr).bound hp⟩

/-- The wait and the reset at the head of `drawFrame` when both return `VK_SUCCESS`. In every
state, when the wait on `inFlightFences[currentFrame]` returns `VK_SUCCESS`, that fence is
signaled and nothing else has changed; the reset that follows, returning `VK_SUCCESS`, leaves
this fence unsignaled and the signaled bit of every other fence as it was. -/
theorem slot_wait_and_reset (N : Nat) (s s1 : State) (a a' : Answer)
    (hpc : s.pc = .waitSlotFence) (ha : a.result = VK_SUCCESS) (ha' : a'.result = VK_SUCCESS)
    (hs : drawFrame.step N a s = some s1) :
    ∃ fence, s.app.inFlightFences[s.app.currentFrame]? = some fence ∧
      s.gpu.signaled fence = true ∧ s1.gpu = s.gpu ∧ s1.app = s.app ∧
      ∃ s2, drawFrame.step N a' s1 = some s2 ∧ s2.pc = .acquireImage ∧ s2.app = s.app ∧
        s2.gpu.signaled fence = false ∧
        ∀ other : VkFence, other ≠ fence → s2.gpu.signaled other = s.gpu.signaled other := by
  obtain ⟨fence, hf, hsig, rfl⟩ := step_waitSlotFence hpc hs
  have ht := step_thrown hs
  refine ⟨fence, hf, hsig ha, rfl, rfl, ?_⟩
  refine ⟨{ s with
      gpu := vkResetFences s.gpu fence
      pc := .acquireImage
      trace := s.trace ++ [.waitForFences fence] ++ [.resetFences fence] }, ?_, rfl, rfl, ?_, ?_⟩
  · simp [drawFrame.step, ht, hf, ha']
  · cases fence with
    | none => rfl
    | some c => simp [signaled_reset]
  · intro other hne
    cases fence with
    | none => rfl
    | some c =>
      cases other with
      | none => rfl
      | some k =>
        have hkc : k ≠ c := fun h => hne (by rw [h])
        simp [signaled_reset, hkc]

/-- An instance of `slot_wait_and_reset`: the first call on the freshly constructed object. -/
theorem slot_wait_and_reset_witness :
    (fresh 2 2).pc = .waitSlotFence ∧
    drawFrame.step 2 ⟨VK_SUCCESS, 0⟩ (fresh 2 2) =
      some { fresh 2 2 with pc := .resetSlotFence, trace := [.waitForFences (some 0)] } ∧
    ∃ fence, (fresh 2 2).app.inFlightFences[(fresh 2 2).app.currentFrame]? = some fence ∧
      (fresh 2 2).gpu.signaled fence = true ∧
      ({ fresh 2 2 with pc := .resetSlotFence, trace := [.waitForFences (some 0)] } : State).gpu =
        (fresh 2 2).gpu ∧
      ({ fresh 2 2 with pc := .resetSlotFence, trace := [.waitForFences (some 0)] } : State).app =
        (fresh 2 2).app ∧
      ∃ s2, drawFrame.step 2 ⟨VK_SUCCESS, 0⟩
          { fresh 2 2 with pc := .resetSlotFence, trace := [.waitForFences (some 0)] } = some s2 ∧
        s2.pc = .acquireImage ∧ s2.app = (fresh 2 2).app ∧ s2.gpu.signaled fence = false ∧
        ∀ other : VkFence, other ≠ fence →
          s2.gpu.signaled other = (fresh 2 2).gpu.signaled other :=
  ⟨rfl, rfl, slot_wait_and_reset 2 (fresh 2 2) _ ⟨VK_SUCCESS, 0⟩ ⟨VK_SUCCESS, 0⟩ rfl rfl rfl rfl⟩

/-- The claim step, statement by statement. In every state about to run the claim step with
`imageIndex` inside the table and `currentFrame` a valid slot: when the wait returns
`VK_SUCCESS`, the conditional wait lets the thread through exactly when
`imagesInFlight[imageIndex]` is empty or names a signaled fence; when the wait returns any other
result the thread gets through whatever the state of the fence; the store that follows sets
entry `imageIndex` to `inFlightFences[currentFrame]` and changes no other entry and not the
length of the table. -/
theorem claim_step (N : Nat) (s : State) (a a' : Answer) (fence : VkFence)
    (hpc : s.pc = .waitImageFence) (ht : s.thrown = none)
    (hi : s.imageIndex < s.app.imagesInFlight.length)
    (hf : s.app.inFlightFences[s.app.currentFrame]? = some fence) :
    (a.result = VK_SUCCESS →
      ((drawFrame.step N a s).isSome = true ↔
        (s.app.imagesInFlight[s.imageIndex]? = some VK_NULL_HANDLE ∨
          ∃ entry, s.app.imagesInFlight[s.imageIndex]? = some entry ∧
            s.gpu.signaled entry = true))) ∧
    (a.result ≠ VK_SUCCESS → (drawFrame.step N a s).isSome = true) ∧
    ∀ s1, drawFrame.step N a s = some s1 →
      ∃ s2, drawFrame.step N a' s1 = some s2 ∧ s2.pc = .submit ∧
        s2.app.imagesInFlight[s.imageIndex]? = some fence ∧
        (∀ j : Nat, j ≠ s.imageIndex → s2.app.imagesInFlight[j]? = s.app.imagesInFlight[j]?) ∧
        s2.app.imagesInFlight.length = s.app.imagesInFlight.length ∧
        s2.app.inFlightFences = s.app.inFlightFences ∧
        s2.app.currentFrame = s.app.currentFrame ∧ s2.gpu = s.gpu := by
  have hthrown : s.thrown.isSome = false := by simp [ht]
  obtain ⟨entry, he⟩ : ∃ entry, s.app.imagesInFlight[s.imageIndex]? = some entry :=
    ⟨s.app.imagesInFlight[s.imageIndex], List.getElem?_eq_getElem hi⟩
  refine ⟨?_, ?_, ?_⟩
  · intro ha
    constructor
    · intro hsome
      obtain ⟨s1, hs1⟩ := Option.isSome_iff_exists.1 hsome
      obtain ⟨entry', he', hcase⟩ := step_waitImageFence hpc hs1
      rcases hcase with ⟨hnull, _⟩ | ⟨_, hsig, _⟩
      · left
        rw [he', hnull]
      · exact Or.inr ⟨entry', he', hsig ha⟩
    · intro hcase
      rcases hcase with hnull | ⟨entry', he', hsig⟩
      · simp [drawFrame.step, hthrown, hpc, hnull]
      · by_cases hn : entry' = VK_NULL_HANDLE
        · simp [drawFrame.step, hthrown, hpc, he', hn]
        · simp [drawFrame.step, hthrown, hpc, he', hn, vkWaitForFences, hsig]
  · intro hne
    by_cases hn : entry = VK_NULL_HANDLE
    · simp [drawFrame.step, hthrown, hpc, he, hn]
    · simp [drawFrame.step, hthrown, hpc, he, hn, vkWaitForFences, hne]
  · intro s1 hs1
    obtain ⟨entry', _, hcase⟩ := step_waitImageFence hpc hs1
    have key : ∀ tr : List Action, ∃ s2,
        drawFrame.step N a' { s with pc := .claimImage, trace := tr } = some s2 ∧
        s2.pc = .submit ∧
        s2.app.imagesInFlight[s.imageIndex]? = some fence ∧
        (∀ j : Nat, j ≠ s.imageIndex → s2.app.imagesInFlight[j]? = s.app.imagesInFlight[j]?) ∧
        s2.app.imagesInFlight.length = s.app.imagesInFlight.length ∧
        s2.app.inFlightFences = s.app.inFlightFences ∧
        s2.app.currentFrame = s.app.currentFrame ∧ s2.gpu = s.gpu := by
      intro tr
      refine ⟨{ s with
          app := { s.app with imagesInFlight := s.app.imagesInFlight.set s.imageIndex fence }
          pc := .submit
          trace := tr ++ [.claim s.imageIndex fence] }, ?_, rfl, ?_, ?_, ?_, rfl, rfl, rfl⟩
      · simp [drawFrame.step, hthrown, hf, hi]
      · exact List.getElem?_set_self hi
      · intro j hj
        exact List.getElem?_set_ne (Ne.symm hj)
      · exact List.length_set _ _ _
    rcases hcase with ⟨_, rfl⟩ | ⟨_, _, rfl⟩
    · exact key _
    · exact key _

/-- An instance of `claim_step` at a non-empty entry: two slots, one image, the second call
arriving at the claim step after the first submission has completed, so that
`imagesInFlight[0]` names the signaled fence of slot 0. -/
theorem claim_step_witness :
    ∃ s, run 2 (frame 0 ++ [Event.gpu 0] ++ [ok 0, ok 0, ok 0]) (fresh 2 1) = some s ∧
      s.pc = .waitImageFence ∧ s.thrown = none ∧
      s.imageIndex < s.app.imagesInFlight.length ∧
      s.app.inFlightFences[s.app.currentFrame]? = some (some 1) ∧
      s.app.imagesInFlight[s.imageIndex]? = some (some 0) ∧ s.gpu.signaled (some 0) = true ∧
      ((VK_SUCCESS = VK_SUCCESS →
        ((drawFrame.step 2 ⟨VK_SUCCESS, 0⟩ s).isSome = true ↔
          (s.app.imagesInFlight[s.imageIndex]? = some VK_NULL_HANDLE ∨
            ∃ entry, s.app.imagesInFlight[s.imageIndex]? = some entry ∧
              s.gpu.signaled entry = true))) ∧
      (VK_SUCCESS ≠ VK_SUCCESS → (drawFrame.step 2 ⟨VK_SUCCESS, 0⟩ s).isSome = true) ∧
      ∀ s1, drawFrame.step 2 ⟨VK_SUCCESS, 0⟩ s = some s1 →
        ∃ s2, drawFrame.step 2 ⟨VK_SUCCESS, 0⟩ s1 = some s2 ∧ s2.pc = .submit ∧
          s2.app.imagesInFlight[s.imageIndex]? = some (some 1) ∧
          (∀ j : Nat, j ≠ s.imageIndex →
            s2.app.imagesInFlight[j]? = s.app.imagesInFlight[j]?) ∧
          s2.app.imagesInFlight.length = s.app.imagesInFlight.length ∧
          s2.app.inFlightFences = s.app.inFlightFences ∧
          s2.app.currentFrame = s.app.currentFrame ∧ s2.gpu = s.gpu) :=
  ⟨(run 2 (frame 0 ++ [Event.gpu 0] ++ [ok 0, ok 0, ok 0]) (fresh 2 1)).getD (fresh 2 1),
    rfl, rfl, rfl, by decide, rfl, rfl, rfl,
    claim_step 2 _ ⟨VK_SUCCESS, 0⟩ ⟨VK_SUCCESS, 0⟩ (some 1) rfl rfl (by decide) rfl⟩

theorem step_frames {N : Nat} {ev : Event} {s s' : State} (h : step N ev s = some s') :
    (s'.app.currentFrame = s.app.currentFrame ∧ s'.frames = s.frames) ∨
    (0 < N ∧ s.pc = .advance ∧ s'.app.currentFrame = (s.app.currentFrame + 1) % N ∧
      s'.frames = s.frames + 1) := by
  cases ev with
  | gpu j =>
    obtain ⟨g, _, rfl⟩ := step_gpu h
    exact Or.inl ⟨rfl, rfl⟩
  | cpu a =>
    have h' : drawFrame.step N a s = some s' := h
    cases hpc : s.pc with
    | waitSlotFence =>
      obtain ⟨_, _, _, rfl⟩ := step_waitSlotFence hpc h'
      exact Or.inl ⟨rfl, by simp [State.frames]⟩
    | resetSlotFence =>
      obtain ⟨_, _, rfl⟩ := step_resetSlotFence hpc h'
      exact Or.inl ⟨rfl, by simp [State.frames]⟩
    | acquireImage =>
      obtain ⟨_, _, rfl⟩ := step_acquireImage hpc h'
      exact Or.inl ⟨rfl, by simp [State.frames]⟩
    | waitImageFence =>
      obtain ⟨_, _, hcase⟩ := step_waitImageFence hpc h'
      rcases hcase with ⟨_, rfl⟩ | ⟨_, _, rfl⟩
      · exact Or.inl ⟨rfl, rfl⟩
      · exact Or.inl ⟨rfl, by simp [State.frames]⟩
    | claimImage =>
      obtain ⟨_, _, _, rfl⟩ := step_claimImage hpc h'
      exact Or.inl ⟨rfl, by simp [State.frames]⟩
    | submit =>
      obtain ⟨_, _, _, _, _, _, _, _, hcase⟩ := step_submit hpc h'
      rcases hcase with ⟨_, rfl⟩ | ⟨_, rfl⟩
      · exact Or.inl ⟨rfl, by simp [State.frames]⟩
      · exact Or.inl ⟨rfl, by simp [State.frames]⟩
    | present =>
      have := step_present hpc h'
      subst this
      exact Or.inl ⟨rfl, by simp [State.frames]⟩
    | advance =>
      obtain ⟨hN, rfl⟩ := step_advance hpc h'
      exact Or.inr ⟨hN, rfl, rfl, by simp [State.frames]⟩

theorem run_frames (N : Nat) (evs : List Event) :
    ∀ {s s' : State}, s.app.currentFrame < N → run N evs s = some s' →
      s.frames ≤ s'.frames ∧
      s'.app.currentFrame = (s.app.currentFrame + (s'.frames - s.frames)) % N := by
  induction evs with
  | nil =>
    intro s s' hc hrun
    simp only [run, Option.some.injEq] at hrun
    subst hrun
    simp [Nat.mod_eq_of_lt hc]
  | cons ev evs ih =>
    intro s s' hc hrun
    simp only [run] at hrun
    cases hstep : step N ev s with
    | none => simp [hstep] at hrun
    | some s1 =>
      simp only [hstep, Option.some_bind] at hrun
      rcases step_frames hstep with ⟨h1, h2⟩ | ⟨hN, _, h1, h2⟩
      · have key := ih (by rw [h1]; exact hc) hrun
        rw [h1, h2] at key
        exact key
      · have key := ih (by rw [h1]; exact Nat.mod_lt _ hN) hrun
        rw [h1, h2, Nat.mod_add_mod] at key
        refine ⟨by omega, ?_⟩
        rw [key.2]
        congr 1
        omega

/-- C6 (advance). For `N ≥ 1` and `currentFrame < N`, along any execution: `currentFrame`
stays below `N`; when one more call of `drawFrame` has completed it is
`(old currentFrame + 1) mod N`; and when `k` more calls have completed, starting from
`currentFrame = 0`, it is `k mod N`. -/
theorem currentFrame_advance (N : Nat) (hN : 1 ≤ N) (s s' : State) (evs : List Event)
    (hc : s.app.currentFrame < N) (hrun : run N evs s = some s') :
    s'.app.currentFrame < N ∧
    (s'.frames = s.frames + 1 → s'.app.currentFrame = (s.app.currentFrame + 1) % N) ∧
    (s.app.currentFrame = 0 → ∀ k, s'.frames = s.frames + k → s'.app.currentFrame = k % N) := by
  obtain ⟨hle, heq⟩ := run_frames N evs hc hrun
  refine ⟨?_, ?_, ?_⟩
  · rw [heq]
    exact Nat.mod_lt _ (by omega)
  · intro h1
    rw [heq, h1]
    congr 2
    omega
  · intro h0 k hk
    rw [heq, h0, hk]
    congr 1
    omega

theorem currentFrame_advance_witness :
    ∃ s', 1 ≤ 2 ∧ (fresh 2 2).app.currentFrame < 2 ∧ run 2 (frame 0) (fresh 2 2) = some s' ∧
      s'.frames = (fresh 2 2).frames + 1 ∧
      (s'.app.currentFrame < 2 ∧
      (s'.frames = (fresh 2 2).frames + 1 →
        s'.app.currentFrame = ((fresh 2 2).app.currentFrame + 1) % 2) ∧
      ((fresh 2 2).app.currentFrame = 0 → ∀ k, s'.frames = (fresh 2 2).frames + k →
        s'.app.currentFrame = k % 2)) :=
  ⟨_, by decide, by decide, rfl, rfl,
    currentFrame_advance 2 (by decide) (fresh 2 2) _ (frame 0) (by decide) rfl⟩

/-- C7 (slots are created signaled). `createSyncObjects` fills the three per-slot vectors with
`N` new semaphores, `N` more new semaphores and `N` new fences, all distinct, and every one of
these fences is signaled; and during the first `N` calls of `drawFrame` on the freshly
constructed object, neither the wait on the slot fence nor the wait of the claim step is on a
fence that is unsignaled and has no unfinished submission to signal it. -/
theorem first_frames_never_wait_in_vain (N n : Nat) (app : App) (g : Gpu) (s : State)
    (hr : Reachable N n s) (hfr : s.frames < N) :
    ((createSyncObjects N app g).1.imageAvailableSemaphores =
        (List.range N).map (fun i => some (g.semaphores + 2 * i)) ∧
      (createSyncObjects N app g).1.renderCompleteSemaphores =
        (List.range N).map (fun i => some (g.semaphores + 2 * i + 1)) ∧
      (createSyncObjects N app g).1.inFlightFences =
        (List.range N).map (fun i => some (g.fences.length + i)) ∧
      (createSyncObjects N app g).2.semaphores = g.semaphores + 2 * N ∧
      (createSyncObjects N app g).2.fences = g.fences ++ List.replicate N true ∧
      ∀ fence ∈ (createSyncObjects N app g).1.inFlightFences,
        (createSyncObjects N app g).2.signaled fence = true) ∧
    (s.pc = .waitSlotFence → ∀ fence, s.app.inFlightFences[s.app.currentFrame]? = some fence →
      s.gpu.signaled fence = true ∨ 0 < s.gpu.pending fence) ∧
    (s.pc = .waitImageFence → ∀ entry, s.app.imagesInFlight[s.imageIndex]? = some entry →
      entry ≠ VK_NULL_HANDLE → s.gpu.signaled entry = true ∨ 0 < s.gpu.pending entry) := by
  have h := hr.inv
  refine ⟨?_, ?_, ?_⟩
  · rw [createSyncObjects_eq]
    refine ⟨rfl, rfl, rfl, rfl, rfl, ?_⟩
    intro fence hfence
    obtain ⟨i, hi, rfl⟩ := List.mem_map.1 hfence
    have hi' : i < N := List.mem_range.1 hi
    simp only [Gpu.signaled, List.getD_eq_getElem?_getD]
    rw [List.getElem?_append_right (Nat.le_add_right _ _)]
    simp [List.getElem?_replicate, hi']
  · intro hpc fence hf
    obtain ⟨hc, rfl⟩ := h.slotFence hf
    by_cases hsig : s.gpu.signaled (some s.app.currentFrame) = true
    · exact Or.inl hsig
    · rcases h.busy _ hc (by simpa using hsig) with h1 | ⟨_, h2⟩
      · right; omega
      · rw [hpc] at h2; cases h2
  · intro hpc entry he hne
    cases entry with
    | none => exact (hne rfl).elim
    | some k =>
      have hmem : some k ∈ s.app.imagesInFlight := List.getElem?_mem he
      have hk := h.entries k hmem
      have hlt : k < s.app.currentFrame := by
        rcases h.early hfr k hmem with h1 | ⟨_, h2⟩
        · exact h1
        · rw [hpc] at h2; cases h2
      by_cases hsig : s.gpu.signaled (some k) = true
      · exact Or.inl hsig
      · rcases h.busy k hk (by simpa using hsig) with h1 | ⟨h2, _⟩
        · right; omega
        · omega

theorem first_frames_never_wait_in_vain_witness :
    ∃ s, run 2 (frame 0 ++ [ok 0, ok 0, ok 0]) (fresh 2 1) = some s ∧
    Reachable 2 1 s ∧ s.frames < 2 ∧ s.pc = .waitImageFence ∧
    s.app.imagesInFlight[s.imageIndex]? = some (some 0) ∧
    (((createSyncObjects 2 App.empty Gpu.empty).1.imageAvailableSemaphores =
        (List.range 2).map (fun i => some (Gpu.empty.semaphores + 2 * i)) ∧
      (createSyncObjects 2 App.empty Gpu.empty).1.renderCompleteSemaphores =
        (List.range 2).map (fun i => some (Gpu.empty.semaphores + 2 * i + 1)) ∧
      (createSyncObjects 2 App.empty Gpu.empty).1.inFlightFences =
        (List.range 2).map (fun i => some (Gpu.empty.fences.length + i)) ∧
      (createSyncObjects 2 App.empty Gpu.empty).2.semaphores = Gpu.empty.semaphores + 2 * 2 ∧
      (createSyncObjects 2 App.empty Gpu.empty).2.fences =
        Gpu.empty.fences ++ List.replicate 2 true ∧
      ∀ fence ∈ (createSyncObjects 2 App.empty Gpu.empty).1.inFlightFences,
        (createSyncObjects 2 App.empty Gpu.empty).2.signaled fence = true) ∧
    (s.pc = .waitSlotFence →
      ∀ fence, s.app.inFlightFences[s.app.currentFrame]? = some fence →
        s.gpu.signaled fence = true ∨ 0 < s.gpu.pending fence) ∧
    (s.pc = .waitImageFence →
      ∀ entry, s.app.imagesInFlight[s.imageIndex]? = some entry →
        entry ≠ VK_NULL_HANDLE → s.gpu.signaled entry = true ∨ 0 < s.gpu.pending entry)) :=
  ⟨_, rfl, Reachable.run_ok 2 1 (frame 0 ++ [ok 0, ok 0, ok 0]) Reachable.fresh (by decide) rfl,
    by decide, rfl, rfl,
    first_frames_never_wait_in_vain 2 1 App.empty Gpu.empty _
      (Reachable.run_ok 2 1 (frame 0 ++ [ok 0, ok 0, ok 0]) Reachable.fresh (by decide) rfl)
      (by decide)⟩

theorem complete_last (g : Gpu) (info : VkSubmitInfo) (k : Nat) :
    (vkQueueSubmit g info (some k)).complete g.graphicsQueue.length =
      some { fences := g.fences.set k true, semaphores := g.semaphores,
             graphicsQueue := g.graphicsQueue ++ [⟨info, some k, true⟩] } := by
  simp only [Gpu.complete, vkQueueSubmit]
  rw [List.getElem?_append_right (Nat.le_refl _)]
  simp only [Nat.sub_self, List.getElem?_cons_zero, Bool.false_eq_true, if_false]
  rw [List.set_append_right _ _ (Nat.le_refl _)]
  simp

theorem step_submit_ok (N : Nat) (s : State) (a : Answer)
    (imageAvailable renderComplete : VkSemaphore) (commandBuffer : VkCommandBuffer)
    (fence : VkFence) (hpc : s.pc = .submit) (ht : s.thrown = none)
    (ha : a.result = VK_SUCCESS)
    (h1 : s.app.imageAvailableSemaphores[s.app.currentFrame]? = some imageAvailable)
    (h2 : s.app.commandBuffers[s.imageIndex]? = some commandBuffer)
    (h3 : s.app.renderCompleteSemaphores[s.app.currentFrame]? = some renderComplete)
    (h4 : s.app.inFlightFences[s.app.currentFrame]? = some fence) :
    drawFrame.step N a s = some { s with
      gpu := vkQueueSubmit s.gpu
        ⟨[imageAvailable], [VK_PIPELINE_STAGE_COLOR_ATTACHMENT_OUTPUT_BIT], [commandBuffer],
          [renderComplete]⟩ fence
      signalSemaphores := [renderComplete]
      pc := .present
      trace := s.trace ++ [.queueSubmit
        ⟨[imageAvailable], [VK_PIPELINE_STAGE_COLOR_ATTACHMENT_OUTPUT_BIT], [commandBuffer],
          [renderComplete]⟩ fence] } := by
  have hthrown : s.thrown.isSome = false := by simp [ht]
  simp [drawFrame.step, hthrown, hpc, h1, h2, h3, h4, handleVkResult, ha]

theorem step_present_ok (N : Nat) (s : State) (a : Answer) (hpc : s.pc = .present)
    (ht : s.thrown = none) :
    drawFrame.step N a s = some { s with
      pc := .advance
      trace := s.trace ++
        [.queuePresent ⟨s.signalSemaphores, [s.app.swapchain], [s.imageIndex]⟩] } := by
  have hthrown : s.thrown.isSome = false := by simp [ht]
  simp [drawFrame.step, hthrown, hpc]

/-- C8 (submission). In every state about to run the submit statement with `currentFrame` a
valid slot and `imageIndex` a valid image, a `vkQueueSubmit` that succeeds puts exactly one
new batch on the graphics queue: its only command buffer is `commandBuffers[imageIndex]`, its
only wait semaphore is `imageAvailableSemaphores[currentFrame]`, waited for at the stage
`VK_PIPELINE_STAGE_COLOR_ATTACHMENT_OUTPUT_BIT`, its only signal semaphore is
`renderCompleteSemaphores[currentFrame]`, and its fence is `inFlightFences[currentFrame]`; the
call itself changes no fence, and the completion of this batch on the GPU signals that fence
and no other. -/
theorem submit_contents (N : Nat) (s : State) (a : Answer)
    (imageAvailable renderComplete : VkSemaphore) (commandBuffer : VkCommandBuffer)
    (fence : VkFence) (hpc : s.pc = .submit) (ht : s.thrown = none)
    (ha : a.result = VK_SUCCESS)
    (h1 : s.app.imageAvailableSemaphores[s.app.currentFrame]? = some imageAvailable)
    (h2 : s.app.commandBuffers[s.imageIndex]? = some commandBuffer)
    (h3 : s.app.renderCompleteSemaphores[s.app.currentFrame]? = some renderComplete)
    (h4 : s.app.inFlightFences[s.app.currentFrame]? = some fence) :
    ∃ s', drawFrame.step N a s = some s' ∧ s'.pc = .present ∧ s'.app = s.app ∧
      s'.gpu.graphicsQueue = s.gpu.graphicsQueue ++
        [⟨⟨[imageAvailable], [VK_PIPELINE_STAGE_COLOR_ATTACHMENT_OUTPUT_BIT], [commandBuffer],
          [renderComplete]⟩, fence, false⟩] ∧
      s'.gpu.fences = s.gpu.fences ∧
      s'.trace = s.trace ++
        [.queueSubmit ⟨[imageAvailable], [VK_PIPELINE_STAGE_COLOR_ATTACHMENT_OUTPUT_BIT],
          [commandBuffer], [renderComplete]⟩ fence] ∧
      ∀ k, fence = some k → k < s.gpu.fences.length →
        ∃ g, s'.gpu.complete s.gpu.graphicsQueue.length = some g ∧ g.signaled fence = true ∧
          ∀ other : VkFence, other ≠ fence → g.signaled other = s.gpu.signaled other := by
  refine ⟨_, step_submit_ok N s a imageAvailable renderComplete commandBuffer fence hpc ht ha
    h1 h2 h3 h4, rfl, rfl, rfl, rfl, rfl, ?_⟩
  intro k hk hlen
  subst hk
  refine ⟨_, complete_last s.gpu _ k, ?_, ?_⟩
  · simp [Gpu.signaled, hlen]
  · intro other hne
    cases other with
    | none => rfl
    | some j =>
      have hjk : k ≠ j := fun h => hne (by rw [h])
      simp [Gpu.signaled, List.getElem?_set_ne hjk]

theorem submit_contents_witness :
    ∃ s, run 2 (List.replicate 5 (ok 1)) (fresh 2 2) = some s ∧ s.pc = .submit ∧
      s.thrown = none ∧
      s.app.imageAvailableSemaphores[s.app.currentFrame]? = some (some 0) ∧
      s.app.commandBuffers[s.imageIndex]? = some (some 1) ∧
      s.app.renderCompleteSemaphores[s.app.currentFrame]? = some (some 1) ∧
      s.app.inFlightFences[s.app.currentFrame]? = some (some 0) ∧
      ∃ s', drawFrame.step 2 ⟨VK_SUCCESS, 0⟩ s = some s' ∧ s'.pc = .present ∧ s'.app = s.app ∧
        s'.gpu.graphicsQueue = s.gpu.graphicsQueue ++
          [⟨⟨[some 0], [VK_PIPELINE_STAGE_COLOR_ATTACHMENT_OUTPUT_BIT], [some 1],
            [some 1]⟩, some 0, false⟩] ∧
        s'.gpu.fences = s.gpu.fences ∧
        s'.trace = s.trace ++
          [.queueSubmit ⟨[some 0], [VK_PIPELINE_STAGE_COLOR_ATTACHMENT_OUTPUT_BIT],
            [some 1], [some 1]⟩ (some 0)] ∧
        ∀ k, some 0 = some k → k < s.gpu.fences.length →
          ∃ g, s'.gpu.complete s.gpu.graphicsQueue.length = some g ∧
            g.signaled (some 0) = true ∧
            ∀ other : VkFence, other ≠ some 0 → g.signaled other = s.gpu.signaled other :=
  ⟨_, rfl, rfl, rfl, rfl, rfl, rfl, rfl,
    submit_contents 2 _ ⟨VK_SUCCESS, 0⟩ (some 0) (some 1) (some 1) (some 0) rfl rfl rfl rfl rfl
      rfl rfl⟩

/-- C9 (present). In every state about to run the submit statement with `currentFrame` a valid
slot and `imageIndex` a valid image, a successful submit is followed by one present request,
whatever `vkQueuePresentKHR` returns: the request names one swap chain, the member `swapchain`,
and one image index, `imageIndex`, and waits on one semaphore,
`renderCompleteSemaphores[currentFrame]`, which is the semaphore the submission of this call
signals. -/
theorem present_request (N : Nat) (s : State) (a a' : Answer)
    (imageAvailable renderComplete : VkSemaphore) (commandBuffer : VkCommandBuffer)
    (fence : VkFence) (hpc : s.pc = .submit) (ht : s.thrown = none)
    (ha : a.result = VK_SUCCESS)
    (h1 : s.app.imageAvailableSemaphores[s.app.currentFrame]? = some imageAvailable)
    (h2 : s.app.commandBuffers[s.imageIndex]? = some commandBuffer)
    (h3 : s.app.renderCompleteSemaphores[s.app.currentFrame]? = some renderComplete)
    (h4 : s.app.inFlightFences[s.app.currentFrame]? = some fence) :
    ∃ s1 s2 info, drawFrame.step N a s = some s1 ∧ drawFrame.step N a' s1 = some s2 ∧
      s2.pc = .advance ∧
      s2.trace = s.trace ++
        [.queueSubmit info fence,
         .queuePresent ⟨[renderComplete], [s.app.swapchain], [s.imageIndex]⟩] ∧
      info.pSignalSemaphores = [renderComplete] ∧
      s2.gpu.graphicsQueue = s.gpu.graphicsQueue ++ [⟨info, fence, false⟩] := by
  refine ⟨_, _, ⟨[imageAvailable], [VK_PIPELINE_STAGE_COLOR_ATTACHMENT_OUTPUT_BIT],
      [commandBuffer], [renderComplete]⟩,
    step_submit_ok N s a imageAvailable renderComplete commandBuffer fence hpc ht ha h1 h2 h3 h4,
    step_present_ok N _ a' rfl ht, rfl, ?_, rfl, rfl⟩
  simp

theorem present_request_witness :
    ∃ s, run 2 (List.replicate 5 (ok 1)) (fresh 2 2) = some s ∧ s.pc = .submit ∧
      s.thrown = none ∧
      s.app.imageAvailableSemaphores[s.app.currentFrame]? = some (some 0) ∧
      s.app.commandBuffers[s.imageIndex]? = some (some 1) ∧
      s.app.renderCompleteSemaphores[s.app.currentFrame]? = some (some 1) ∧
      s.app.inFlightFences[s.app.currentFrame]? = some (some 0) ∧
      ∃ s1 s2 info, drawFrame.step 2 ⟨VK_SUCCESS, 0⟩ s = some s1 ∧
        drawFrame.step 2 ⟨VK_SUBOPTIMAL_KHR, 0⟩ s1 = some s2 ∧ s2.pc = .advance ∧
        s2.trace = s.trace ++
          [.queueSubmit info (some 0),
           .queuePresent ⟨[some 1], [s.app.swapchain], [s.imageIndex]⟩] ∧
        info.pSignalSemaphores = [some 1] ∧
        s2.gpu.graphicsQueue = s.gpu.graphicsQueue ++ [⟨info, some 0, false⟩] :=
  ⟨_, rfl, rfl, rfl, rfl, rfl, rfl, rfl,
    present_request 2 _ ⟨VK_SUCCESS, 0⟩ ⟨VK_SUBOPTIMAL_KHR, 0⟩ (some 0) (some 1) (some 1) (some 0)
      rfl rfl rfl rfl rfl rfl rfl⟩

/-! ## The order of the steps of one call -/

theorem getD_of_getElem? {α : Type} {xs : List α} {c : Nat} {v d : α} (h : xs[c]? = some v) :
    xs.getD c d = v := by
  simp [h]

theorem lt_length_of_getElem? {α : Type} {xs : List α} {c : Nat} {v : α} (h : xs[c]? = some v) :
    c < xs.length :=
  (List.getElem?_eq_some.1 h).1

theorem within_cpu {N : Nat} {a : Answer} {s0 s s' : State} (h : Within N s0 s)
    (hs : drawFrame.step N a s = some s') : Within N s0 s' := by
  have ht := step_thrown hs
  have hlater := h.later
  cases hpc : s.pc with
  | waitSlotFence =>
    obtain ⟨fence, hf, _, rfl⟩ := step_waitSlotFence hpc hs
    refine
      { thrownAt := fun hth => absurd ht hth, later := by simpa [State.frames] using hlater,
        fences := h.fences, acquireSems := h.acquireSems, completeSems := h.completeSems,
        buffers := h.buffers, chain := h.chain, current := ?_, next := ?_ }
    · intro _ hfr
      have hfr' : s.frames = s0.frames := by simpa [State.frames] using hfr
      obtain ⟨hc, htr, htab, _, _, _⟩ := h.current ht hfr'
      rw [h.fences, hc] at hf
      refine ⟨hc, ?_, fun _ => htab (by rw [hpc]; decide), fun _ => lt_length_of_getElem? hf,
        fun h3 => by simp [Pc.index] at h3, fun h6 => by simp [Pc.index] at h6⟩
      show s.trace ++ [Action.waitForFences fence] = _
      rw [htr, hpc]
      simp [drawFrame.performed, Pc.index, hf]
    · intro _ _ hpc'
      cases hpc'
  | resetSlotFence =>
    obtain ⟨fence, hf, rfl⟩ := step_resetSlotFence hpc hs
    refine
      { thrownAt := fun hth => absurd ht hth, later := by simpa [State.frames] using hlater,
        fences := h.fences, acquireSems := h.acquireSems, completeSems := h.completeSems,
        buffers := h.buffers, chain := h.chain, current := ?_, next := ?_ }
    · intro _ hfr
      have hfr' : s.frames = s0.frames := by simpa [State.frames] using hfr
      obtain ⟨hc, htr, htab, _, _, _⟩ := h.current ht hfr'
      rw [h.fences, hc] at hf
      refine ⟨hc, ?_, fun _ => htab (by rw [hpc]; decide), fun _ => lt_length_of_getElem? hf,
        fun h3 => by simp [Pc.index] at h3, fun h6 => by simp [Pc.index] at h6⟩
      show s.trace ++ [Action.resetFences fence] = _
      rw [htr, hpc]
      simp [drawFrame.performed, Pc.index, hf]
    · intro _ _ hpc'
      cases hpc'
  | acquireImage =>
    obtain ⟨semaphore, hsem, rfl⟩ := step_acquireImage hpc hs
    refine
      { thrownAt := fun hth => absurd ht hth, later := by simpa [State.frames] using hlater,
        fences := h.fences, acquireSems := h.acquireSems, completeSems := h.completeSems,
        buffers := h.buffers, chain := h.chain, current := ?_, next := ?_ }
    · intro _ hfr
      have hfr' : s.frames = s0.frames := by simpa [State.frames] using hfr
      obtain ⟨hc, htr, htab, h1, _, _⟩ := h.current ht hfr'
      rw [h.acquireSems, hc] at hsem
      refine ⟨hc, ?_, fun _ => htab (by rw [hpc]; decide), fun _ => h1 (by rw [hpc]; decide),
        fun _ => lt_length_of_getElem? hsem, fun h6 => by simp [Pc.index] at h6⟩
      show s.trace ++ [Action.acquireNextImage semaphore a.imageIndex] = _
      rw [htr, hpc]
      simp [drawFrame.performed, Pc.index, hsem]
    · intro _ _ hpc'
      cases hpc'
  | waitImageFence =>
    obtain ⟨entry, he, hcase⟩ := step_waitImageFence hpc hs
    have key : ∀ tr : List Action,
        (tr = s.trace ++ drawFrame.claimWait s0 s.imageIndex ∨ s.frames ≠ s0.frames) →
        tr.countP (fun act => match act with | .advance _ => true | _ => false) = s.frames →
        Within N s0 { s with pc := .claimImage, trace := tr } := by
      intro tr htr' hcount
      refine
        { thrownAt := fun hth => absurd ht hth, later := by simpa [State.frames, hcount] using hlater,
          fences := h.fences, acquireSems := h.acquireSems, completeSems := h.completeSems,
          buffers := h.buffers, chain := h.chain, current := ?_, next := ?_ }
      · intro _ hfr
        have hfr' : s.frames = s0.frames := by simpa [State.frames, hcount] using hfr
        obtain ⟨hc, htr, htab, h1, h3, _⟩ := h.current ht hfr'
        refine ⟨hc, ?_, fun _ => htab (by rw [hpc]; decide), fun _ => h1 (by rw [hpc]; decide),
          fun _ => h3 (by rw [hpc]; decide), fun h6 => by simp [Pc.index] at h6⟩
        rcases htr' with htr' | htr'
        · show tr = _
          rw [htr', htr, hpc]
          simp [drawFrame.performed, Pc.index]
        · exact (htr' hfr').elim
      · intro _ _ hpc'
        cases hpc'
    by_cases hfr : s.frames = s0.frames
    · obtain ⟨_, _, htab, _, _, _⟩ := h.current ht hfr
      have htab' := htab (by rw [hpc]; decide)
      rw [htab'] at he
      rcases hcase with ⟨hnull, rfl⟩ | ⟨hnn, _, rfl⟩
      · exact key _ (Or.inl (by simp [drawFrame.claimWait, he, hnull])) rfl
      · exact key _ (Or.inl (by simp [drawFrame.claimWait, he, hnn]))
          (by simpa using frames_append s (.waitForFences entry))
    · rcases hcase with ⟨_, rfl⟩ | ⟨_, _, rfl⟩
      · exact key _ (Or.inr hfr) rfl
      · exact key _ (Or.inr hfr) (by simpa using frames_append s (.waitForFences entry))
  | claimImage =>
    obtain ⟨fence, hf, _, rfl⟩ := step_claimImage hpc hs
    refine
      { thrownAt := fun hth => absurd ht hth, later := by simpa [State.frames] using hlater,
        fences := h.fences, acquireSems := h.acquireSems, completeSems := h.completeSems,
        buffers := h.buffers, chain := h.chain, current := ?_, next := ?_ }
    · intro _ hfr
      have hfr' : s.frames = s0.frames := by simpa [State.frames] using hfr
      obtain ⟨hc, htr, _, h1, h3, _⟩ := h.current ht hfr'
      rw [h.fences, hc] at hf
      refine ⟨hc, ?_, fun h4 => by simp [Pc.index] at h4, fun _ => h1 (by rw [hpc]; decide),
        fun _ => h3 (by rw [hpc]; decide), fun h6 => by simp [Pc.index] at h6⟩
      show s.trace ++ [Action.claim s.imageIndex fence] = _
      rw [htr, hpc]
      simp [drawFrame.performed, Pc.index, hf]
    · intro _ _ hpc'
      cases hpc'
  | submit =>
    obtain ⟨imageAvailable, commandBuffer, renderComplete, fence, hia, hcb, hrc, hf, hcase⟩ :=
      step_submit hpc hs
    rcases hcase with ⟨_, rfl⟩ | ⟨_, rfl⟩
    · exact
        { thrownAt := fun _ => rfl, later := by simpa [State.frames] using hlater,
          fences := h.fences, acquireSems := h.acquireSems, completeSems := h.completeSems,
          buffers := h.buffers, chain := h.chain,
          current := fun hth => by simp at hth, next := fun hth => by simp at hth }
    · refine
        { thrownAt := fun hth => absurd ht hth, later := by simpa [State.frames] using hlater,
          fences := h.fences, acquireSems := h.acquireSems, completeSems := h.completeSems,
          buffers := h.buffers, chain := h.chain, current := ?_, next := ?_ }
      · intro _ hfr
        have hfr' : s.frames = s0.frames := by simpa [State.frames] using hfr
        obtain ⟨hc, htr, _, h1, h3, _⟩ := h.current ht hfr'
        rw [h.fences, hc] at hf
        rw [h.acquireSems, hc] at hia
        rw [h.completeSems, hc] at hrc
        rw [h.buffers] at hcb
        refine ⟨hc, ?_, fun h4 => by simp [Pc.index] at h4, fun _ => h1 (by rw [hpc]; decide),
          fun _ => h3 (by rw [hpc]; decide),
          fun _ => ⟨lt_length_of_getElem? hrc, lt_length_of_getElem? hcb, ?_⟩⟩
        · show s.trace ++ [Action.queueSubmit _ fence] = _
          rw [htr, hpc]
          simp [drawFrame.performed, Pc.index, hf, hia, hrc, hcb]
        · show [renderComplete] = _
          simp [hrc]
      · intro _ _ hpc'
        cases hpc'
  | present =>
    have hs' := step_present hpc hs
    subst hs'
    refine
      { thrownAt := fun hth => absurd ht hth, later := by simpa [State.frames] using hlater,
        fences := h.fences, acquireSems := h.acquireSems, completeSems := h.completeSems,
        buffers := h.buffers, chain := h.chain, current := ?_, next := ?_ }
    · intro _ hfr
      have hfr' : s.frames = s0.frames := by simpa [State.frames] using hfr
      obtain ⟨hc, htr, _, h1, h3, h6⟩ := h.current ht hfr'
      obtain ⟨h6a, h6b, h6c⟩ := h6 (by rw [hpc]; decide)
      refine ⟨hc, ?_, fun h4 => by simp [Pc.index] at h4, fun _ => h1 (by rw [hpc]; decide),
        fun _ => h3 (by rw [hpc]; decide), fun _ => ⟨h6a, h6b, h6c⟩⟩
      show s.trace ++ [Action.queuePresent _] = _
      rw [htr, hpc, h6c, h.chain]
      simp [drawFrame.performed, Pc.index]
    · intro _ _ hpc'
      cases hpc'
  | advance =>
    obtain ⟨_, rfl⟩ := step_advance hpc hs
    have hfr1 : ({ s with
        app := { s.app with currentFrame := (s.app.currentFrame + 1) % N }
        pc := Pc.waitSlotFence
        trace := s.trace ++ [.advance ((s.app.currentFrame + 1) % N)] } : State).frames =
        s.frames + 1 := by
      simp [State.frames]
    refine
      { thrownAt := fun hth => absurd ht hth, later := by rw [hfr1]; omega,
        fences := h.fences, acquireSems := h.acquireSems, completeSems := h.completeSems,
        buffers := h.buffers, chain := h.chain, current := ?_, next := ?_ }
    · intro _ hfr
      rw [hfr1] at hfr
      omega
    · intro _ hfr _
      rw [hfr1] at hfr
      have hfr' : s.frames = s0.frames := by omega
      obtain ⟨hc, htr, _, h1, h3, h6⟩ := h.current ht hfr'
      obtain ⟨h6a, h6b, _⟩ := h6 (by rw [hpc]; decide)
      refine ⟨?_, h1 (by rw [hpc]; decide), h3 (by rw [hpc]; decide), h6a, h6b⟩
      show s.trace ++ [Action.advance ((s.app.currentFrame + 1) % N)] = _
      rw [htr, hpc, hc]

theorem within_gpu {N j : Nat} {s0 s s' : State} (h : Within N s0 s)
    (hs : step N (.gpu j) s = some s') : Within N s0 s' := by
  obtain ⟨g, _, rfl⟩ := step_gpu hs
  exact
    { thrownAt := h.thrownAt, later := h.later, fences := h.fences,
      acquireSems := h.acquireSems, completeSems := h.completeSems, buffers := h.buffers,
      chain := h.chain, current := h.current, next := h.next }

theorem within_start (N : Nat) (s : State) (hpc : s.pc = .waitSlotFence)
    (ht : s.thrown = none) : Within N s s :=
  { thrownAt := fun hth => absurd ht hth,
    later := Nat.le_refl _, fences := rfl, acquireSems := rfl, completeSems := rfl,
    buffers := rfl, chain := rfl,
    current := fun _ _ =>
      ⟨rfl, by rw [hpc]; simp [drawFrame.performed, Pc.index], fun _ => rfl,
        fun h1 => by rw [hpc] at h1; simp [Pc.index] at h1,
        fun h3 => by rw [hpc] at h3; simp [Pc.index] at h3,
        fun h6 => by rw [hpc] at h6; simp [Pc.index] at h6⟩,
    next := fun _ hfr => by omega }

theorem within_run (N : Nat) (evs : List Event) :
    ∀ {s0 s s' : State}, Within N s0 s → run N evs s = some s' → Within N s0 s' := by
  induction evs with
  | nil =>
    intro s0 s s' h hrun
    simp only [run, Option.some.injEq] at hrun
    exact hrun ▸ h
  | cons ev evs ih =>
    intro s0 s s' h hrun
    simp only [run] at hrun
    cases hstep : step N ev s with
    | none => simp [hstep] at hrun
    | some s1 =>
      simp only [hstep, Option.some_bind] at hrun
      cases ev with
      | cpu a => exact ih (within_cpu h hstep) hrun
      | gpu j => exact ih (within_gpu h hstep) hrun

theorem getElem?_getD_of_lt {α : Type} {xs : List α} {c : Nat} (d : α) (h : c < xs.length) :
    xs[c]? = some (xs.getD c d) := by
  simp [List.getElem?_eq_getElem h]

/-- C10 (order of the steps). A call of `drawFrame` that runs to its end, with any completions
on the GPU in between, performs exactly these actions, in this order: the wait on the fence
of the current slot and its reset (SlotWait); the acquisition, which yields the image index `i`
(ImageAcquire); the wait on `imagesInFlight[i]` when that entry is not empty, and the store of
the slot fence into it (ImageClaim); the submission of `commandBuffers[i]` (Submit); the
present request for image `i` (Present); the store of the next slot index (Advance). -/
theorem frame_steps_in_order (N : Nat) (s s' : State) (evs : List Event)
    (hpc : s.pc = .waitSlotFence) (ht : s.thrown = none) (hrun : run N evs s = some s')
    (hdone : s'.frames = s.frames + 1) (hpc' : s'.pc = .waitSlotFence) :
    ∃ fence imageAvailable renderComplete commandBuffer,
      s.app.inFlightFences[s.app.currentFrame]? = some fence ∧
      s.app.imageAvailableSemaphores[s.app.currentFrame]? = some imageAvailable ∧
      s.app.renderCompleteSemaphores[s.app.currentFrame]? = some renderComplete ∧
      s.app.commandBuffers[s'.imageIndex]? = some commandBuffer ∧
      s'.trace = s.trace ++
        [.waitForFences fence, .resetFences fence,
         .acquireNextImage imageAvailable s'.imageIndex] ++
        drawFrame.claimWait s s'.imageIndex ++
        [.claim s'.imageIndex fence,
         .queueSubmit ⟨[imageAvailable], [VK_PIPELINE_STAGE_COLOR_ATTACHMENT_OUTPUT_BIT],
           [commandBuffer], [renderComplete]⟩ fence,
         .queuePresent ⟨[renderComplete], [s.app.swapchain], [s'.imageIndex]⟩,
         .advance ((s.app.currentFrame + 1) % N)] := by
  have h := within_run N evs (within_start N s hpc ht) hrun
  have ht' : s'.thrown = none := by
    by_contra hth
    have := h.thrownAt hth
    rw [hpc'] at this
    cases this
  obtain ⟨htr, h1, h2, h3, h4⟩ := h.next ht' hdone hpc'
  refine ⟨_, _, _, _, getElem?_getD_of_lt VK_NULL_HANDLE h1, getElem?_getD_of_lt VK_NULL_HANDLE h2,
    getElem?_getD_of_lt VK_NULL_HANDLE h3, getElem?_getD_of_lt VK_NULL_HANDLE h4, ?_⟩
  rw [htr]
  simp [drawFrame.performed, Pc.index]

theorem frame_steps_in_order_witness :
    ∃ s', (fresh 2 2).pc = .waitSlotFence ∧ (fresh 2 2).thrown = none ∧
      run 2 ([ok 0, ok 0, ok 1, ok 0, ok 0, ok 0, Event.gpu 0, ok 0, ok 0]) (fresh 2 2) = some s' ∧
      s'.frames = (fresh 2 2).frames + 1 ∧ s'.pc = .waitSlotFence ∧
      ∃ fence imageAvailable renderComplete commandBuffer,
        (fresh 2 2).app.inFlightFences[(fresh 2 2).app.currentFrame]? = some fence ∧
        (fresh 2 2).app.imageAvailableSemaphores[(fresh 2 2).app.currentFrame]? =
          some imageAvailable ∧
        (fresh 2 2).app.renderCompleteSemaphores[(fresh 2 2).app.currentFrame]? =
          some renderComplete ∧
        (fresh 2 2).app.commandBuffers[s'.imageIndex]? = some commandBuffer ∧
        s'.trace = (fresh 2 2).trace ++
          [.waitForFences fence, .resetFences fence,
           .acquireNextImage imageAvailable s'.imageIndex] ++
          drawFrame.claimWait (fresh 2 2) s'.imageIndex ++
          [.claim s'.imageIndex fence,
           .queueSubmit ⟨[imageAvailable], [VK_PIPELINE_STAGE_COLOR_ATTACHMENT_OUTPUT_BIT],
             [commandBuffer], [renderComplete]⟩ fence,
           .queuePresent ⟨[renderComplete], [(fresh 2 2).app.swapchain], [s'.imageIndex]⟩,
           .advance (((fresh 2 2).app.currentFrame + 1) % 2)] :=
  ⟨_, rfl, rfl, rfl, rfl, rfl,
    frame_steps_in_order 2 (fresh 2 2) _
      [ok 0, ok 0, ok 1, ok 0, ok 0, ok 0, Event.gpu 0, ok 0, ok 0] rfl rfl rfl rfl rfl⟩

/-- An instance of `bounded_lag` in which the bound is attained: two slots, two unfinished
submissions. -/
theorem bounded_lag_witness :
    ∃ s, run 2 (frame 0 ++ frame 1) (fresh 2 2) = some s ∧ Reachable 2 2 s ∧
      s.gpu.outstanding.length = 2 ∧
      ((∀ (slot : Nat) (fence : VkFence),
        s.app.inFlightFences[slot]? = some fence → s.gpu.pending fence ≤ 1) ∧
      s.gpu.outstanding.length ≤ 2) :=
  ⟨_, rfl, Reachable.run_ok 2 2 (frame 0 ++ frame 1) Reachable.fresh (by decide) rfl, rfl,
    bounded_lag 2 2 _ (Reachable.run_ok 2 2 (frame 0 ++ frame 1) Reachable.fresh (by decide) rfl)⟩

/-! ## Swap-chain parameters -/

theorem waitForSize_skip (zeros rest : List (Int × Int)) (w h : Int)
    (hz : ∀ r ∈ zeros, r.1 = 0 ∨ r.2 = 0) (hw : w ≠ 0) (hh : h ≠ 0) :
    chooseSwapExtent.waitForSize (zeros ++ (w, h) :: rest) = some (w, h) := by
  induction zeros with
  | nil => simp [chooseSwapExtent.waitForSize, hw, hh]
  | cons r zeros ih =>
    obtain ⟨rw, rh⟩ := r
    have hr := hz (rw, rh) (List.mem_cons_self _ _)
    simp only [List.cons_append, chooseSwapExtent.waitForSize]
    rw [if_pos hr]
    exact ih (fun r' hr' => hz r' (List.mem_cons_of_mem _ hr'))

theorem toUint32_of_nonneg (x : Int) (h0 : 0 ≤ x) (h1 : x < 2 ^ 32) : toUint32 x = x.toNat := by
  unfold toUint32
  rw [Int.emod_eq_of_lt h0 h1]

/-- C18 (swap extent). If `currentExtent.width` is not `UINT32_MAX`, `chooseSwapExtent` returns
`currentExtent` without asking the window. Otherwise it polls the window until it reports a
size `(w, h)` with both components non-zero and returns
`width = max(minImageExtent.width, min(maxImageExtent.width, w))` and the height likewise, `w`
and `h` converted to `uint32_t` (no change for a size between 0 and `2^32`); when
`minImageExtent ≤ maxImageExtent` in a dimension, the result lies between them in that
dimension. -/
theorem chooseSwapExtent_spec (capabilities : VkSurfaceCapabilitiesKHR)
    (zeros rest : List (Int × Int)) (w h : Int)
    (hz : ∀ r ∈ zeros, r.1 = 0 ∨ r.2 = 0) (hw : w ≠ 0) (hh : h ≠ 0) :
    (∀ reports, capabilities.currentExtent.width ≠ UINT32_MAX →
      chooseSwapExtent reports capabilities = some capabilities.currentExtent) ∧
    (capabilities.currentExtent.width = UINT32_MAX →
      ∃ extent, chooseSwapExtent (zeros ++ (w, h) :: rest) capabilities = some extent ∧
        extent.width = max capabilities.minImageExtent.width
          (min capabilities.maxImageExtent.width (toUint32 w)) ∧
        extent.height = max capabilities.minImageExtent.height
          (min capabilities.maxImageExtent.height (toUint32 h)) ∧
        (capabilities.minImageExtent.width ≤ capabilities.maxImageExtent.width →
          capabilities.minImageExtent.width ≤ extent.width ∧
          extent.width ≤ capabilities.maxImageExtent.width) ∧
        (capabilities.minImageExtent.height ≤ capabilities.maxImageExtent.height →
          capabilities.minImageExtent.height ≤ extent.height ∧
          extent.height ≤ capabilities.maxImageExtent.height)) ∧
    (0 ≤ w → w < 2 ^ 32 → toUint32 w = w.toNat) ∧
    (0 ≤ h → h < 2 ^ 32 → toUint32 h = h.toNat) := by
  refine ⟨?_, ?_, toUint32_of_nonneg w, toUint32_of_nonneg h⟩
  · intro reports hne
    simp [chooseSwapExtent, hne]
  · intro heq
    refine ⟨⟨max capabilities.minImageExtent.width
        (min capabilities.maxImageExtent.width (toUint32 w)),
      max capabilities.minImageExtent.height
        (min capabilities.maxImageExtent.height (toUint32 h))⟩, ?_, rfl, rfl, ?_, ?_⟩
    · simp only [chooseSwapExtent, heq, ne_eq, not_true_eq_false, if_false,
        waitForSize_skip zeros rest w h hz hw hh]
    · intro hle
      exact ⟨Nat.le_max_left _ _, Nat.max_le.2 ⟨hle, Nat.min_le_left _ _⟩⟩
    · intro hle
      exact ⟨Nat.le_max_left _ _, Nat.max_le.2 ⟨hle, Nat.min_le_left _ _⟩⟩

theorem chooseSwapExtent_spec_witness :
    (∀ r ∈ [((0 : Int), (5 : Int))], r.1 = 0 ∨ r.2 = 0) ∧ (800 : Int) ≠ 0 ∧ (600 : Int) ≠ 0 ∧
    chooseSwapExtent ([(0, 5)] ++ (800, 600) :: [])
      ⟨2, 0, ⟨UINT32_MAX, UINT32_MAX⟩, ⟨100, 100⟩, ⟨500, 1000⟩⟩ = some ⟨500, 600⟩ ∧
    ((∀ reports, (⟨2, 0, ⟨UINT32_MAX, UINT32_MAX⟩, ⟨100, 100⟩, ⟨500, 1000⟩⟩ :
        VkSurfaceCapabilitiesKHR).currentExtent.width ≠ UINT32_MAX →
      chooseSwapExtent reports ⟨2, 0, ⟨UINT32_MAX, UINT32_MAX⟩, ⟨100, 100⟩, ⟨500, 1000⟩⟩ =
        some (⟨2, 0, ⟨UINT32_MAX, UINT32_MAX⟩, ⟨100, 100⟩, ⟨500, 1000⟩⟩ :
          VkSurfaceCapabilitiesKHR).currentExtent) ∧
    ((⟨2, 0, ⟨UINT32_MAX, UINT32_MAX⟩, ⟨100, 100⟩, ⟨500, 1000⟩⟩ :
        VkSurfaceCapabilitiesKHR).currentExtent.width = UINT32_MAX →
      ∃ extent, chooseSwapExtent ([(0, 5)] ++ (800, 600) :: [])
          ⟨2, 0, ⟨UINT32_MAX, UINT32_MAX⟩, ⟨100, 100⟩, ⟨500, 1000⟩⟩ = some extent ∧
        extent.width = max 100 (min 500 (toUint32 800)) ∧
        extent.height = max 100 (min 1000 (toUint32 600)) ∧
        ((100 : Nat) ≤ 500 → 100 ≤ extent.width ∧ extent.width ≤ 500) ∧
        ((100 : Nat) ≤ 1000 → 100 ≤ extent.height ∧ extent.height ≤ 1000)) ∧
    ((0 : Int) ≤ 800 → (800 : Int) < 2 ^ 32 → toUint32 800 = (800 : Int).toNat) ∧
    ((0 : Int) ≤ 600 → (600 : Int) < 2 ^ 32 → toUint32 600 = (600 : Int).toNat)) :=
  ⟨by decide, by decide, by decide, by decide,
    chooseSwapExtent_spec ⟨2, 0, ⟨UINT32_MAX, UINT32_MAX⟩, ⟨100, 100⟩, ⟨500, 1000⟩⟩ [(0, 5)] []
      800 600 (by decide) (by decide) (by decide)⟩

/-- C19 (requested image count). The image count `createSwapchain` requests is
`(minImageCount + 1) mod 2^32`, replaced by `maxImageCount` when `maxImageCount > 0` and that
sum exceeds it. Hence, when `minImageCount < 2^32 - 1` and `maxImageCount` is 0 or at least
`minImageCount`, the requested count is at least `minImageCount` and, when `maxImageCount > 0`,
at most `maxImageCount`. -/
theorem imageCount_spec (capabilities : VkSurfaceCapabilitiesKHR) :
    createSwapchain.imageCount capabilities =
      (if 0 < capabilities.maxImageCount ∧
          capabilities.maxImageCount < (capabilities.minImageCount + 1) % 2 ^ 32 then
        capabilities.maxImageCount
      else (capabilities.minImageCount + 1) % 2 ^ 32) ∧
    (capabilities.minImageCount < 2 ^ 32 - 1 →
      (capabilities.maxImageCount = 0 ∨
        capabilities.minImageCount ≤ capabilities.maxImageCount) →
      capabilities.minImageCount ≤ createSwapchain.imageCount capabilities ∧
      (0 < capabilities.maxImageCount →
        createSwapchain.imageCount capabilities ≤ capabilities.maxImageCount)) := by
  refine ⟨rfl, ?_⟩
  intro hmin hmax
  have hmod : (capabilities.minImageCount + 1) % 2 ^ 32 = capabilities.minImageCount + 1 :=
    Nat.mod_eq_of_lt (by omega)
  unfold createSwapchain.imageCount
  simp only [hmod]
  by_cases hc : capabilities.maxImageCount > 0 ∧
      capabilities.minImageCount + 1 > capabilities.maxImageCount
  · rw [if_pos hc]
    omega
  · rw [if_neg hc]
    omega

theorem imageCount_spec_witness :
    (2 : Nat) < 2 ^ 32 - 1 ∧ ((3 : Nat) = 0 ∨ (2 : Nat) ≤ 3) ∧
    createSwapchain.imageCount ⟨2, 3, ⟨0, 0⟩, ⟨0, 0⟩, ⟨0, 0⟩⟩ = 3 ∧
    (createSwapchain.imageCount ⟨2, 3, ⟨0, 0⟩, ⟨0, 0⟩, ⟨0, 0⟩⟩ =
      (if 0 < 3 ∧ 3 < (2 + 1) % 2 ^ 32 then 3 else (2 + 1) % 2 ^ 32) ∧
    ((2 : Nat) < 2 ^ 32 - 1 → ((3 : Nat) = 0 ∨ (2 : Nat) ≤ 3) →
      2 ≤ createSwapchain.imageCount ⟨2, 3, ⟨0, 0⟩, ⟨0, 0⟩, ⟨0, 0⟩⟩ ∧
      (0 < 3 → createSwapchain.imageCount ⟨2, 3, ⟨0, 0⟩, ⟨0, 0⟩, ⟨0, 0⟩⟩ ≤ 3))) :=
  ⟨by decide, by decide, by decide, imageCount_spec ⟨2, 3, ⟨0, 0⟩, ⟨0, 0⟩, ⟨0, 0⟩⟩⟩

/-! ## The objects of the frame loop never change -/

theorem SameObjects.refl (s : State) : SameObjects s s :=
  ⟨rfl, rfl, rfl, rfl, rfl, rfl, rfl, rfl, rfl⟩

theorem SameObjects.trans {s0 s1 s2 : State} (h1 : SameObjects s0 s1) (h2 : SameObjects s1 s2) :
    SameObjects s0 s2 :=
  ⟨h2.swapchain.trans h1.swapchain, h2.swapchainImages.trans h1.swapchainImages,
    h2.swapchainImageViews.trans h1.swapchainImageViews,
    h2.swapchainFramebuffers.trans h1.swapchainFramebuffers,
    h2.commandBuffers.trans h1.commandBuffers,
    h2.imageAvailableSemaphores.trans h1.imageAvailableSemaphores,
    h2.renderCompleteSemaphores.trans h1.renderCompleteSemaphores,
    h2.inFlightFences.trans h1.inFlightFences, h2.tableLength.trans h1.tableLength⟩

theorem step_sameObjects {N : Nat} {ev : Event} {s s' : State} (h : step N ev s = some s') :
    SameObjects s s' := by
  cases ev with
  | gpu j =>
    obtain ⟨g, _, rfl⟩ := step_gpu h
    exact ⟨rfl, rfl, rfl, rfl, rfl, rfl, rfl, rfl, rfl⟩
  | cpu a =>
    have h' : drawFrame.step N a s = some s' := h
    cases hpc : s.pc with
    | waitSlotFence =>
      obtain ⟨_, _, _, rfl⟩ := step_waitSlotFence hpc h'
      exact ⟨rfl, rfl, rfl, rfl, rfl, rfl, rfl, rfl, rfl⟩
    | resetSlotFence =>
      obtain ⟨_, _, rfl⟩ := step_resetSlotFence hpc h'
      exact ⟨rfl, rfl, rfl, rfl, rfl, rfl, rfl, rfl, rfl⟩
    | acquireImage =>
      obtain ⟨_, _, rfl⟩ := step_acquireImage hpc h'
      exact ⟨rfl, rfl, rfl, rfl, rfl, rfl, rfl, rfl, rfl⟩
    | waitImageFence =>
      obtain ⟨_, _, hcase⟩ := step_waitImageFence hpc h'
      rcases hcase with ⟨_, rfl⟩ | ⟨_, _, rfl⟩ <;>
        exact ⟨rfl, rfl, rfl, rfl, rfl, rfl, rfl, rfl, rfl⟩
    | claimImage =>
      obtain ⟨_, _, _, rfl⟩ := step_claimImage hpc h'
      exact ⟨rfl, rfl, rfl, rfl, rfl, rfl, rfl, rfl, List.length_set _ _ _⟩
    | submit =>
      obtain ⟨_, _, _, _, _, _, _, _, hcase⟩ := step_submit hpc h'
      rcases hcase with ⟨_, rfl⟩ | ⟨_, rfl⟩ <;>
        exact ⟨rfl, rfl, rfl, rfl, rfl, rfl, rfl, rfl, rfl⟩
    | present =>
      have := step_present hpc h'
      subst this
      exact ⟨rfl, rfl, rfl, rfl, rfl, rfl, rfl, rfl, rfl⟩
    | advance =>
      obtain ⟨_, rfl⟩ := step_advance hpc h'
      exact ⟨rfl, rfl, rfl, rfl, rfl, rfl, rfl, rfl, rfl⟩

theorem run_sameObjects (N : Nat) (evs : List Event) :
    ∀ {s s' : State}, run N evs s = some s' → SameObjects s s' := by
  induction evs with
  | nil =>
    intro s s' hrun
    simp only [run, Option.some.injEq] at hrun
    subst hrun
    exact SameObjects.refl _
  | cons ev evs ih =>
    intro s s' hrun
    simp only [run] at hrun
    cases hstep : step N ev s with
    | none => simp [hstep] at hrun
    | some s1 =>
      simp only [hstep, Option.some_bind] at hrun
      exact (step_sameObjects hstep).trans (ih hrun)

theorem fresh_app (N n : Nat) :
    (fresh N n).app =
      { swapchain := some 0
        swapchainImages := (List.range n).map some
        swapchainImageViews := (List.range n).map some
        swapchainFramebuffers := (List.range n).map some
        commandBuffers := (List.range n).map some
        imageAvailableSemaphores := (List.range N).map (fun i => some (2 * i))
        renderCompleteSemaphores := (List.range N).map (fun i => some (2 * i + 1))
        inFlightFences := (List.range N).map some
        imagesInFlight := List.replicate n VK_NULL_HANDLE
        currentFrame := 0 } := by
  have h : (fresh N n).app = (construct N n).1 := rfl
  rw [h, construct_eq]

/-- C17 (array bounds). After construction and at any later point of the frame loop, the
image views, the framebuffers, the command buffers and the image-in-flight table are as many as
the swap-chain images, and the two semaphore vectors and the fence vector have `N` entries;
`currentFrame` is below `N` when `N ≥ 1`; hence for every slot index below `N` and every image
index below the number of swap-chain images, the accesses of `drawFrame` to `inFlightFences`,
`imageAvailableSemaphores`, `renderCompleteSemaphores`, `imagesInFlight` and `commandBuffers`
are within bounds. -/
theorem accesses_in_bounds (N n : Nat) (evs : List Event) (s : State)
    (hrun : run N evs (fresh N n) = some s) :
    (s.app.swapchainImages.length = n ∧
      s.app.swapchainImageViews.length = s.app.swapchainImages.length ∧
      s.app.swapchainFramebuffers.length = s.app.swapchainImages.length ∧
      s.app.commandBuffers.length = s.app.swapchainImages.length ∧
      s.app.imagesInFlight.length = s.app.swapchainImages.length ∧
      s.app.imageAvailableSemaphores.length = N ∧
      s.app.renderCompleteSemaphores.length = N ∧
      s.app.inFlightFences.length = N) ∧
    (0 < N → s.app.currentFrame < N) ∧
    ∀ c i : Nat, c < N → i < s.app.swapchainImages.length →
      (s.app.inFlightFences[c]?).isSome = true ∧
      (s.app.imageAvailableSemaphores[c]?).isSome = true ∧
      (s.app.renderCompleteSemaphores[c]?).isSome = true ∧
      (s.app.imagesInFlight[i]?).isSome = true ∧
      (s.app.commandBuffers[i]?).isSome = true := by
  have hsame := run_sameObjects N evs hrun
  have happ := fresh_app N n
  have h1 : s.app.swapchainImages.length = n := by
    rw [hsame.swapchainImages, happ]; simp
  have h2 : s.app.swapchainImageViews.length = n := by
    rw [hsame.swapchainImageViews, happ]; simp
  have h3 : s.app.swapchainFramebuffers.length = n := by
    rw [hsame.swapchainFramebuffers, happ]; simp
  have h4 : s.app.commandBuffers.length = n := by
    rw [hsame.commandBuffers, happ]; simp
  have h5 : s.app.imagesInFlight.length = n := by
    rw [hsame.tableLength, happ]; simp
  have h6 : s.app.imageAvailableSemaphores.length = N := by
    rw [hsame.imageAvailableSemaphores, happ]; simp
  have h7 : s.app.renderCompleteSemaphores.length = N := by
    rw [hsame.renderCompleteSemaphores, happ]; simp
  have h8 : s.app.inFlightFences.length = N := by
    rw [hsame.inFlightFences, happ]; simp
  refine ⟨⟨h1, by omega, by omega, by omega, by omega, h6, h7, h8⟩, ?_, ?_⟩
  · intro hN
    have hc0 : (fresh N n).app.currentFrame < N := by rw [happ]; exact hN
    rw [(run_frames N evs hc0 hrun).2]
    exact Nat.mod_lt _ hN
  · intro c i hc hi
    refine ⟨?_, ?_, ?_, ?_, ?_⟩
    · rw [List.getElem?_eq_getElem (by omega)]; rfl
    · rw [List.getElem?_eq_getElem (by omega)]; rfl
    · rw [List.getElem?_eq_getElem (by omega)]; rfl
    · rw [List.getElem?_eq_getElem (by omega)]; rfl
    · rw [List.getElem?_eq_getElem (by omega)]; rfl

theorem accesses_in_bounds_witness :
    ∃ s, run 2 (frame 1 ++ [ok 0, ok 0, ok 2]) (fresh 2 3) = some s ∧
      ((s.app.swapchainImages.length = 3 ∧
        s.app.swapchainImageViews.length = s.app.swapchainImages.length ∧
        s.app.swapchainFramebuffers.length = s.app.swapchainImages.length ∧
        s.app.commandBuffers.length = s.app.swapchainImages.length ∧
        s.app.imagesInFlight.length = s.app.swapchainImages.length ∧
        s.app.imageAvailableSemaphores.length = 2 ∧
        s.app.renderCompleteSemaphores.length = 2 ∧
        s.app.inFlightFences.length = 2) ∧
      (0 < 2 → s.app.currentFrame < 2) ∧
      ∀ c i : Nat, c < 2 → i < s.app.swapchainImages.length →
        (s.app.inFlightFences[c]?).isSome = true ∧
        (s.app.imageAvailableSemaphores[c]?).isSome = true ∧
        (s.app.renderCompleteSemaphores[c]?).isSome = true ∧
        (s.app.imagesInFlight[i]?).isSome = true ∧
        (s.app.commandBuffers[i]?).isSome = true) :=
  ⟨_, rfl, accesses_in_bounds 2 3 (frame 1 ++ [ok 0, ok 0, ok 2]) _ rfl⟩

/-! ## Result codes -/

theorem step_none_of_thrown (N : Nat) (a : Answer) (s : State) (h : s.thrown ≠ none) :
    drawFrame.step N a s = none := by
  cases hs : drawFrame.step N a s with
  | none => rfl
  | some s' => exact absurd (step_thrown hs) h

theorem run_after_throw (N : Nat) (evs : List Event) :
    ∀ {s s' : State}, s.thrown ≠ none → run N evs s = some s' →
      s'.trace = s.trace ∧ s'.app = s.app ∧ s'.thrown = s.thrown ∧ s'.pc = s.pc := by
  induction evs with
  | nil =>
    intro s s' _ hrun
    simp only [run, Option.some.injEq] at hrun
    subst hrun
    exact ⟨rfl, rfl, rfl, rfl⟩
  | cons ev evs ih =>
    intro s s' ht hrun
    simp only [run] at hrun
    cases hstep : step N ev s with
    | none => simp [hstep] at hrun
    | some s1 =>
      simp only [hstep, Option.some_bind] at hrun
      cases ev with
      | cpu a =>
        have hnone : drawFrame.step N a s = none := step_none_of_thrown N a s ht
        have hsome : drawFrame.step N a s = some s1 := hstep
        rw [hnone] at hsome
        cases hsome
      | gpu j =>
        obtain ⟨g, _, hs1⟩ := step_gpu hstep
        subst hs1
        have key := ih (s := { s with gpu := g }) ht hrun
        exact key

theorem step_submit_fail (N : Nat) (s : State) (a : Answer)
    (imageAvailable renderComplete : VkSemaphore) (commandBuffer : VkCommandBuffer)
    (fence : VkFence) (hpc : s.pc = .submit) (ht : s.thrown = none)
    (ha : a.result ≠ VK_SUCCESS)
    (h1 : s.app.imageAvailableSemaphores[s.app.currentFrame]? = some imageAvailable)
    (h2 : s.app.commandBuffers[s.imageIndex]? = some commandBuffer)
    (h3 : s.app.renderCompleteSemaphores[s.app.currentFrame]? = some renderComplete)
    (h4 : s.app.inFlightFences[s.app.currentFrame]? = some fence) :
    drawFrame.step N a s = some { s with
      signalSemaphores := [renderComplete]
      thrown := some "Failed to submit draw command buffer!"
      trace := s.trace ++ [.queueSubmit
        ⟨[imageAvailable], [VK_PIPELINE_STAGE_COLOR_ATTACHMENT_OUTPUT_BIT], [commandBuffer],
          [renderComplete]⟩ fence] } := by
  have hthrown : s.thrown.isSome = false := by simp [ht]
  simp [drawFrame.step, hthrown, hpc, h1, h2, h3, h4, handleVkResult, ha]

/-- C13 (failed submission). In every state about to run the submit statement with
`currentFrame` a valid slot and `imageIndex` a valid image: when `vkQueueSubmit` returns
anything but `VK_SUCCESS`, `drawFrame` throws; the members (so `currentFrame` and
`imagesInFlight`) and the device (so every fence and the graphics queue) are as they were
before the call; no statement of `drawFrame` runs afterwards, so nothing is presented and the
submit is not retried. When it returns `VK_SUCCESS`, nothing is thrown. -/
theorem submit_failure (N : Nat) (s : State) (a b : Answer)
    (imageAvailable renderComplete : VkSemaphore) (commandBuffer : VkCommandBuffer)
    (fence : VkFence) (hpc : s.pc = .submit) (ht : s.thrown = none)
    (ha : a.result ≠ VK_SUCCESS) (hb : b.result = VK_SUCCESS)
    (h1 : s.app.imageAvailableSemaphores[s.app.currentFrame]? = some imageAvailable)
    (h2 : s.app.commandBuffers[s.imageIndex]? = some commandBuffer)
    (h3 : s.app.renderCompleteSemaphores[s.app.currentFrame]? = some renderComplete)
    (h4 : s.app.inFlightFences[s.app.currentFrame]? = some fence) :
    (∃ s', drawFrame.step N a s = some s' ∧
      s'.thrown = some "Failed to submit draw command buffer!" ∧
      s'.app = s.app ∧ s'.gpu = s.gpu ∧
      s'.trace = s.trace ++
        [.queueSubmit ⟨[imageAvailable], [VK_PIPELINE_STAGE_COLOR_ATTACHMENT_OUTPUT_BIT],
          [commandBuffer], [renderComplete]⟩ fence] ∧
      (∀ a', drawFrame.step N a' s' = none) ∧
      ∀ evs s'', run N evs s' = some s'' →
        s''.trace = s'.trace ∧ s''.app = s.app ∧ s''.thrown = s'.thrown) ∧
    ∃ s1, drawFrame.step N b s = some s1 ∧ s1.thrown = none ∧ s1.pc = .present := by
  refine ⟨⟨_, step_submit_fail N s a imageAvailable renderComplete commandBuffer fence hpc ht ha
    h1 h2 h3 h4, rfl, rfl, rfl, rfl, ?_, ?_⟩,
    ⟨_, step_submit_ok N s b imageAvailable renderComplete commandBuffer fence hpc ht hb
      h1 h2 h3 h4, ht, rfl⟩⟩
  · intro a'
    exact step_none_of_thrown N a' _ (by simp)
  · intro evs s'' hrun
    obtain ⟨h1', h2', h3', _⟩ := run_after_throw N evs (by simp) hrun
    exact ⟨h1', h2', h3'⟩

theorem submit_failure_witness :
    ∃ s, run 2 (List.replicate 5 (ok 1)) (fresh 2 2) = some s ∧ s.pc = .submit ∧
      s.thrown = none ∧ VK_ERROR_DEVICE_LOST ≠ VK_SUCCESS ∧
      s.app.imageAvailableSemaphores[s.app.currentFrame]? = some (some 0) ∧
      s.app.commandBuffers[s.imageIndex]? = some (some 1) ∧
      s.app.renderCompleteSemaphores[s.app.currentFrame]? = some (some 1) ∧
      s.app.inFlightFences[s.app.currentFrame]? = some (some 0) ∧
      ((∃ s', drawFrame.step 2 ⟨VK_ERROR_DEVICE_LOST, 0⟩ s = some s' ∧
        s'.thrown = some "Failed to submit draw command buffer!" ∧
        s'.app = s.app ∧ s'.gpu = s.gpu ∧
        s'.trace = s.trace ++
          [.queueSubmit ⟨[some 0], [VK_PIPELINE_STAGE_COLOR_ATTACHMENT_OUTPUT_BIT],
            [some 1], [some 1]⟩ (some 0)] ∧
        (∀ a', drawFrame.step 2 a' s' = none) ∧
        ∀ evs s'', run 2 evs s' = some s'' →
          s''.trace = s'.trace ∧ s''.app = s.app ∧ s''.thrown = s'.thrown) ∧
      ∃ s1, drawFrame.step 2 ⟨VK_SUCCESS, 0⟩ s = some s1 ∧ s1.thrown = none ∧
        s1.pc = .present) :=
  ⟨_, rfl, rfl, rfl, by decide, rfl, rfl, rfl, rfl,
    submit_failure 2 _ ⟨VK_ERROR_DEVICE_LOST, 0⟩ ⟨VK_SUCCESS, 0⟩ (some 0) (some 1) (some 1)
      (some 0) rfl rfl (by decide) rfl rfl rfl rfl rfl⟩

theorem thrown_iff_submit_failed {N : Nat} {a : Answer} {s s' : State}
    (h : drawFrame.step N a s = some s') :
    s'.thrown ≠ none ↔ (s.pc = .submit ∧ a.result ≠ VK_SUCCESS) := by
  have ht := step_thrown h
  cases hpc : s.pc with
  | waitSlotFence =>
    obtain ⟨_, _, _, rfl⟩ := step_waitSlotFence hpc h
    simp [ht]
  | resetSlotFence =>
    obtain ⟨_, _, rfl⟩ := step_resetSlotFence hpc h
    simp [ht]
  | acquireImage =>
    obtain ⟨_, _, rfl⟩ := step_acquireImage hpc h
    simp [ht]
  | waitImageFence =>
    obtain ⟨_, _, hcase⟩ := step_waitImageFence hpc h
    rcases hcase with ⟨_, rfl⟩ | ⟨_, _, rfl⟩ <;> simp [ht]
  | claimImage =>
    obtain ⟨_, _, _, rfl⟩ := step_claimImage hpc h
    simp [ht]
  | submit =>
    obtain ⟨_, _, _, _, _, _, _, _, hcase⟩ := step_submit hpc h
    rcases hcase with ⟨hr, rfl⟩ | ⟨hr, rfl⟩
    · simp [hr]
    · simp [ht, hr]
  | present =>
    have := step_present hpc h
    subst this
    simp [ht]
  | advance =>
    obtain ⟨_, rfl⟩ := step_advance hpc h
    simp [ht]

/-- C12 (result checking). Of the calls `drawFrame` makes only `vkQueueSubmit` has its result
checked. A call of `drawFrame` whose slot wait returns `VK_ERROR_DEVICE_LOST`, whose reset
returns `VK_ERROR_OUT_OF_DEVICE_MEMORY`, whose acquisition returns `VK_ERROR_OUT_OF_DATE_KHR`
and whose present returns `VK_ERROR_SURFACE_LOST_KHR` runs to its end without an error, with
claim, submit and present performed. With one slot and one image, a second call whose two
fence waits return `VK_ERROR_DEVICE_LOST` while the first submission is unfinished goes on to
submit again: two unfinished submissions on the one slot and the one image. In general a
statement of `drawFrame` throws exactly when it is the submit and its result is not
`VK_SUCCESS`. -/
theorem unchecked_results :
    ∃ s t,
      run 2 [Event.cpu ⟨VK_ERROR_DEVICE_LOST, 0⟩, Event.cpu ⟨VK_ERROR_OUT_OF_DEVICE_MEMORY, 0⟩,
        Event.cpu ⟨VK_ERROR_OUT_OF_DATE_KHR, 0⟩, ok 0, ok 0, ok 0,
        Event.cpu ⟨VK_ERROR_SURFACE_LOST_KHR, 0⟩, ok 0] (fresh 2 2) = some s ∧
      s.thrown = none ∧ s.frames = 1 ∧ s.pc = .waitSlotFence ∧
      s.trace =
        [.waitForFences (some 0), .resetFences (some 0), .acquireNextImage (some 0) 0,
         .claim 0 (some 0),
         .queueSubmit ⟨[some 0], [VK_PIPELINE_STAGE_COLOR_ATTACHMENT_OUTPUT_BIT], [some 0], [some 1]⟩
           (some 0),
         .queuePresent ⟨[some 1], [some 0], [0]⟩, .advance 1] ∧
      run 1 (frame 0 ++ [Event.cpu ⟨VK_ERROR_DEVICE_LOST, 0⟩, ok 0, ok 0,
        Event.cpu ⟨VK_ERROR_DEVICE_LOST, 0⟩, ok 0, ok 0]) (fresh 1 1) = some t ∧
      t.thrown = none ∧ t.gpu.outstanding.length = 2 ∧ t.gpu.pending (some 0) = 2 ∧
      (t.gpu.outstanding.all fun sub => sub.targets t.app 0) = true ∧
      ∀ (N : Nat) (a : Answer) (s s' : State), drawFrame.step N a s = some s' →
        (s'.thrown ≠ none ↔ (s.pc = .submit ∧ a.result ≠ VK_SUCCESS)) :=
  ⟨_, _, rfl, rfl, rfl, rfl, rfl, rfl, rfl, rfl, rfl, rfl,
    fun _ _ _ _ h => thrown_iff_submit_failed h⟩

/-! ## Fence calls that fail

The results of `vkWaitForFences` and `vkResetFences` are discarded by `drawFrame`, so a wait
that returns an error lets the thread through with its fence unsignaled. -/

theorem step_waitSlotFence_eq (N : Nat) (s : State) (a : Answer) (fence : VkFence)
    (hpc : s.pc = .waitSlotFence) (ht : s.thrown = none)
    (hf : s.app.inFlightFences[s.app.currentFrame]? = some fence) :
    drawFrame.step N a s =
      if a.result = VK_SUCCESS ∧ s.gpu.signaled fence = false then none
      else some { s with pc := .resetSlotFence, trace := s.trace ++ [.waitForFences fence] } := by
  have hthrown : s.thrown.isSome = false := by simp [ht]
  by_cases h : a.result = VK_SUCCESS ∧ s.gpu.signaled fence = false
  · simp [drawFrame.step, hthrown, hpc, hf, vkWaitForFences, h]
  · simp [drawFrame.step, hthrown, hpc, hf, vkWaitForFences, h]

/-- C4 (slot reuse ordering). Holds when the wait and the reset return `VK_SUCCESS`, fails
otherwise, because `drawFrame` discards both results. With one slot and two images, the second
call of `drawFrame` finds `inFlightFences[0]` unsignaled, the submission of the first call being
unfinished: a wait that returns `VK_SUCCESS` does not return, but a wait that returns
`VK_ERROR_DEVICE_LOST` lets the thread on to the reset and the acquisition, the fence unsignaled
all along and the earlier submission of the slot still unfinished. On the freshly constructed
object a reset that returns `VK_ERROR_OUT_OF_DEVICE_MEMORY` leaves the fence signaled and the
thread goes on all the same. In general the wait lets the thread through, with nothing changed,
whenever its result is not `VK_SUCCESS`; and when wait and reset both return `VK_SUCCESS`, the
fence was signaled at the wait and after the reset it is unsignaled and no other fence has
changed. -/
theorem failed_wait_reuses_slot :
    ∃ s s1 s2 t1 t2,
      run 1 (frame 0) (fresh 1 2) = some s ∧ s.pc = .waitSlotFence ∧ s.thrown = none ∧
      s.app.inFlightFences[s.app.currentFrame]? = some (some 0) ∧
      s.gpu.signaled (some 0) = false ∧ s.gpu.pending (some 0) = 1 ∧
      drawFrame.step 1 ⟨VK_SUCCESS, 0⟩ s = none ∧
      drawFrame.step 1 ⟨VK_ERROR_DEVICE_LOST, 0⟩ s = some s1 ∧
      s1.pc = .resetSlotFence ∧ s1.thrown = none ∧ s1.gpu = s.gpu ∧ s1.app = s.app ∧
      drawFrame.step 1 ⟨VK_SUCCESS, 0⟩ s1 = some s2 ∧
      s2.pc = .acquireImage ∧ s2.thrown = none ∧ s2.gpu.pending (some 0) = 1 ∧
      drawFrame.step 2 ⟨VK_SUCCESS, 0⟩ (fresh 2 2) = some t1 ∧
      drawFrame.step 2 ⟨VK_ERROR_OUT_OF_DEVICE_MEMORY, 0⟩ t1 = some t2 ∧
      t2.pc = .acquireImage ∧ t2.thrown = none ∧ t2.gpu.signaled (some 0) = true ∧
      (∀ (N : Nat) (r : State) (a : Answer) (fence : VkFence),
        r.pc = .waitSlotFence → r.thrown = none →
        r.app.inFlightFences[r.app.currentFrame]? = some fence → a.result ≠ VK_SUCCESS →
        drawFrame.step N a r =
          some { r with pc := .resetSlotFence, trace := r.trace ++ [.waitForFences fence] }) ∧
      ∀ (N : Nat) (r r1 : State) (a a' : Answer),
        r.pc = .waitSlotFence → a.result = VK_SUCCESS → a'.result = VK_SUCCESS →
        drawFrame.step N a r = some r1 →
        ∃ fence, r.app.inFlightFences[r.app.currentFrame]? = some fence ∧
          r.gpu.signaled fence = true ∧ r1.gpu = r.gpu ∧ r1.app = r.app ∧
          ∃ r2, drawFrame.step N a' r1 = some r2 ∧ r2.pc = .acquireImage ∧ r2.app = r.app ∧
            r2.gpu.signaled fence = false ∧
            ∀ other : VkFence, other ≠ fence →
              r2.gpu.signaled other = r.gpu.signaled other :=
  ⟨_, _, _, _, _, rfl, rfl, rfl, rfl, rfl, rfl, rfl, rfl, rfl, rfl, rfl, rfl, rfl, rfl, rfl, rfl,
    rfl, rfl, rfl, rfl, rfl,
    fun N r a fence hpc ht hf hne => by
      rw [step_waitSlotFence_eq N r a fence hpc ht hf, if_neg (fun h => hne h.1)],
    fun N r r1 a a' hpc ha ha' hs => slot_wait_and_reset N r r1 a a' hpc ha ha' hs⟩

/-- C5 (claim). The store of the claim step is as claimed, and so is the wait when it returns
`VK_SUCCESS`; but `drawFrame` discards the result of the wait, so a wait that fails lets the
claim proceed on a non-empty entry whose fence is unsignaled. With two slots and two images,
both calls acquiring image 0, the second call arrives at the claim step with `imagesInFlight[0]` naming the fence of slot 0,
unsignaled, the first submission unfinished: a wait that returns `VK_SUCCESS` does not return,
a wait that returns `VK_ERROR_DEVICE_LOST` lets the thread on to the store, which overwrites
the entry with the fence of slot 1 while the submission that renders into image 0 is still
unfinished. In general, in a state about to run the claim step with `imageIndex` inside the
table and `currentFrame` a valid slot: a wait returning `VK_SUCCESS` lets the thread through
exactly when the entry is empty or names a signaled fence, a wait returning anything else lets
it through always, and the store sets entry `imageIndex` to `inFlightFences[currentFrame]`,
leaving the other entries, the length of the table and the device as they were. -/
theorem failed_wait_claims_image :
    ∃ s s1 s2,
      run 2 (frame 0 ++ [ok 0, ok 0, ok 0]) (fresh 2 2) = some s ∧ s.pc = .waitImageFence ∧
      s.thrown = none ∧ s.app.currentFrame = 1 ∧ s.imageIndex = 0 ∧
      s.app.imagesInFlight = [some 0, none] ∧ s.app.inFlightFences = [some 0, some 1] ∧
      s.gpu.signaled (some 0) = false ∧ s.gpu.pending (some 0) = 1 ∧
      drawFrame.step 2 ⟨VK_SUCCESS, 0⟩ s = none ∧
      drawFrame.step 2 ⟨VK_ERROR_DEVICE_LOST, 0⟩ s = some s1 ∧
      s1.pc = .claimImage ∧ s1.thrown = none ∧ s1.gpu = s.gpu ∧ s1.app = s.app ∧
      drawFrame.step 2 ⟨VK_SUCCESS, 0⟩ s1 = some s2 ∧
      s2.pc = .submit ∧ s2.thrown = none ∧ s2.app.imagesInFlight = [some 1, none] ∧
      s2.gpu.signaled (some 0) = false ∧ s2.gpu.pending (some 0) = 1 ∧
      (s2.gpu.outstanding.all fun sub => sub.targets s2.app 0) = true ∧
      ∀ (N : Nat) (r : State) (a a' : Answer) (fence : VkFence),
        r.pc = .waitImageFence → r.thrown = none →
        r.imageIndex < r.app.imagesInFlight.length →
        r.app.inFlightFences[r.app.currentFrame]? = some fence →
        (a.result = VK_SUCCESS →
          ((drawFrame.step N a r).isSome = true ↔
            (r.app.imagesInFlight[r.imageIndex]? = some VK_NULL_HANDLE ∨
              ∃ entry, r.app.imagesInFlight[r.imageIndex]? = some entry ∧
                r.gpu.signaled entry = true))) ∧
        (a.result ≠ VK_SUCCESS → (drawFrame.step N a r).isSome = true) ∧
        ∀ r1, drawFrame.step N a r = some r1 →
          ∃ r2, drawFrame.step N a' r1 = some r2 ∧ r2.pc = .submit ∧
            r2.app.imagesInFlight[r.imageIndex]? = some fence ∧
            (∀ j : Nat, j ≠ r.imageIndex →
              r2.app.imagesInFlight[j]? = r.app.imagesInFlight[j]?) ∧
            r2.app.imagesInFlight.length = r.app.imagesInFlight.length ∧
            r2.app.inFlightFences = r.app.inFlightFences ∧
            r2.app.currentFrame = r.app.currentFrame ∧ r2.gpu = r.gpu :=
  ⟨_, _, _, rfl, rfl, rfl, rfl, rfl, rfl, rfl, rfl, rfl, rfl, rfl, rfl, rfl, rfl, rfl, rfl, rfl,
    rfl, rfl, rfl, rfl, rfl,
    fun N r a a' fence hpc ht hi hf => claim_step N r a a' fence hpc ht hi hf⟩

/-- C1 (no image aliasing). Holds in the executions in which the fence calls return
`VK_SUCCESS`, fails otherwise, because `drawFrame` discards the result of its waits. With two
slots and two images, both calls acquiring image 0, the second call waits in its claim step on the fence of slot 0, which
is unsignaled, the submission of the first call being unfinished; the wait returns
`VK_ERROR_DEVICE_LOST`, the call goes on and queues a second submission for image 0 while the
first one, for the same image, has not completed and its fence has not been signaled. In
general, in every state reached with the fence calls returning `VK_SUCCESS`, a submission for
image `i` is queued only when every earlier submission for image `i` has completed. -/
theorem failed_wait_aliases_image :
    ∃ s s',
      run 2 (frame 0 ++ [ok 0, ok 0, ok 0, Event.cpu ⟨VK_ERROR_DEVICE_LOST, 0⟩, ok 0])
        (fresh 2 2) = some s ∧
      s.pc = .submit ∧ s.thrown = none ∧ s.imageIndex = 0 ∧
      s.gpu.graphicsQueue =
        [⟨⟨[some 0], [VK_PIPELINE_STAGE_COLOR_ATTACHMENT_OUTPUT_BIT], [some 0], [some 1]⟩,
          some 0, false⟩] ∧
      s.gpu.signaled (some 0) = false ∧
      drawFrame.step 2 ⟨VK_SUCCESS, 0⟩ s = some s' ∧ s'.thrown = none ∧
      s'.gpu.graphicsQueue = s.gpu.graphicsQueue ++
        [⟨⟨[some 2], [VK_PIPELINE_STAGE_COLOR_ATTACHMENT_OUTPUT_BIT], [some 0], [some 3]⟩,
          some 1, false⟩] ∧
      (s'.gpu.graphicsQueue.all fun sub => sub.targets s.app 0 && !sub.completed) = true ∧
      s'.gpu.outstanding.length = 2 ∧
      ∀ (N n : Nat) (r r' : State) (a : Answer) (new : Submission),
        Reachable N n r → drawFrame.step N a r = some r' →
        r'.gpu.graphicsQueue = r.gpu.graphicsQueue ++ [new] →
        ∀ i : Nat, new.targets r.app i = true →
          ∀ earlier ∈ r.gpu.graphicsQueue, earlier.targets r.app i = true →
            earlier.completed = true :=
  ⟨_, _, rfl, rfl, rfl, rfl, rfl, rfl, rfl, rfl, rfl, rfl, rfl,
    fun N n r r' a new hr hs hnew i hi =>
      no_image_aliasing N n r r' a new hr hs hnew i hi⟩

/-- C2 (bounded lag). Holds in the states reached with the fence calls returning `VK_SUCCESS`,
fails otherwise, because `drawFrame` discards the result of its waits. With one slot and two
images, a second call whose wait on the fence of slot 0 returns `VK_ERROR_DEVICE_LOST`
while the first submission is unfinished goes on to submit for image 1: slot 0 then has two
unfinished submissions, more than `N = 1`. With two slots and three images, after two calls
a third call whose slot wait returns `VK_ERROR_DEVICE_LOST` submits for image 2: three
unfinished submissions, more than `N = 2`, two of them on slot 0. In general, in every state
reached with the fence calls returning `VK_SUCCESS`, each slot has at most one unfinished
submission and there are at most `N` of them. -/
theorem failed_wait_exceeds_lag :
    ∃ s t,
      run 1 (frame 0 ++ [Event.cpu ⟨VK_ERROR_DEVICE_LOST, 0⟩, ok 0, ok 1, ok 0, ok 0, ok 0])
        (fresh 1 2) = some s ∧
      s.thrown = none ∧ s.app.inFlightFences = [some 0] ∧
      s.gpu.pending (some 0) = 2 ∧ s.gpu.outstanding.length = 2 ∧
      run 2 (frame 0 ++ frame 1 ++
        [Event.cpu ⟨VK_ERROR_DEVICE_LOST, 0⟩, ok 0, ok 2, ok 0, ok 0, ok 0])
        (fresh 2 3) = some t ∧
      t.thrown = none ∧ t.app.inFlightFences = [some 0, some 1] ∧
      t.gpu.pending (some 0) = 2 ∧ t.gpu.pending (some 1) = 1 ∧
      t.gpu.outstanding.length = 3 ∧
      ∀ (N n : Nat) (r : State), Reachable N n r →
        (∀ (slot : Nat) (fence : VkFence),
          r.app.inFlightFences[slot]? = some fence → r.gpu.pending fence ≤ 1) ∧
        r.gpu.outstanding.length ≤ N :=
  ⟨_, _, rfl, rfl, rfl, rfl, rfl, rfl, rfl, rfl, rfl, rfl, rfl,
    fun N n r hr => bounded_lag N n r hr⟩

/-- C11 (out-of-date surface), as the code has it. In every state about to run the acquisition
with `currentFrame` a valid slot, when `vkAcquireNextImageKHR` returns
`VK_ERROR_OUT_OF_DATE_KHR` the statement records the call and the index it was handed and does
nothing else: it throws nothing, performs no claim, submit or present, and leaves the members
and the device as they were. No recreation takes place then or later: whatever happens
afterwards, the swap chain, its images, the image views, the framebuffers and the command
buffers remain those the object held before. -/
theorem acquire_out_of_date (N : Nat) (s : State) (i : Nat) (semaphore : VkSemaphore)
    (hpc : s.pc = .acquireImage) (ht : s.thrown = none)
    (hsem : s.app.imageAvailableSemaphores[s.app.currentFrame]? = some semaphore) :
    ∃ s', drawFrame.step N ⟨VK_ERROR_OUT_OF_DATE_KHR, i⟩ s = some s' ∧
      s'.app = s.app ∧ s'.gpu = s.gpu ∧ s'.thrown = none ∧ s'.imageIndex = i ∧
      s'.trace = s.trace ++ [.acquireNextImage semaphore i] ∧
      ∀ evs s'', run N evs s' = some s'' → SameObjects s s'' := by
  have hthrown : s.thrown.isSome = false := by simp [ht]
  refine ⟨{ s with
      imageIndex := i
      pc := .waitImageFence
      trace := s.trace ++ [.acquireNextImage semaphore i] }, ?_, rfl, rfl, ht, rfl, rfl, ?_⟩
  · simp [drawFrame.step, hthrown, hpc, hsem]
  · intro evs s'' hrun
    have h := run_sameObjects N evs hrun
    exact ⟨h.swapchain, h.swapchainImages, h.swapchainImageViews, h.swapchainFramebuffers,
      h.commandBuffers, h.imageAvailableSemaphores, h.renderCompleteSemaphores,
      h.inFlightFences, h.tableLength⟩

theorem acquire_out_of_date_witness :
    ∃ s, run 2 [ok 0, ok 0] (fresh 2 2) = some s ∧ s.pc = .acquireImage ∧ s.thrown = none ∧
      s.app.imageAvailableSemaphores[s.app.currentFrame]? = some (some 0) ∧
      ∃ s', drawFrame.step 2 ⟨VK_ERROR_OUT_OF_DATE_KHR, 1⟩ s = some s' ∧
        s'.app = s.app ∧ s'.gpu = s.gpu ∧ s'.thrown = none ∧ s'.imageIndex = 1 ∧
        s'.trace = s.trace ++ [.acquireNextImage (some 0) 1] ∧
        ∀ evs s'', run 2 evs s' = some s'' → SameObjects s s'' :=
  ⟨_, rfl, rfl, rfl, rfl, acquire_out_of_date 2 _ 1 (some 0) rfl rfl rfl⟩

/-- C11 as stated fails: with two slots and two images, a first call of `drawFrame` whose
acquisition returns `VK_ERROR_OUT_OF_DATE_KHR` (and leaves 0 in `imageIndex`) goes on to claim
image 0, submit and present, and returns normally. -/
theorem out_of_date_still_submits :
    ∃ s, run 2 [ok 0, ok 0, Event.cpu ⟨VK_ERROR_OUT_OF_DATE_KHR, 0⟩, ok 0, ok 0, ok 0, ok 0, ok 0]
        (fresh 2 2) = some s ∧
      s.thrown = none ∧ s.frames = 1 ∧
      s.trace =
        [.waitForFences (some 0), .resetFences (some 0), .acquireNextImage (some 0) 0,
         .claim 0 (some 0),
         .queueSubmit ⟨[some 0], [VK_PIPELINE_STAGE_COLOR_ATTACHMENT_OUTPUT_BIT], [some 0], [some 1]⟩
           (some 0),
         .queuePresent ⟨[some 1], [some 0], [0]⟩, .advance 1] ∧
      s.gpu.graphicsQueue.length = 1 :=
  ⟨_, rfl, rfl, rfl, rfl, rfl⟩

theorem dead_wait_iff {N n : Nat} {s : State} {k : Nat} (hr : Reachable N n s)
    (hpc : s.pc = .waitImageFence)
    (he : s.app.imagesInFlight[s.imageIndex]? = some (some k)) :
    (s.gpu.signaled (some k) = false ∧ s.gpu.pending (some k) = 0) ↔ k = s.app.currentFrame := by
  have h := hr.inv
  have hk : k < N := h.entries k (List.getElem?_mem he)
  constructor
  · rintro ⟨hs, hp⟩
    rcases h.busy k hk hs with h1 | ⟨h2, _⟩
    · omega
    · exact h2
  · intro hkc
    rw [hkc]
    exact h.reset (by rw [hpc]; rfl)

theorem live_slot_wait {N n : Nat} {s : State} {fence : VkFence} (hr : Reachable N n s)
    (hpc : s.pc = .waitSlotFence)
    (hf : s.app.inFlightFences[s.app.currentFrame]? = some fence) :
    s.gpu.signaled fence = true ∨ 0 < s.gpu.pending fence := by
  have h := hr.inv
  obtain ⟨hc, rfl⟩ := h.slotFence hf
  by_cases hsig : s.gpu.signaled (some s.app.currentFrame) = true
  · exact Or.inl hsig
  · rcases h.busy _ hc (by simpa using hsig) with h1 | ⟨_, h2⟩
    · right; omega
    · rw [hpc] at h2; cases h2

/-- C16 (no wait in vain). The wait on the slot fence is never in vain, but the wait of the
claim step can be. With one slot and one image, the second call of `drawFrame`, started after
the first submission has completed, resets the fence of slot 0 and then waits on
`imagesInFlight[0]`, which is that fence: it is unsignaled, no submission is unfinished, and
no call returning `VK_SUCCESS` and no completion on the GPU ends the wait. In general the
fence the claim step waits on is unsignaled with no unfinished submission exactly when it is
the fence of the current slot. -/
theorem second_frame_waits_in_vain :
    ∃ s, run 1 (frame 0 ++ [Event.gpu 0] ++ [ok 0, ok 0, ok 0]) (fresh 1 1) = some s ∧
      Reachable 1 1 s ∧ s.pc = .waitImageFence ∧ s.frames = 1 ∧
      s.app.imagesInFlight[s.imageIndex]? = some (some 0) ∧
      s.gpu.signaled (some 0) = false ∧ s.gpu.pending (some 0) = 0 ∧ s.gpu.outstanding = [] ∧
      (∀ evs s', evs.all Event.succeeds = true → run 1 evs s = some s' →
        s'.pc = .waitImageFence ∧ s'.trace = s.trace) ∧
      (∀ (N n : Nat) (r : State) (fence : VkFence), Reachable N n r → r.pc = .waitSlotFence →
        r.app.inFlightFences[r.app.currentFrame]? = some fence →
        r.gpu.signaled fence = true ∨ 0 < r.gpu.pending fence) ∧
      ∀ (N n : Nat) (r : State) (k : Nat), Reachable N n r → r.pc = .waitImageFence →
        r.app.imagesInFlight[r.imageIndex]? = some (some k) →
        ((r.gpu.signaled (some k) = false ∧ r.gpu.pending (some k) = 0) ↔
          k = r.app.currentFrame) :=
  ⟨(run 1 (frame 0 ++ [Event.gpu 0] ++ [ok 0, ok 0, ok 0]) (fresh 1 1)).getD (fresh 1 1), rfl,
    Reachable.run_ok 1 1 (frame 0 ++ [Event.gpu 0] ++ [ok 0, ok 0, ok 0]) Reachable.fresh
      (by decide) rfl,
    rfl, rfl, rfl, rfl, rfl, rfl,
    fun evs s' hok hrun => by
      obtain ⟨h1, _, _, h4⟩ := blocked_on_own_fence 1 1 evs
        (Reachable.run_ok 1 1 (frame 0 ++ [Event.gpu 0] ++ [ok 0, ok 0, ok 0]) Reachable.fresh
          (by decide) rfl) rfl rfl hok hrun
      exact ⟨h1, h4⟩,
    fun _ _ _ _ hr hpc hf => live_slot_wait hr hpc hf,
    fun _ _ _ _ hr hpc he => dead_wait_iff hr hpc he⟩

/-! ## The image-in-flight table -/

theorem claimsOf_append (trace : List Action) (act : Action) (j : Nat) :
    claimsOf (trace ++ [act]) j =
      claimsOf trace j ++ (match act with
        | .claim i fence => if i = j then [fence] else []
        | _ => []) := by
  unfold claimsOf
  rw [List.filterMap_append]
  cases act with
  | claim i fence => by_cases h : i = j <;> simp [h]
  | _ => simp

/-- What a step does to the table: nothing, or the store of the claim step. -/
theorem step_table {N : Nat} {ev : Event} {s s' : State} (h : step N ev s = some s') :
    (s'.app.imagesInFlight = s.app.imagesInFlight ∧ ∀ j, claimsOf s'.trace j = claimsOf s.trace j) ∨
    (∃ fence, s.app.inFlightFences[s.app.currentFrame]? = some fence ∧
      s.imageIndex < s.app.imagesInFlight.length ∧
      s'.app.imagesInFlight = s.app.imagesInFlight.set s.imageIndex fence ∧
      ∀ j, claimsOf s'.trace j =
        claimsOf s.trace j ++ (if s.imageIndex = j then [fence] else [])) := by
  cases ev with
  | gpu j =>
    obtain ⟨g, _, rfl⟩ := step_gpu h
    exact Or.inl ⟨rfl, fun _ => rfl⟩
  | cpu a =>
    have h' : drawFrame.step N a s = some s' := h
    cases hpc : s.pc with
    | waitSlotFence =>
      obtain ⟨fence, _, _, rfl⟩ := step_waitSlotFence hpc h'
      exact Or.inl ⟨rfl, fun j => by simpa using claimsOf_append s.trace (.waitForFences fence) j⟩
    | resetSlotFence =>
      obtain ⟨fence, _, rfl⟩ := step_resetSlotFence hpc h'
      exact Or.inl ⟨rfl, fun j => by simpa using claimsOf_append s.trace (.resetFences fence) j⟩
    | acquireImage =>
      obtain ⟨semaphore, _, rfl⟩ := step_acquireImage hpc h'
      exact Or.inl ⟨rfl, fun j => by
        simpa using claimsOf_append s.trace (.acquireNextImage semaphore a.imageIndex) j⟩
    | waitImageFence =>
      obtain ⟨entry, _, hcase⟩ := step_waitImageFence hpc h'
      rcases hcase with ⟨_, rfl⟩ | ⟨_, _, rfl⟩
      · exact Or.inl ⟨rfl, fun _ => rfl⟩
      · exact Or.inl ⟨rfl, fun j => by
          simpa using claimsOf_append s.trace (.waitForFences entry) j⟩
    | claimImage =>
      obtain ⟨fence, hf, hi, rfl⟩ := step_claimImage hpc h'
      exact Or.inr ⟨fence, hf, hi, rfl, fun j => claimsOf_append s.trace _ j⟩
    | submit =>
      obtain ⟨_, _, _, _, _, _, _, _, hcase⟩ := step_submit hpc h'
      rcases hcase with ⟨_, rfl⟩ | ⟨_, rfl⟩
      · exact Or.inl ⟨rfl, fun j => by simpa using claimsOf_append s.trace (.queueSubmit _ _) j⟩
      · exact Or.inl ⟨rfl, fun j => by simpa using claimsOf_append s.trace (.queueSubmit _ _) j⟩
    | present =>
      have := step_present hpc h'
      subst this
      exact Or.inl ⟨rfl, fun j => by simpa using claimsOf_append s.trace (.queuePresent _) j⟩
    | advance =>
      obtain ⟨_, rfl⟩ := step_advance hpc h'
      exact Or.inl ⟨rfl, fun j => by simpa using claimsOf_append s.trace (.advance _) j⟩

theorem claimed_fresh (N n : Nat) : Claimed N n (fresh N n) := by
  have happ := fresh_app N n
  have htr : (fresh N n).trace = [] := rfl
  refine { fencesOf := by rw [happ], tableLen := by rw [happ]; simp, table := ?_, slots := ?_ }
  · intro j hj
    rw [happ, htr]
    simp [claimsOf, List.getElem?_replicate, hj]
  · intro j fence hmem
    rw [htr] at hmem
    simp [claimsOf] at hmem

theorem claimed_step {N n : Nat} {ev : Event} {s s' : State} (h : Claimed N n s)
    (hs : step N ev s = some s') : Claimed N n s' := by
  have hsame := step_sameObjects hs
  rcases step_table hs with ⟨htab, hcl⟩ | ⟨fence, hf, hi, htab, hcl⟩
  · refine { fencesOf := by rw [hsame.inFlightFences]; exact h.fencesOf,
             tableLen := by rw [htab]; exact h.tableLen, table := ?_, slots := ?_ }
    · intro j hj
      rw [htab, hcl]
      exact h.table j hj
    · intro j fence hmem
      rw [hcl] at hmem
      exact h.slots j fence hmem
  · rw [h.fencesOf] at hf
    obtain ⟨hc, rfl⟩ := range_map_some_get hf
    refine { fencesOf := by rw [hsame.inFlightFences]; exact h.fencesOf,
             tableLen := by rw [htab, List.length_set]; exact h.tableLen,
             table := ?_, slots := ?_ }
    · intro j hj
      rw [htab, hcl]
      by_cases hij : s.imageIndex = j
      · subst hij
        rw [List.getElem?_set_self hi]
        simp
      · rw [List.getElem?_set_ne hij]
        simpa [hij] using h.table j hj
    · intro j fence hmem
      rw [hcl] at hmem
      rcases List.mem_append.1 hmem with hmem | hmem
      · exact h.slots j fence hmem
      · by_cases hij : s.imageIndex = j
        · simp only [hij, if_true, List.mem_singleton] at hmem
          exact ⟨s.app.currentFrame, hc, hmem⟩
        · simp [hij] at hmem

theorem claimed_run (N n : Nat) (evs : List Event) :
    ∀ {s s' : State}, Claimed N n s → run N evs s = some s' → Claimed N n s' := by
  induction evs with
  | nil =>
    intro s s' h hrun
    simp only [run, Option.some.injEq] at hrun
    exact hrun ▸ h
  | cons ev evs ih =>
    intro s s' h hrun
    simp only [run] at hrun
    cases hstep : step N ev s with
    | none => simp [hstep] at hrun
    | some s1 =>
      simp only [hstep, Option.some_bind] at hrun
      exact ih (claimed_step h hstep) hrun

theorem Claimed.empty_iff {N n : Nat} {s : State} (h : Claimed N n s) (j : Nat) (hj : j < n) :
    s.app.imagesInFlight[j]? = some VK_NULL_HANDLE ↔ claimsOf s.trace j = [] := by
  rw [h.table j hj]
  constructor
  · intro hnull
    cases hl : (claimsOf s.trace j).getLast? with
    | none => exact List.getLast?_eq_none_iff.1 hl
    | some fence =>
      rw [hl] at hnull
      simp only [Option.getD_some, Option.some.injEq] at hnull
      obtain ⟨k, _, hk⟩ := h.slots j fence (List.mem_of_getLast?_eq_some hl)
      rw [hk] at hnull
      simp [VK_NULL_HANDLE] at hnull
  · intro hnil
    rw [hnil]
    rfl

/-- C14 (image-in-flight table). At every point of the frame loop the table has one entry
per presentable image; entry `j` is empty exactly when no claim step has stored into it, and
otherwise holds the fence of the most recent store, which is the fence `inFlightFences[s]`
of a slot `s`; and no step turns a non-empty entry into an empty one. -/
theorem table_tracks_last_claim (N n : Nat) (evs : List Event) (s : State)
    (hrun : run N evs (fresh N n) = some s) :
    s.app.imagesInFlight.length = n ∧ s.app.swapchainImages.length = n ∧
    (∀ j, j < n →
      (s.app.imagesInFlight[j]? = some VK_NULL_HANDLE ↔ claimsOf s.trace j = []) ∧
      ∀ fence, (claimsOf s.trace j).getLast? = some fence →
        s.app.imagesInFlight[j]? = some fence ∧ fence ≠ VK_NULL_HANDLE ∧
        ∃ slot, slot < N ∧ s.app.inFlightFences[slot]? = some fence) ∧
    ∀ ev s', step N ev s = some s' → ∀ (j : Nat) (entry : VkFence),
      s.app.imagesInFlight[j]? = some entry → entry ≠ VK_NULL_HANDLE →
      ∃ entry', s'.app.imagesInFlight[j]? = some entry' ∧ entry' ≠ VK_NULL_HANDLE := by
  have h := claimed_run N n evs (claimed_fresh N n) hrun
  have himg : s.app.swapchainImages.length = n := by
    rw [(run_sameObjects N evs hrun).swapchainImages, fresh_app]
    simp
  refine ⟨h.tableLen, himg, ?_, ?_⟩
  · intro j hj
    refine ⟨h.empty_iff j hj, ?_⟩
    intro fence hl
    obtain ⟨k, hk, hfk⟩ := h.slots j fence (List.mem_of_getLast?_eq_some hl)
    refine ⟨?_, ?_, k, hk, ?_⟩
    · rw [h.table j hj, hl]
      rfl
    · rw [hfk]
      simp [VK_NULL_HANDLE]
    · rw [h.fencesOf, hfk, List.getElem?_map, List.getElem?_range hk]
      rfl
  · intro ev s' hs j entry he hne
    rcases step_table hs with ⟨htab, _⟩ | ⟨fence, hf, hi, htab, _⟩
    · exact ⟨entry, by rw [htab]; exact he, hne⟩
    · rw [h.fencesOf] at hf
      obtain ⟨_, rfl⟩ := range_map_some_get hf
      by_cases hij : s.imageIndex = j
      · subst hij
        exact ⟨some s.app.currentFrame, by rw [htab, List.getElem?_set_self hi],
          by simp [VK_NULL_HANDLE]⟩
      · exact ⟨entry, by rw [htab, List.getElem?_set_ne hij]; exact he, hne⟩

theorem table_tracks_last_claim_witness :
    ∃ s, run 2 (frame 1 ++ [ok 0, ok 0, ok 1]) (fresh 2 3) = some s ∧
      s.app.imagesInFlight = [none, some 0, none] ∧
      claimsOf s.trace 1 = [some 0] ∧
      (s.app.imagesInFlight.length = 3 ∧ s.app.swapchainImages.length = 3 ∧
      (∀ j, j < 3 →
        (s.app.imagesInFlight[j]? = some VK_NULL_HANDLE ↔ claimsOf s.trace j = []) ∧
        ∀ fence, (claimsOf s.trace j).getLast? = some fence →
          s.app.imagesInFlight[j]? = some fence ∧ fence ≠ VK_NULL_HANDLE ∧
          ∃ slot, slot < 2 ∧ s.app.inFlightFences[slot]? = some fence) ∧
      ∀ ev s', step 2 ev s = some s' → ∀ (j : Nat) (entry : VkFence),
        s.app.imagesInFlight[j]? = some entry → entry ≠ VK_NULL_HANDLE →
        ∃ entry', s'.app.imagesInFlight[j]? = some entry' ∧ entry' ≠ VK_NULL_HANDLE) :=
  ⟨(run 2 (frame 1 ++ [ok 0, ok 0, ok 1]) (fresh 2 3)).getD (fresh 2 3), rfl, rfl, rfl,
    table_tracks_last_claim 2 3 (frame 1 ++ [ok 0, ok 0, ok 1]) _ rfl⟩

/-! ## Creation and release of the GPU resources -/

theorem filterMap_some_map {α β : Type} (f : α → β) (l : List α) :
    l.filterMap (fun x => some (f x)) = l.map f := by
  induction l with
  | nil => rfl
  | cons a l ih => simp [List.filterMap_cons, ih]

theorem filterMap_none {α β : Type} (l : List α) :
    l.filterMap (fun _ => (none : Option β)) = [] := by
  induction l with
  | nil => rfl
  | cons a l ih => simp [List.filterMap_cons, ih]

theorem flatMap_nil_fun {α β : Type} (l : List α) :
    l.flatMap (fun _ => ([] : List β)) = [] := by
  induction l with
  | nil => rfl
  | cons a l ih => simp [List.flatMap_cons, ih]

theorem created_constructorCalls (v : Bool) (N n : Nat) :
    created (constructorCalls v N n) =
      [.vkInstance] ++ (if v then [.debugMessenger] else []) ++
      [.surface, .device, .swapchain] ++ (List.range n).map .swapchainImageView ++
      [.renderPass, .shaderModule 0, .shaderModule 1, .pipelineLayout, .graphicsPipeline] ++
      (List.range n).map .swapchainFramebuffer ++
      [.vertexBuffer, .vertexBufferMemory, .commandPool] ++
      (List.range n).map .commandBuffer ++
      (List.range N).flatMap (fun i =>
        [.imageAvailableSemaphore i, .renderCompleteSemaphore i, .inFlightFence i]) := by
  cases v <;>
    simp [created, constructorCalls, List.filterMap_append, List.filterMap_map,
      List.filterMap_flatMap, Function.comp_def, filterMap_some_map, filterMap_none,
      flatMap_nil_fun]

theorem destroyed_constructorCalls (v : Bool) (N n : Nat) :
    destroyed (constructorCalls v N n) = [.shaderModule 1, .shaderModule 0] := by
  cases v <;>
    simp [destroyed, constructorCalls, List.filterMap_append, List.filterMap_map,
      List.filterMap_flatMap, Function.comp_def, filterMap_some_map, filterMap_none,
      flatMap_nil_fun]

theorem destroyed_destructorCalls (v : Bool) (N n : Nat) :
    destroyed (destructorCalls v N n) =
      (List.range N).flatMap (fun i =>
        [.imageAvailableSemaphore i, .renderCompleteSemaphore i, .inFlightFence i]) ++
      [.commandPool, .vertexBuffer, .vertexBufferMemory] ++
      (List.range n).map .swapchainFramebuffer ++
      [.graphicsPipeline, .pipelineLayout, .renderPass] ++
      (List.range n).map .swapchainImageView ++
      [.swapchain, .device, .surface] ++
      (if v then [.debugMessenger] else []) ++ [.vkInstance] := by
  cases v <;>
    simp [destroyed, destructorCalls, List.filterMap_append, List.filterMap_map,
      List.filterMap_flatMap, Function.comp_def, filterMap_some_map, filterMap_none,
      flatMap_nil_fun]

theorem releaseStages_flatten (v : Bool) (N n : Nat) :
    (releaseStages v N n).flatten =
      (owned (constructorCalls v N n)).filter (fun r => !r.isCommandBuffer) := by
  unfold owned
  rw [created_constructorCalls, destroyed_constructorCalls]
  cases v <;>
    simp [releaseStages, List.filter_append, List.filter_map, List.filter_flatMap,
      Function.comp_def, Resource.isCommandBuffer, List.filter_cons, flatMap_nil_fun]

theorem releaseStages_reverse_flatten (v : Bool) (N n : Nat) :
    (releaseStages v N n).reverse.flatten = destroyed (destructorCalls v N n) := by
  rw [destroyed_destructorCalls]
  cases v <;> simp [releaseStages]

theorem vertexBuffer_before_memory (v : Bool) (N n : Nat) :
    (destroyed (destructorCalls v N n)).filter
        (fun r => decide (r = .vertexBuffer ∨ r = .vertexBufferMemory)) =
      [.vertexBuffer, .vertexBufferMemory] ∧
    (created (constructorCalls v N n)).filter
        (fun r => decide (r = .vertexBuffer ∨ r = .vertexBufferMemory)) =
      [.vertexBuffer, .vertexBufferMemory] ∧
    (owned (constructorCalls v N n)).filter
        (fun r => decide (r = .vertexBuffer ∨ r = .vertexBufferMemory)) =
      [.vertexBuffer, .vertexBufferMemory] := by
  unfold owned
  rw [destroyed_destructorCalls, created_constructorCalls, destroyed_constructorCalls]
  cases v <;>
    simp [List.filter_append, List.filter_map, List.filter_flatMap,
      Function.comp_def, List.filter_cons, flatMap_nil_fun]

theorem ne_reverse_of_filter {α : Type} (p : α → Bool) (a b : α) (hab : a ≠ b)
    (d l : List α) (hd : d.filter p = [a, b]) (hl : l.filter p = [a, b]) :
    d ≠ l.reverse := by
  intro h
  have h2 : d.filter p = (l.filter p).reverse := by
    rw [h, List.filter_reverse]
  rw [hd, hl] at h2
  simp at h2
  exact hab h2.1

/-- C15 as stated fails. With one frame slot, one presentable image and the validation
layers off, the sequence of resources the destructor destroys is neither the reverse of
the sequence the constructor created, nor the reverse of those it still owns when it
returns, nor that reverse with the command buffers left out: the three synchronisation
objects of the slot go in their order of creation, and the vertex buffer goes before its
memory, as they were created. -/
theorem destructor_not_reverse :
    decide (destroyed (destructorCalls false 1 1) =
      (created (constructorCalls false 1 1)).reverse) = false ∧
    decide (destroyed (destructorCalls false 1 1) =
      (owned (constructorCalls false 1 1)).reverse) = false ∧
    decide (destroyed (destructorCalls false 1 1) =
      ((owned (constructorCalls false 1 1)).filter (fun r => !r.isCommandBuffer)).reverse)
      = false ∧
    (destroyed (destructorCalls false 1 1)).take 6 =
      [.imageAvailableSemaphore 0, .renderCompleteSemaphore 0, .inFlightFence 0,
       .commandPool, .vertexBuffer, .vertexBufferMemory] ∧
    ((owned (constructorCalls false 1 1)).reverse).take 6 =
      [.inFlightFence 0, .renderCompleteSemaphore 0, .imageAvailableSemaphore 0,
       .commandBuffer 0, .commandPool, .vertexBufferMemory] := by
  refine ⟨by decide, by decide, by decide, by decide, by decide⟩

/-- C15, amended. For every N, every number n of presentable images and either setting of
the validation layers, the destructor destroys the stages of construction in the reverse
of their order, and the resources of one stage in their order of creation: the sequence
destroyed is the stage list reversed and then flattened, where the stage list flattened
is the sequence of resources the constructor leaves owned, in order of creation, without
the command buffers (which go with their pool). So the destructor destroys exactly those
resources, each once up to reordering, and creates none; and its sequence is for no N and
n the reverse of the sequence created or owned, because the vertex buffer is destroyed
before its memory is freed, as they were created. -/
theorem destructor_order (enableValidationLayers : Bool) (N n : Nat) :
    destroyed (destructorCalls enableValidationLayers N n) =
      (releaseStages enableValidationLayers N n).reverse.flatten ∧
    (releaseStages enableValidationLayers N n).flatten =
      (owned (constructorCalls enableValidationLayers N n)).filter
        (fun r => !r.isCommandBuffer) ∧
    List.Perm (destroyed (destructorCalls enableValidationLayers N n))
      ((owned (constructorCalls enableValidationLayers N n)).filter
        (fun r => !r.isCommandBuffer)) ∧
    created (destructorCalls enableValidationLayers N n) = [] ∧
    destroyed (destructorCalls enableValidationLayers N n) ≠
      (created (constructorCalls enableValidationLayers N n)).reverse ∧
    destroyed (destructorCalls enableValidationLayers N n) ≠
      (owned (constructorCalls enableValidationLayers N n)).reverse ∧
    destroyed (destructorCalls enableValidationLayers N n) ≠
      ((owned (constructorCalls enableValidationLayers N n)).filter
        (fun r => !r.isCommandBuffer)).reverse := by
  have hv := vertexBuffer_before_memory enableValidationLayers N n
  have hne : Resource.vertexBuffer ≠ Resource.vertexBufferMemory := by decide
  refine ⟨(releaseStages_reverse_flatten _ _ _).symm, releaseStages_flatten _ _ _, ?_, ?_,
    ne_reverse_of_filter _ _ _ hne _ _ hv.1 hv.2.1,
    ne_reverse_of_filter _ _ _ hne _ _ hv.1 hv.2.2, ?_⟩
  · rw [← releaseStages_flatten, ← releaseStages_reverse_flatten]
    exact (List.reverse_perm _).flatten
  · cases enableValidationLayers <;>
      simp [created, destructorCalls, List.filterMap_append, List.filterMap_map,
        List.filterMap_flatMap, Function.comp_def, filterMap_none, flatMap_nil_fun]
  · refine ne_reverse_of_filter _ _ _ hne _ _ hv.1 ?_
    rw [List.filter_filter]
    rw [← hv.2.2]
    congr 1
    funext r
    cases r <;> simp [Resource.isCommandBuffer]

end VulkanSampleApp
